import Mathlib

/-!
Verification of the DISC3D Metashape batch scripts.

Shallow embedding of `src/disc3d_batch_metashape.py` (Method B) and
`src/disc3d_methodA_from_calibrated_xml.py` (Method A).  The external
Metashape engine is modelled as an oracle assigning an outcome to every
engine call; a run of `process_scan` produces a trace of events (engine
call attempts with their outcomes, attribute assignments, filesystem
effects, warnings) together with either a returned `(status, message)`
pair or an uncaught Python exception.

Modelling conventions:
  * Python exceptions are abstracted to the classes the scripts
    distinguish in `except` handlers: `TypeError`, `AttributeError`, and
    everything else.
  * Plain attribute assignments on engine objects that the source does
    not guard (for example `chunk.label = "DISC3D"` or `cal.f = ...`)
    are modelled as always-succeeding trace events; calls and guarded
    assignments are fallible, with the outcome chosen by the engine
    oracle.
  * Filesystem reads (globs, file lists) are part of the immutable
    `ScanDir` input; `mkdir(exist_ok=True)` is modelled as an
    always-succeeding filesystem event.
  * Python floats are carried opaquely as rationals: the scripts never
    compute with them, they only pass them through.
-/

set_option maxHeartbeats 1000000

namespace Disc3D

/-- Python exception classes, abstracted to the granularity the two scripts
distinguish in their `except` clauses. -/
inductive PyErr
  | typeError
  | attributeError
  | otherError (msg : String)
deriving DecidableEq

/-- Result of a single engine call attempt. -/
inductive Outcome
  | ok
  | raise (e : PyErr)
deriving DecidableEq

/-- Intrinsic calibration values written by Method B before alignment
(`cal.f = float(f_px)`, all other terms zeroed); `width`/`height` are
`none` when the sensor did not report a (truthy) size. -/
structure CalValues where
  width : Option Nat
  height : Option Nat
  f : Rat
  cx : Rat
  cy : Rat
  k1 : Rat
  k2 : Rat
  k3 : Rat
  k4 : Rat
  p1 : Rat
  p2 : Rat
  b1 : Rat
  b2 : Rat
deriving DecidableEq

/-- Intrinsic fit flags passed to `optimizeCameras`; a flag absent from a
given call signature is recorded as `false` (the engine default). -/
structure FitMask where
  f : Bool
  cx : Bool
  cy : Bool
  b1 : Bool
  b2 : Bool
  k1 : Bool
  k2 : Bool
  k3 : Bool
  k4 : Bool
  p1 : Bool
  p2 : Bool
  p3 : Bool
  p4 : Bool
deriving DecidableEq

/-- The fit mask with every flag clear. -/
def FitMask.allFalse : FitMask :=
  ⟨false, false, false, false, false, false, false, false, false, false, false, false, false⟩

/-- The fit mask fitting focal length only. -/
def FitMask.fOnly : FitMask :=
  ⟨true, false, false, false, false, false, false, false, false, false, false, false, false⟩

/-- Which `matchPhotos` signature was used: the primary one passing an
accuracy enum, or the fallback passing `downscale=0`. -/
inductive MatchSig
  | accuracyEnum
  | downscale0
deriving DecidableEq

/-- Semantic parameters carried by both `matchPhotos` signatures. -/
structure MatchParams where
  keypointLimit : Nat
  tiepointLimit : Nat
  keepKeypoints : Bool
  guidedMatching : Bool
  filterStationaryPoints : Bool
  genericPreselection : Bool
  referencePreselection : Bool
deriving DecidableEq

/-- Which `optimizeCameras` signature was used. -/
inductive OptimizeSig
  | fullB
  | reducedB
  | lockedA
deriving DecidableEq

/-- Which `buildDepthMaps` signature was used. -/
inductive DepthSig
  | downscaleMild
  | qualityMild
  | defaults
deriving DecidableEq

/-- Which `buildModel` signature was used. -/
inductive ModelSig
  | current
  | legacy
  | defaults
deriving DecidableEq

/-- Which `exportCameras` signature was used. -/
inductive ExportSig
  | current
  | legacy
deriving DecidableEq

/-- Engine (Metashape API) calls the two scripts perform, with the
arguments relevant to the specification. -/
inductive ECall
  | newDocument
  | addChunk
  | saveAs (path : String)
  | save
  | addPhotos (paths : List String)
  | importReference (path : String) (withCrs : Bool)
  | importCamerasCrs (path : String)
  | importCamerasPlain (path : String)
  | updateTransform
  | lockFixedCalibration
  | setGpu (idx : Int)
  | matchPhotos (sig : MatchSig) (p : MatchParams)
  | alignCameras (adaptiveFitting : Option Bool)
  | chunkCopy
  | chunkDuplicate
  | qcSetLabel (label : String)
  | qcSetEnabled (b : Bool)
  | optimizeCameras (sig : OptimizeSig) (mask : FitMask)
  | buildDepthMaps (sig : DepthSig)
  | buildModel (sig : ModelSig)
  | exportCameras (sig : ExportSig) (path : String)
  | clearDepthMaps
  | setDepthMapsNone
  | removeMatches
deriving DecidableEq

/-- One observable event of a run. -/
inductive Event
  | ecall (c : ECall) (r : Outcome)
  | mkdirModels
  | setChunkLabel (label : String)
  | setUserCalib (c : CalValues)
  | setCalibration (c : CalValues)
  | setFixedCalibration (b : Bool)
  | setCrs
  | warn (msg : String)
deriving DecidableEq

/-- The external reconstruction engine, as an oracle: an outcome for every
call, plus the observable attribute facts the scripts read. -/
structure Engine where
  callResult : ECall → Outcome
  sensorsEmpty : Bool
  sensorWidth : Option Nat
  sensorHeight : Option Nat
  hasRemoveMatches : Bool

/-- The engine for which every call succeeds. -/
def Engine.allOk : Engine :=
  ⟨fun _ => Outcome.ok, false, none, none, true⟩

/-- Computation model for a run fragment: the list of emitted events plus
either a returned value or an uncaught Python exception. -/
abbrev M (α : Type) : Type := List Event × Except PyErr α

/-- Return without emitting events. -/
def mret {α : Type} (a : α) : M α := ([], Except.ok a)

/-- Sequencing: an uncaught exception in the first fragment skips the
second, exactly as in straight-line Python. -/
def mbind {α β : Type} (m : M α) (f : α → M β) : M β :=
  match m.2 with
  | Except.ok a => (m.1 ++ (f a).1, (f a).2)
  | Except.error e => (m.1, Except.error e)

instance : Monad M where
  pure := mret
  bind := mbind

/-- Emit one always-succeeding event (unguarded attribute assignment or
filesystem effect). -/
def emit (e : Event) : M Unit := ([e], Except.ok ())

/-- Perform one engine call: the attempt is always recorded in the trace;
a raising outcome becomes an uncaught exception of the fragment. -/
def call (eng : Engine) (c : ECall) : M Unit :=
  match eng.callResult c with
  | Outcome.ok => ([Event.ecall c Outcome.ok], Except.ok ())
  | Outcome.raise e => ([Event.ecall c (Outcome.raise e)], Except.error e)

/-- Python `try: m except Exception: h e` — catches every exception. -/
def tryAll {α : Type} (m : M α) (h : PyErr → M α) : M α :=
  match m.2 with
  | Except.ok _ => m
  | Except.error e => (m.1 ++ (h e).1, (h e).2)

/-- Python `try: m except TypeError: h` — other exceptions propagate. -/
def tryType {α : Type} (m : M α) (h : M α) : M α :=
  match m.2 with
  | Except.error PyErr.typeError => (m.1 ++ h.1, h.2)
  | _ => m

/-- Python `try: m except AttributeError: h` — other exceptions
propagate. -/
def tryAttr {α : Type} (m : M α) (h : M α) : M α :=
  match m.2 with
  | Except.error PyErr.attributeError => (m.1 ++ h.1, h.2)
  | _ => m

/-- Python `try: m except Exception: pass`. -/
def tryAllSwallow (m : M Unit) : M Unit := tryAll m (fun _ => mret ())

/-- Python whitespace class `\s` (ASCII part). -/
def pySpace (c : Char) : Bool :=
  c = ' ' || c = '\t' || c = '\n' || c = '\x0d' || c = '\x0b' || c = '\x0c'

/-- Python `str.lstrip()`. -/
def pyLStrip (s : String) : String :=
  String.mk (s.toList.dropWhile pySpace)

/-- Python `str.strip()`. -/
def pyStrip (s : String) : String :=
  String.mk (((s.toList.dropWhile pySpace).reverse.dropWhile pySpace).reverse)

/-- Checks that a character list is exactly eight decimal digits, a
literal `T`, then six decimal digits (the body of the timestamp regex). -/
def tsCore (cs : List Char) : Bool :=
  cs.length = 15 && (cs.take 8).all Char.isDigit &&
    (cs.drop 8).take 1 = ['T'] && (cs.drop 9).all Char.isDigit

/-- Matcher for the source regex `^\s*(\d{8}T\d{6})\s*$`: returns the
captured group on a match.  Structure of a matching line: optional
whitespace, the timestamp (which contains no whitespace), optional
whitespace, end of line. -/
def reTsMatch (s : String) : Option String :=
  if tsCore ((s.toList.dropWhile pySpace).takeWhile (fun c => !pySpace c)) &&
      ((s.toList.dropWhile pySpace).dropWhile (fun c => !pySpace c)).all
        pySpace then
    some (String.mk
      ((s.toList.dropWhile pySpace).takeWhile (fun c => !pySpace c)))
  else none

/-- Translation of `line.lstrip().startswith("#")`: the first
non-whitespace character is a hash. -/
def startsWithHash (s : String) : Bool :=
  match s.toList.dropWhile pySpace with
  | c :: _ => c = '#'
  | [] => false

/-- Source: `read_dates` (identical filtering logic in both scripts,
`disc3d_batch_metashape.py` lines 86-99 and
`disc3d_methodA_from_calibrated_xml.py` lines 29-34).  Input is the list
of lines of the scan-list file.  `not line.strip()` is translated as all
characters being whitespace. -/
def read_dates (lines : List String) : List String :=
  lines.foldr
    (fun line acc =>
      if line.toList.all pySpace || startsWithHash line then acc
      else
        match reTsMatch line with
        | some d => d :: acc
        | none => acc)
    []

/-- Kernel-computable replacement for `String.endsWith`. -/
def strEndsWith (s t : String) : Bool := t.toList.isSuffixOf s.toList

/-- Kernel-computable replacement for `String.startsWith`. -/
def strStartsWith (s t : String) : Bool := t.toList.isPrefixOf s.toList

/-- Kernel-computable replacement for `String.dropRight`. -/
def strDropRight (s : String) (n : Nat) : String :=
  String.mk (s.toList.take (s.toList.length - n))

/-- Python `sub in s` substring test. -/
def containsSub (pat : List Char) : List Char → Bool
  | [] => pat.isEmpty
  | c :: cs => pat.isPrefixOf (c :: cs) || containsSub pat cs

/-- Fuel-indexed worker for Python `str.replace` (replace every
non-overlapping occurrence, scanning left to right); the fuel is the
length of the remaining input, so it never runs out. -/
def replaceListAux (pat repl : List Char) : Nat → List Char → List Char
  | _, [] => []
  | 0, s => s
  | fuel + 1, c :: cs =>
    if pat.isPrefixOf (c :: cs) && !pat.isEmpty then
      repl ++ replaceListAux pat repl fuel ((c :: cs).drop pat.length)
    else c :: replaceListAux pat repl fuel cs

/-- Python `s.replace(pat, repl)` for a nonempty pattern (the scripts only
replace the literal `__DISC3D`). -/
def pyReplace (s pat repl : String) : String :=
  String.mk (replaceListAux pat.toList repl.toList s.toList.length s.toList)

/-- Python `s.split(pat)[0]` for the pattern `__`: the prefix of the
string up to the first occurrence of the separator. -/
def takeUntilSub (pat : List Char) : List Char → List Char
  | [] => []
  | c :: cs => if pat.isPrefixOf (c :: cs) then [] else c :: takeUntilSub pat cs

/-- Matcher for the source regex `^(.+?)__edof$`: the capture group is the
folder name with the final `__edof` stripped, provided it is nonempty. -/
def stripEdof (s : String) : Option String :=
  if strEndsWith s "__edof" && 6 < s.length then some (strDropRight s 6)
  else none

/-- Lexicographic comparison of character lists by code point, the order
Python uses for strings (and hence for paths sharing a directory). -/
def lexLe : List Char → List Char → Bool
  | [], _ => true
  | _ :: _, [] => false
  | a :: as, b :: bs => if a = b then lexLe as bs else decide (a < b)

/-- Python string order. -/
def strLe (a b : String) : Bool := lexLe a.toList b.toList

/-- Sorted list of strings, modelling Python `sorted` on paths that share
a directory (stable sort by code-point order). -/
def sortStrings (xs : List String) : List String :=
  List.insertionSort (fun a b => strLe a b = true) xs

/-- One entry produced by `scan_dir.glob("*__edof")`. -/
structure EdofEntry where
  name : String
  isDir : Bool
  pngs : List String
deriving DecidableEq

/-- Immutable filesystem contents of one candidate scan folder, as read by
the scripts: the `*__edof` glob results (with the `.png` files inside
each), the `*__CamPos.txt` glob results, the files in `models/` matching
the configured calibrated-cameras XML glob, and whether the folder is a
directory and already has a `models/` subdirectory. -/
structure ScanDir where
  name : String
  isDir : Bool
  edofEntries : List EdofEntry
  camposFiles : List String
  modelsXmlMatches : List String
  modelsExists : Bool
deriving DecidableEq

/-- Sorted list of scan folders by name, modelling `sorted(found)`. -/
def sortScanDirs (xs : List ScanDir) : List ScanDir :=
  List.insertionSort (fun a b => strLe a.name b.name = true) xs

/-- Sorted image list of the resolved edof folder:
`sorted((scan_dir / (uid + "__edof")).glob("*.png"))` in both scripts. -/
def imgsOf (d : ScanDir) (uid : String) : List String :=
  sortStrings
    (((d.edofEntries.find? (fun e => e.name = uid ++ "__edof")).map
      EdofEntry.pngs).getD [])

namespace MethodB

/-- Source: `get_uid_and_dataset` (`disc3d_batch_metashape.py` lines
120-130).  Method B only considers glob hits that are directories. -/
def get_uid_and_dataset (d : ScanDir) : Option String × String :=
  let dataset_id := pyReplace d.name "__DISC3D" ""
  let uid := (d.edofEntries.filter (fun e => e.isDir)).findSome?
    (fun e => stripEdof e.name)
  (uid, dataset_id)

/-- Source: `find_scans` (`disc3d_batch_metashape.py` lines 102-117).
`root.rglob("*__DISC3D")` is modelled by filtering the root entries whose
name ends with `__DISC3D`. -/
def find_scans (root : List ScanDir) (dates : List String) : List ScanDir :=
  sortScanDirs (root.filter (fun d =>
    strEndsWith d.name "__DISC3D" && d.isDir &&
      containsSub "__".toList d.name.toList &&
      dates.any (fun dt => strStartsWith d.name (dt ++ "__"))))

/-- Fixed matching parameters of Method B (`matchPhotos`, lines 225-249):
keypoint and tie-point limits 250000, keypoints not kept, guided matching
off, stationary-point filtering on, generic and reference preselection
on. -/
def bMatchParams : MatchParams :=
  ⟨250000, 250000, false, false, true, true, true⟩

/-- Calibration object built at lines 182-196: image size carried over
when the sensor reports a truthy value, `f` seeded from `--f-px`, every
other term zero. -/
def mkCal (eng : Engine) (f_px : Rat) : CalValues :=
  { width := match eng.sensorWidth with
      | some w => if w = 0 then none else some w
      | none => none
    height := match eng.sensorHeight with
      | some h => if h = 0 then none else some h
      | none => none
    f := f_px, cx := 0, cy := 0, k1 := 0, k2 := 0, k3 := 0, k4 := 0
    p1 := 0, p2 := 0, b1 := 0, b2 := 0 }

/-- Lines 168-172: new document, new chunk, chunk label, first save to the
archive path. -/
def startProject (eng : Engine) (psz : String) : M Unit := do
  call eng ECall.newDocument
  call eng ECall.addChunk
  emit (Event.setChunkLabel "DISC3D")
  call eng (ECall.saveAs psz)

/-- Lines 174-176: add photos as single cameras, then save. -/
def addPhotosStep (eng : Engine) (imgs : List String) : M Unit := do
  call eng (ECall.addPhotos imgs)
  call eng ECall.save

/-- Lines 182-202: seed the precalibrated intrinsics (user calibration,
working calibration, `fixed_calibration = False`), then save. -/
def calibStep (eng : Engine) (f_px : Rat) : M Unit := do
  emit (Event.setUserCalib (mkCal eng f_px))
  emit (Event.setCalibration (mkCal eng f_px))
  emit (Event.setFixedCalibration false)
  call eng ECall.save

/-- Assignment of `chunk.crs` and `chunk.camera_crs` when a coordinate
system was loaded (a no-op otherwise). -/
def crsStep (hasCrs : Bool) : M Unit :=
  if hasCrs then emit Event.setCrs else mret ()

/-- Lines 204-220: optional CRS assignment, reference import from the
CamPos file, save. -/
def importRefStep (eng : Engine) (campos : String) (hasCrs : Bool) :
    M Unit := do
  crsStep hasCrs
  call eng (ECall.importReference campos hasCrs)
  call eng ECall.save

/-- Lines 223-255: match photos (primary accuracy-enum signature, any
failure retried with the `downscale=0` signature), align cameras (primary
with `adaptive_fitting=False`, `TypeError` retried without arguments),
save. -/
def matchAlignStep (eng : Engine) : M Unit := do
  tryAll (call eng (ECall.matchPhotos MatchSig.accuracyEnum bMatchParams))
    (fun _ => call eng (ECall.matchPhotos MatchSig.downscale0 bMatchParams))
  tryType (call eng (ECall.alignCameras (some false)))
    (call eng (ECall.alignCameras none))
  call eng ECall.save

/-- Lines 257-280: duplicate the aligned chunk (`copy`, falling back to
`duplicate`); on success relabel it, disable it and save; on failure warn
and continue. -/
def qcStep (eng : Engine) : M Unit := do
  let qcOk ← tryAll (mbind (call eng ECall.chunkCopy) (fun _ => mret true))
    (fun _ =>
      tryAll (mbind (call eng ECall.chunkDuplicate) (fun _ => mret true))
        (fun _ => mret false))
  if qcOk then do
    tryAllSwallow (call eng (ECall.qcSetLabel "DISC3D__QC_ALIGNED"))
    tryAllSwallow (call eng (ECall.qcSetEnabled false))
    call eng ECall.save
  else
    emit (Event.warn "QC chunk could not be duplicated; continuing.")

/-- Lines 285-302: optimize cameras fitting focal length only (full
keyword set, `TypeError` retried with the older reduced keyword set),
save. -/
def optimizeStep (eng : Engine) : M Unit := do
  tryType (call eng (ECall.optimizeCameras OptimizeSig.fullB FitMask.fOnly))
    (call eng (ECall.optimizeCameras OptimizeSig.reducedB FitMask.fOnly))
  call eng ECall.save

/-- Lines 304-313: build depth maps (`downscale=1` signature; on
`TypeError` the older quality signature, any failure of which falls back
to engine defaults), save. -/
def depthStep (eng : Engine) : M Unit := do
  tryType (call eng (ECall.buildDepthMaps DepthSig.downscaleMild))
    (tryAll (call eng (ECall.buildDepthMaps DepthSig.qualityMild))
      (fun _ => call eng (ECall.buildDepthMaps DepthSig.defaults)))
  call eng ECall.save

/-- Lines 315-338: build the mesh from depth maps (current signature; on
`TypeError` the legacy signature, any failure of which falls back to
engine defaults), save. -/
def meshStep (eng : Engine) : M Unit := do
  tryType (call eng (ECall.buildModel ModelSig.current))
    (tryAll (call eng (ECall.buildModel ModelSig.legacy))
      (fun _ => call eng (ECall.buildModel ModelSig.defaults)))
  call eng ECall.save

/-- Lines 340-361: export calibrated cameras (current signature, legacy
signature on `TypeError`), final save. -/
def exportStep (eng : Engine) (cams_xml : String) : M Unit := do
  tryType (call eng (ECall.exportCameras ExportSig.current cams_xml))
    (call eng (ECall.exportCameras ExportSig.legacy cams_xml))
  call eng ECall.save

/-- Engine-facing part of `process_scan` after validation succeeded
(lines 168-362). -/
def enginePhase (eng : Engine) (f_px : Rat) (hasCrs : Bool)
    (imgs : List String) (campos psz cams_xml : String) :
    M (String × String) := do
  startProject eng psz
  addPhotosStep eng imgs
  if eng.sensorsEmpty then
    mret ("fail", "No sensor after adding photos")
  else do
    calibStep eng f_px
    importRefStep eng campos hasCrs
    matchAlignStep eng
    qcStep eng
    optimizeStep eng
    depthStep eng
    meshStep eng
    exportStep eng cams_xml
    mret ("ok", "Saved " ++ psz ++ "  cams_xml=" ++ cams_xml)

/-- Source: `process_scan` (`disc3d_batch_metashape.py` lines 144-362).
Validation (uid folder, images, exactly one CamPos file), then the models
directory is created and the engine pipeline runs.  The source quotes
`<uid>__edof` in its first failure message; the quotes are dropped
here. -/
def process_scan (eng : Engine) (d : ScanDir) (f_px : Rat)
    (hasCrs : Bool) : M (String × String) :=
  let p := get_uid_and_dataset d
  match p.1 with
  | none => mret ("fail", "No <uid>__edof folder found")
  | some uid =>
    let dataset_id := p.2
    let imgs := imgsOf d uid
    if imgs.isEmpty then
      mret ("fail", "No PNGs in " ++ d.name ++ "/" ++ uid ++ "__edof")
    else if d.camposFiles.length ≠ 1 then
      mret ("fail", "Missing or multiple CamPos.txt")
    else
      let campos := d.camposFiles.headD ""
      let psz := "models/" ++ dataset_id ++ ".psz"
      let cams_xml := "models/" ++ dataset_id ++ "_Calibrated_Cameras_" ++
        uid ++ "_" ++ String.mk (takeUntilSub "__".toList dataset_id.toList) ++ ".xml"
      mbind (emit Event.mkdirModels)
        (fun _ => enginePhase eng f_px hasCrs imgs campos psz cams_xml)

end MethodB

namespace MethodA

/-- Source: `get_uid_dataset` (`disc3d_methodA_from_calibrated_xml.py`
lines 43-49).  Unlike Method B there is no `is_dir` check on the glob
hits. -/
def get_uid_dataset (d : ScanDir) : Option String × String :=
  let ds := pyReplace d.name "__DISC3D" ""
  let uid := d.edofEntries.findSome? (fun e => stripEdof e.name)
  (uid, ds)

/-- Source: `find_scans` (`disc3d_methodA_from_calibrated_xml.py` lines
36-41). -/
def find_scans (root : List ScanDir) (dates : List String) : List ScanDir :=
  sortScanDirs (root.filter (fun d =>
    strEndsWith d.name "__DISC3D" && d.isDir &&
      dates.any (fun dt => strStartsWith d.name (dt ++ "__"))))

/-- Rendering of a Python exception as text, for messages built with
`f"... {e}"`. -/
def pyErrStr : PyErr → String
  | PyErr.typeError => "TypeError"
  | PyErr.attributeError => "AttributeError"
  | PyErr.otherError m => m

/-- Matching parameters of Method A (`matchPhotos`, lines 128-151), taken
from the command line. -/
def aMatchParams (keyLimit tieLimit : Nat) (keepKeypoints : Bool) :
    MatchParams :=
  ⟨keyLimit, tieLimit, keepKeypoints, false, true, true, true⟩

/-- Source: `enable_gpu_index` (lines 57-64): guarded GPU selection; a
failure only prints a warning. -/
def enable_gpu_index (eng : Engine) (idx : Option Int) : M Unit :=
  match idx with
  | none => mret ()
  | some i =>
    tryAll (call eng (ECall.setGpu i))
      (fun e => emit (Event.warn ("[GPU] warn: " ++ pyErrStr e)))

/-- Source: `thin_project` (lines 66-74): optionally clear depth maps
(`AttributeError` falls back to a guarded attribute reset) and remove
matches when the binding supports it. -/
def thin_project (eng : Engine) (clear_depth clear_matches : Bool) :
    M Unit :=
  mbind
    (if clear_depth then
      tryAttr (call eng ECall.clearDepthMaps)
        (tryAllSwallow (call eng ECall.setDepthMapsNone))
    else mret ())
    (fun _ =>
      if clear_matches && eng.hasRemoveMatches then
        tryAllSwallow (call eng ECall.removeMatches)
      else mret ())

/-- Lines 109-116: import the calibrated cameras XML; a `TypeError` on
the CRS-bearing signature retries without CRS, and any failure of that
fallback becomes an early `fail` return. -/
def importCamerasStep (eng : Engine) (xml : String) :
    M (Option (String × String)) :=
  tryType (mbind (call eng (ECall.importCamerasCrs xml)) (fun _ => mret none))
    (tryAll
      (mbind (call eng (ECall.importCamerasPlain xml)) (fun _ => mret none))
      (fun e => mret (some ("fail", "importCameras failed: " ++ pyErrStr e))))

/-- Lines 127-156: match photos (primary accuracy-enum signature, any
failure retried with the `downscale=0` signature), align cameras
(`TypeError` retried without arguments), save. -/
def matchAlignStepA (eng : Engine) (p : MatchParams) : M Unit := do
  tryAll (call eng (ECall.matchPhotos MatchSig.accuracyEnum p))
    (fun _ => call eng (ECall.matchPhotos MatchSig.downscale0 p))
  tryType (call eng (ECall.alignCameras (some false)))
    (call eng (ECall.alignCameras none))
  call eng ECall.save

/-- Lines 158-169: bundle adjustment with every fit flag false; a
`TypeError` skips the call entirely; save. -/
def optimizeStepA (eng : Engine) : M Unit := do
  tryType
    (call eng (ECall.optimizeCameras OptimizeSig.lockedA FitMask.allFalse))
    (mret ())
  call eng ECall.save

/-- Lines 171-177: build depth maps (quality signature; any failure
retried with the `downscale` signature, any failure of which falls back to
engine defaults), save. -/
def depthStepA (eng : Engine) : M Unit := do
  tryAll (call eng (ECall.buildDepthMaps DepthSig.qualityMild))
    (fun _ =>
      tryAll (call eng (ECall.buildDepthMaps DepthSig.downscaleMild))
        (fun _ => call eng (ECall.buildDepthMaps DepthSig.defaults)))
  call eng ECall.save

/-- Lines 179-192: build the mesh (current signature; `TypeError` retried
with the legacy signature, any failure of which falls back to engine
defaults), save. -/
def meshStepA (eng : Engine) : M Unit := do
  tryType (call eng (ECall.buildModel ModelSig.current))
    (tryAll (call eng (ECall.buildModel ModelSig.legacy))
      (fun _ => call eng (ECall.buildModel ModelSig.defaults)))
  call eng ECall.save

/-- Lines 120-125: lock the imported intrinsics.  The source iterates
`chunk.sensors` and sets each sensor's `fixed_calibration = True` inside
a `try/except Exception: pass`: with no sensors nothing is attempted,
and a failing assignment is silently swallowed, so the lock is attempted
but never guaranteed. -/
def lockCalibStep (eng : Engine) : M Unit :=
  if eng.sensorsEmpty then mret ()
  else tryAllSwallow (call eng ECall.lockFixedCalibration)

/-- Engine-facing part of Method A `process_scan` after validation
succeeded (lines 95-198). -/
def enginePhaseA (eng : Engine) (hasCrs : Bool) (gpu : Option Int)
    (imgs : List String) (xml psz : String) (keyLimit tieLimit : Nat)
    (keepKeypoints keepDepth keepMatches : Bool) : M (String × String) := do
  MethodB.startProject eng psz
  enable_gpu_index eng gpu
  MethodB.addPhotosStep eng imgs
  MethodB.crsStep hasCrs
  let early ← importCamerasStep eng xml
  match early with
  | some r => mret r
  | none => do
    tryAllSwallow (call eng ECall.updateTransform)
    lockCalibStep eng
    matchAlignStepA eng (aMatchParams keyLimit tieLimit keepKeypoints)
    optimizeStepA eng
    depthStepA eng
    meshStepA eng
    thin_project eng (!keepDepth) (!keepMatches)
    call eng ECall.save
    mret ("ok", "Saved " ++ psz ++ "  using XML=" ++ xml)

/-- Source: `process_scan` (`disc3d_methodA_from_calibrated_xml.py` lines
76-198).  Validation of the uid folder and images, creation of `models/`,
selection of the first calibrated-cameras XML in sort order (failure if
none matches the glob), then the engine pipeline.  The source quotes the
glob pattern in the failure message; the quotes are dropped here. -/
def process_scan (eng : Engine) (d : ScanDir) (hasCrs : Bool)
    (gpu : Option Int) (xml_glob : String) (keyLimit tieLimit : Nat)
    (keepKeypoints keepDepth keepMatches : Bool) : M (String × String) :=
  let p := get_uid_dataset d
  match p.1 with
  | none => mret ("fail", "No <uid>__edof folder found")
  | some uid =>
    let dataset_id := p.2
    let imgs := imgsOf d uid
    if imgs.isEmpty then
      mret ("fail", "No PNGs in " ++ d.name ++ "/" ++ uid ++ "__edof")
    else
      let psz := "models/" ++ dataset_id ++ ".psz"
      mbind (emit Event.mkdirModels)
        (fun _ =>
          match (sortStrings d.modelsXmlMatches).head? with
          | none =>
            mret ("fail", "No calibrated cameras XML found in " ++ d.name ++
              "/models matching " ++ xml_glob)
          | some xml =>
            enginePhaseA eng hasCrs gpu imgs xml psz keyLimit tieLimit
              keepKeypoints keepDepth keepMatches)

end MethodA

/-- Exit behaviour of a whole batch run: a `sys.exit`/fall-through code,
or termination by an uncaught exception (the interpreter then aborts with
a traceback). -/
inductive ExitStatus
  | exited (code : Nat)
  | crashed (e : PyErr)
deriving DecidableEq

/-- Sequential batch loop over resolved scan folders: collects the
results of completed units in order; an uncaught exception stops the loop
with the remaining units unprocessed. -/
def runLoop (step : ScanDir → M (String × String)) :
    List ScanDir → List Event × List (String × String) × Option PyErr
  | [] => ([], [], none)
  | d :: rest =>
    match step d with
    | (t, Except.ok r) =>
      let rec_ := runLoop step rest
      (t ++ rec_.1, r :: rec_.2.1, rec_.2.2)
    | (t, Except.error e) => (t, [], some e)

/-- Aggregate outcome of one batch invocation. -/
structure BatchResult where
  trace : List Event
  results : List (String × String)
  status : ExitStatus
deriving DecidableEq

namespace MethodB

/-- Command line and filesystem environment of a Method B invocation. -/
structure World where
  rootExists : Bool
  listExists : Bool
  listLines : List String
  rootEntries : List ScanDir
  mmPresent : Bool
  mmExists : Bool
  mmText : String
  gpuArg : Option Int

/-- Source: `load_crs` (lines 133-139) — a coordinate system is produced
exactly when the file is given, exists and has nonblank content. -/
def World.hasCrs (w : World) : Bool :=
  w.mmPresent && w.mmExists && !w.mmText.toList.all pySpace

/-- Source: `main` (`disc3d_batch_metashape.py` lines 367-417).  Exit 2
on missing root, missing list file or empty date list; exit 1 when no
scan folder matched or no unit succeeded; fall-through (exit 0)
otherwise.  The guarded GPU selection happens between the root check and
the list check. -/
def main (eng : Engine) (w : World) (f_px : Rat) : BatchResult :=
  if !w.rootExists then ⟨[], [], ExitStatus.exited 2⟩
  else
    let gpuTrace : List Event := match w.gpuArg with
      | some i => (tryAllSwallow (call eng (ECall.setGpu i))).1
      | none => []
    if !w.listExists then ⟨gpuTrace, [], ExitStatus.exited 2⟩
    else
      let dates := read_dates w.listLines
      if dates.isEmpty then ⟨gpuTrace, [], ExitStatus.exited 2⟩
      else
        let scans := find_scans w.rootEntries dates
        if scans.isEmpty then ⟨gpuTrace, [], ExitStatus.exited 1⟩
        else
          let lp := runLoop
            (fun s => process_scan eng s f_px w.hasCrs) scans
          match lp.2.2 with
          | some e => ⟨gpuTrace ++ lp.1, lp.2.1, ExitStatus.crashed e⟩
          | none =>
            let okCount := (lp.2.1.filter (fun r => r.1 = "ok")).length
            if okCount = 0 then ⟨gpuTrace ++ lp.1, lp.2.1, ExitStatus.exited 1⟩
            else ⟨gpuTrace ++ lp.1, lp.2.1, ExitStatus.exited 0⟩

end MethodB

namespace MethodA

/-- Command line and filesystem environment of a Method A invocation. -/
structure World where
  rootExists : Bool
  listExists : Bool
  listLines : List String
  rootEntries : List ScanDir
  mmPresent : Bool
  mmExists : Bool
  mmText : String
  gpuArg : Option Int
  xmlGlob : String
  keyLimit : Nat
  tieLimit : Nat
  keepKeypoints : Bool
  keepDepth : Bool
  keepMatches : Bool

/-- Source: `load_crs` (lines 51-55). -/
def World.hasCrs (w : World) : Bool :=
  w.mmPresent && w.mmExists && !w.mmText.toList.all pySpace

/-- Source: `main` (`disc3d_methodA_from_calibrated_xml.py` lines
200-236).  Exit 2 on missing root, missing list file or empty date list;
exit 1 when no scan folder matched or no unit succeeded; fall-through
(exit 0) otherwise. -/
def main (eng : Engine) (w : World) : BatchResult :=
  if !w.rootExists then ⟨[], [], ExitStatus.exited 2⟩
  else if !w.listExists then ⟨[], [], ExitStatus.exited 2⟩
  else
    let dates := read_dates w.listLines
    if dates.isEmpty then ⟨[], [], ExitStatus.exited 2⟩
    else
      let scans := find_scans w.rootEntries dates
      if scans.isEmpty then ⟨[], [], ExitStatus.exited 1⟩
      else
        let lp := runLoop
          (fun s => process_scan eng s w.hasCrs w.gpuArg w.xmlGlob
            w.keyLimit w.tieLimit w.keepKeypoints w.keepDepth w.keepMatches)
          scans
        match lp.2.2 with
        | some e => ⟨lp.1, lp.2.1, ExitStatus.crashed e⟩
        | none =>
          let okCount := (lp.2.1.filter (fun r => r.1 = "ok")).length
          if okCount = 0 then ⟨lp.1, lp.2.1, ExitStatus.exited 1⟩
          else ⟨lp.1, lp.2.1, ExitStatus.exited 0⟩

end MethodA

/-- Event classifier: any engine (Metashape API) call attempt. -/
def Event.isEngineCall : Event → Bool
  | Event.ecall _ _ => true
  | _ => false

/-- Event classifier: mutation of the sensor calibration state (the fit
mask in the spec sense: seeded calibration values and the
`fixed_calibration` switch). -/
def Event.isCalibMut : Event → Bool
  | Event.setUserCalib _ => true
  | Event.setCalibration _ => true
  | Event.setFixedCalibration _ => true
  | Event.ecall ECall.lockFixedCalibration _ => true
  | _ => false

/-- Event classifier: any matching or alignment call attempt. -/
def Event.isMatchAlign : Event → Bool
  | Event.ecall (ECall.matchPhotos _ _) _ => true
  | Event.ecall (ECall.alignCameras _) _ => true
  | _ => false

/-- Event classifier: a successful `alignCameras` call. -/
def Event.isAlignOk : Event → Bool
  | Event.ecall (ECall.alignCameras _) Outcome.ok => true
  | _ => false

/-- Event classifier: any `optimizeCameras` call attempt. -/
def Event.isOptimize : Event → Bool
  | Event.ecall (ECall.optimizeCameras _ _) _ => true
  | _ => false

/-- Event classifier: any `buildDepthMaps` call attempt. -/
def Event.isDepth : Event → Bool
  | Event.ecall (ECall.buildDepthMaps _) _ => true
  | _ => false

/-- Event classifier: any `buildModel` call attempt. -/
def Event.isMesh : Event → Bool
  | Event.ecall (ECall.buildModel _) _ => true
  | _ => false

/-- Event classifier: any `exportCameras` call attempt. -/
def Event.isExport : Event → Bool
  | Event.ecall (ECall.exportCameras _ _) _ => true
  | _ => false

/-- Event classifier: a successful project save. -/
def Event.isSaveOk : Event → Bool
  | Event.ecall ECall.save Outcome.ok => true
  | Event.ecall (ECall.saveAs _) Outcome.ok => true
  | _ => false

/-- Event classifier: a QC duplication attempt (`copy` or `duplicate`). -/
def Event.isQcDup : Event → Bool
  | Event.ecall ECall.chunkCopy _ => true
  | Event.ecall ECall.chunkDuplicate _ => true
  | _ => false

/-- Event classifier: a warning printed to the log. -/
def Event.isWarn : Event → Bool
  | Event.warn _ => true
  | _ => false

/-- Event classifier: every `optimizeCameras` attempt in the event (if
any) carries exactly the fit mask `m`. -/
def Event.optimizeMaskIs (m : FitMask) : Event → Bool
  | Event.ecall (ECall.optimizeCameras _ mask) _ => mask == m
  | _ => true

/-- Event classifier: a successful `matchPhotos` call. -/
def Event.isMatchOk : Event → Bool
  | Event.ecall (ECall.matchPhotos _ _) Outcome.ok => true
  | _ => false

/-- Event classifier: a successful `buildDepthMaps` call. -/
def Event.isDepthOk : Event → Bool
  | Event.ecall (ECall.buildDepthMaps _) Outcome.ok => true
  | _ => false

/-- Predicate transformer: every event emitted by the fragment satisfies
`P`. -/
def EmitsOnly {α : Type} (P : Event → Prop) (m : M α) : Prop :=
  ∀ e ∈ m.1, P e

/-- A fragment whose uncaught exceptions always happen at its very last
event: when it ends in `error e`, the final trace entry is the engine
call that raised `e`, so nothing (in particular no save) runs after the
failure. -/
def Aborting {α : Type} (m : M α) : Prop :=
  ∀ e, m.2 = Except.error e →
    ∃ c, m.1.getLast? = some (Event.ecall c (Outcome.raise e))

namespace MethodB

/-- Validation outcome of Method B `process_scan` (lines 149-161),
extracted as a function of the scan folder alone: `some reason` when the
unit is rejected before the pipeline starts. -/
def validationError (d : ScanDir) : Option String :=
  match (get_uid_and_dataset d).1 with
  | none => some "No <uid>__edof folder found"
  | some uid =>
    if (imgsOf d uid).isEmpty then
      some ("No PNGs in " ++ d.name ++ "/" ++ uid ++ "__edof")
    else if d.camposFiles.length ≠ 1 then
      some "Missing or multiple CamPos.txt"
    else none

end MethodB

namespace MethodA

/-- Validation outcome of Method A `process_scan` including the XML
artifact check (lines 79-93): `some reason` when the unit is rejected
before any engine call. -/
def validationError (d : ScanDir) (xml_glob : String) : Option String :=
  match (get_uid_dataset d).1 with
  | none => some "No <uid>__edof folder found"
  | some uid =>
    if (imgsOf d uid).isEmpty then
      some ("No PNGs in " ++ d.name ++ "/" ++ uid ++ "__edof")
    else if (sortStrings d.modelsXmlMatches).head?.isNone then
      some ("No calibrated cameras XML found in " ++ d.name ++
        "/models matching " ++ xml_glob)
    else none

end MethodA

/-! Helper lemmas about the whitespace and timestamp matching
functions. -/


/-- An engine whose primary `matchPhotos` signature reports an operation
failure (not a signature rejection) while every other call succeeds. -/
def opErrEngine : Engine :=
  ⟨fun c => match c with
    | ECall.matchPhotos MatchSig.accuracyEnum _ =>
      Outcome.raise (PyErr.otherError "operation failed")
    | _ => Outcome.ok, false, none, none, true⟩

/-- An engine that rejects the `addPhotos` call signature (a
`TypeError`) while every other call succeeds. -/
def rejectAddPhotosEngine : Engine :=
  ⟨fun c => match c with
    | ECall.addPhotos _ => Outcome.raise PyErr.typeError
    | _ => Outcome.ok, false, none, none, true⟩



/-- An engine whose `alignCameras` call reports an operation failure
while every other call succeeds. -/
def crashAlignEngine : Engine :=
  ⟨fun c => match c with
    | ECall.alignCameras _ => Outcome.raise (PyErr.otherError "boom")
    | _ => Outcome.ok, false, none, none, true⟩

/-- An engine that fails only when asked to add the photo list
`["q.png"]`, so that of two scan folders the first succeeds and the
second raises. -/
def diskFullEngine : Engine :=
  ⟨fun c => match c with
    | ECall.addPhotos ["q.png"] =>
      Outcome.raise (PyErr.otherError "disk full")
    | _ => Outcome.ok, false, none, none, true⟩



/-- An engine on which the guarded `fixed_calibration = True` assignment
raises (and is swallowed by the source) while every other call
succeeds. -/
def lockFailEngine : Engine :=
  ⟨fun c => match c with
    | ECall.lockFixedCalibration =>
      Outcome.raise (PyErr.otherError "read-only attribute")
    | _ => Outcome.ok, false, none, none, true⟩


theorem pySpace_false_of_isDigit {c : Char} (h : c.isDigit = true) :
    pySpace c = false := by
  cases hc : pySpace c
  · rfl
  · exfalso
    simp only [pySpace, Bool.or_eq_true, decide_eq_true_eq] at hc
    rcases hc with ((((rfl | rfl) | rfl) | rfl) | rfl) | rfl <;>
      simp [Char.isDigit] at h

theorem tsCore_no_space {cs : List Char} (h : tsCore cs = true) :
    ∀ c ∈ cs, pySpace c = false := by
  intro c hc
  unfold tsCore at h
  simp only [Bool.and_eq_true, decide_eq_true_eq] at h
  obtain ⟨⟨⟨hlen, hdig8⟩, hT⟩, hdig6⟩ := h
  rw [← List.take_append_drop 8 cs] at hc
  rcases List.mem_append.mp hc with hmem | hmem
  · exact pySpace_false_of_isDigit (List.all_eq_true.mp hdig8 c hmem)
  · rw [← List.take_append_drop 1 (cs.drop 8), hT] at hmem
    rcases List.mem_append.mp hmem with hmem' | hmem'
    · rw [List.mem_singleton] at hmem'
      subst hmem'
      decide
    · rw [List.drop_drop] at hmem'
      exact pySpace_false_of_isDigit (List.all_eq_true.mp hdig6 c hmem')

theorem takeWhile_append_all {p : Char → Bool} {a b : List Char}
    (ha : ∀ c ∈ a, p c = true) (hb : ∀ c ∈ b, p c = false) :
    (a ++ b).takeWhile p = a := by
  induction a with
  | nil =>
    cases b with
    | nil => rfl
    | cons x xs => simp [List.takeWhile, hb x (by simp)]
  | cons x xs ih =>
    simp only [List.cons_append, List.takeWhile, ha x (by simp)]
    show x :: (xs ++ b).takeWhile p = x :: xs
    rw [ih (fun c hc => ha c (by simp [hc]))]

theorem dropWhile_append_all {p : Char → Bool} {a b : List Char}
    (ha : ∀ c ∈ a, p c = true) :
    (a ++ b).dropWhile p = b.dropWhile p := by
  induction a with
  | nil => rfl
  | cons x xs ih =>
    simp only [List.cons_append, List.dropWhile, ha x (by simp)]
    exact ih (fun c hc => ha c (by simp [hc]))

theorem dropWhile_eq_self_of_false {p : Char → Bool} {b : List Char}
    (hb : ∀ c ∈ b, p c = false) : b.dropWhile p = b := by
  cases b with
  | nil => rfl
  | cons x xs => simp [List.dropWhile, hb x (by simp)]

theorem rstrip_decomp (p : Char → Bool) (l : List Char) :
    l = (l.reverse.dropWhile p).reverse ++ (l.reverse.takeWhile p).reverse ∧
      ∀ c ∈ (l.reverse.takeWhile p).reverse, p c = true := by
  constructor
  · conv_lhs => rw [← l.reverse_reverse]
    rw [← List.takeWhile_append_dropWhile p l.reverse, List.reverse_append,
      List.takeWhile_append_dropWhile]
  · intro c hc
    exact List.mem_takeWhile_imp (List.mem_reverse.mp hc)

theorem pyStrip_toList (s : String) :
    (pyStrip s).toList =
      ((s.toList.dropWhile pySpace).reverse.dropWhile pySpace).reverse := rfl

theorem strip_parts_of_tsCore {s : String}
    (h : tsCore (pyStrip s).toList = true) :
    (s.toList.dropWhile pySpace).takeWhile (fun c => !pySpace c) =
        (pyStrip s).toList ∧
      ((s.toList.dropWhile pySpace).dropWhile (fun c => !pySpace c)).all
        pySpace = true := by
  obtain ⟨hsplit, htail⟩ := rstrip_decomp pySpace (s.toList.dropWhile pySpace)
  rw [pyStrip_toList] at h ⊢
  set l := s.toList.dropWhile pySpace with hl
  set strip := (l.reverse.dropWhile pySpace).reverse with hstrip
  have hstripmem : ∀ c ∈ strip, pySpace c = false :=
    fun c hc => tsCore_no_space h c hc
  constructor
  · conv_lhs => rw [hsplit]
    rw [takeWhile_append_all
      (fun c hc => by simp [hstripmem c hc])
      (fun c hc => by simp [htail c hc])]
  · conv_lhs =>
      rw [hsplit, dropWhile_append_all (fun c hc => by simp [hstripmem c hc]),
        dropWhile_eq_self_of_false (fun c hc => by simp [htail c hc])]
    exact List.all_eq_true.mpr htail

theorem strip_eq_core_of_tail_space {s : String}
    (h : ((s.toList.dropWhile pySpace).dropWhile
      (fun c => !pySpace c)).all pySpace = true) :
    (pyStrip s).toList =
      (s.toList.dropWhile pySpace).takeWhile (fun c => !pySpace c) := by
  rw [pyStrip_toList]
  set l := s.toList.dropWhile pySpace with hl
  have hsplit : l = l.takeWhile (fun c => !pySpace c) ++
      l.dropWhile (fun c => !pySpace c) :=
    (List.takeWhile_append_dropWhile _ _).symm
  have hcoremem : ∀ c ∈ l.takeWhile (fun c => !pySpace c),
      pySpace c = false := by
    intro c hc
    have := List.mem_takeWhile_imp hc
    simpa using this
  have htailmem : ∀ c ∈ l.dropWhile (fun c => !pySpace c),
      pySpace c = true :=
    fun c hc => List.all_eq_true.mp h c hc
  conv_lhs => rw [hsplit]
  rw [List.reverse_append]
  rw [dropWhile_append_all (fun c hc => htailmem c (List.mem_reverse.mp hc))]
  rw [dropWhile_eq_self_of_false
    (fun c hc => hcoremem c (List.mem_reverse.mp hc))]
  rw [List.reverse_reverse]

theorem reTsMatch_eq_some (s d : String) :
    reTsMatch s = some d ↔
      (tsCore (pyStrip s).toList = true ∧ d = pyStrip s) := by
  unfold reTsMatch
  constructor
  · intro h
    split at h
    next hcond =>
      simp only [Bool.and_eq_true] at hcond
      obtain ⟨hcore, htl⟩ := hcond
      have hstrip := strip_eq_core_of_tail_space htl
      have h1 : tsCore (pyStrip s).toList = true := by rw [hstrip]; exact hcore
      refine ⟨h1, ?_⟩
      cases h
      apply String.ext
      exact hstrip.symm
    next => cases h
  · rintro ⟨hcore, rfl⟩
    obtain ⟨hcoreq, htl⟩ := strip_parts_of_tsCore hcore
    rw [hcoreq, htl]
    simp only [hcore, Bool.and_self, if_true]
    rfl

theorem pyStrip_toList_nil_of_blank {line : String}
    (h : line.toList.all pySpace = true) : (pyStrip line).toList = [] := by
  rw [pyStrip_toList]
  have : line.toList.dropWhile pySpace = [] := by
    rw [List.dropWhile_eq_nil_iff]
    exact fun x hx => List.all_eq_true.mp h x hx
  rw [this]
  rfl

theorem tsCore_head_digit {c : Char} {cs : List Char}
    (h : tsCore (c :: cs) = true) : c.isDigit = true := by
  unfold tsCore at h
  simp only [Bool.and_eq_true, decide_eq_true_eq] at h
  obtain ⟨⟨⟨_, hdig⟩, _⟩, _⟩ := h
  have hmem : c ∈ (c :: cs).take 8 := by
    rw [List.take_succ_cons]
    exact List.mem_cons_self c _
  exact List.all_eq_true.mp hdig c hmem

theorem tsCore_false_of_blank {line : String}
    (h : line.toList.all pySpace = true) :
    tsCore (pyStrip line).toList = false := by
  rw [pyStrip_toList_nil_of_blank h]
  decide

theorem tsCore_false_of_hash {line : String}
    (h : startsWithHash line = true) :
    tsCore (pyStrip line).toList = false := by
  unfold startsWithHash at h
  cases hl : line.toList.dropWhile pySpace with
  | nil => rw [hl] at h; cases h
  | cons c rest =>
    rw [hl] at h
    simp only [decide_eq_true_eq] at h
    subst h
    obtain ⟨hsplit, htail⟩ := rstrip_decomp pySpace (line.toList.dropWhile pySpace)
    rw [pyStrip_toList]
    rw [hl] at hsplit htail
    cases hstrip :
        (((line.toList.dropWhile pySpace).reverse).dropWhile pySpace).reverse with
    | nil =>
      rw [hl] at hstrip
      rw [hstrip, List.nil_append] at hsplit
      have hmem : '#' ∈ (('#' :: rest).reverse.takeWhile pySpace).reverse := by
        rw [← hsplit]
        exact List.mem_cons_self _ _
      have := htail _ hmem
      cases this
    | cons c' cs' =>
      rw [hl] at hstrip
      rw [hstrip] at hsplit
      have hc' : c' = '#' := by
        have := congrArg (fun l => l.head?) hsplit
        simpa using this.symm
      subst hc'
      cases hts : tsCore ('#' :: cs') with
      | false => rfl
      | true =>
        have := tsCore_head_digit hts
        cases this

theorem read_dates_cons (line : String) (rest : List String) :
    read_dates (line :: rest) =
      if line.toList.all pySpace || startsWithHash line then read_dates rest
      else
        match reTsMatch line with
        | some d => d :: read_dates rest
        | none => read_dates rest := rfl

theorem read_dates_eq (lines : List String) :
    read_dates lines =
      (lines.filter (fun l => tsCore (pyStrip l).toList)).map pyStrip := by
  induction lines with
  | nil => rfl
  | cons line rest ih =>
    rw [read_dates_cons, List.filter_cons]
    by_cases hguard : (line.toList.all pySpace || startsWithHash line) = true
    · rw [if_pos hguard]
      have hfalse : tsCore (pyStrip line).toList = false := by
        rcases Bool.or_eq_true_iff.mp hguard with h | h
        · exact tsCore_false_of_blank h
        · exact tsCore_false_of_hash h
      simp only [hfalse, Bool.false_eq_true, if_false]
      exact ih
    · rw [if_neg hguard]
      cases hm : tsCore (pyStrip line).toList with
      | true =>
        have hr := (reTsMatch_eq_some line (pyStrip line)).mpr ⟨hm, rfl⟩
        rw [hr]
        simp only [if_pos, List.map_cons]
        rw [ih]
      | false =>
        have hr : reTsMatch line = none := by
          cases hr' : reTsMatch line with
          | none => rfl
          | some d =>
            have := (reTsMatch_eq_some line d).mp hr'
            rw [this.1] at hm
            cases hm
        rw [hr]
        simp only [Bool.false_eq_true, if_false]
        exact ih

/-- C9: reading the scan list retains exactly the lines that, after
trimming surrounding whitespace, match the timestamp pattern (each
retained as its trimmed timestamp, the regex capture group); blank lines
and lines whose first non-blank character is a hash never match the
pattern (so they are ignored), and every other non-matching line is
dropped; `read_dates` is a total function, so no error is raised. -/
theorem claim_C9 :
    (∀ lines, read_dates lines =
      (lines.filter (fun l => tsCore (pyStrip l).toList)).map pyStrip) ∧
    (∀ line, line.toList.all pySpace = true →
      tsCore (pyStrip line).toList = false) ∧
    (∀ line, startsWithHash line = true →
      tsCore (pyStrip line).toList = false) :=
  ⟨read_dates_eq, fun _ h => tsCore_false_of_blank h,
    fun _ h => tsCore_false_of_hash h⟩

/-- Witness for C9 at concrete inputs: a padded timestamp line is
retained trimmed, while a blank line and a comment line never match. -/
theorem claim_C9_witness :
    read_dates ["  20250502T082851  ", "# c", " ", "junk"] =
      ["20250502T082851"] ∧
    ("   ".toList.all pySpace = true ∧
      tsCore (pyStrip "   ").toList = false) ∧
    (startsWithHash " # x" = true ∧
      tsCore (pyStrip " # x").toList = false) :=
  ⟨(claim_C9.1 ["  20250502T082851  ", "# c", " ", "junk"]).trans (by decide),
    ⟨by decide, claim_C9.2.1 "   " (by decide)⟩,
    ⟨by decide, claim_C9.2.2 " # x" (by decide)⟩⟩

/-! Lemmas about the deterministic sorted-first selection. -/

theorem lexLe_total : ∀ as bs : List Char,
    lexLe as bs = true ∨ lexLe bs as = true := by
  intro as
  induction as with
  | nil => intro bs; exact Or.inl rfl
  | cons a as ih =>
    intro bs
    cases bs with
    | nil => exact Or.inr rfl
    | cons b bs =>
      by_cases hab : a = b
      · subst hab
        simp only [lexLe, if_pos rfl]
        exact ih bs
      · have hba : ¬ b = a := fun h => hab h.symm
        simp only [lexLe, if_neg hab, if_neg hba, decide_eq_true_eq]
        rcases lt_or_gt_of_ne hab with h | h
        · exact Or.inl h
        · exact Or.inr h

theorem lexLe_trans : ∀ {as bs cs : List Char},
    lexLe as bs = true → lexLe bs cs = true → lexLe as cs = true := by
  intro as
  induction as with
  | nil => intro bs cs _ _; rfl
  | cons a as ih =>
    intro bs cs h1 h2
    cases bs with
    | nil => cases h1
    | cons b bs =>
      cases cs with
      | nil => cases h2
      | cons c cs =>
        by_cases hab : a = b <;> by_cases hbc : b = c
        · subst hab; subst hbc
          simp only [lexLe, if_pos rfl] at h1 h2 ⊢
          exact ih h1 h2
        · subst hab
          simp only [lexLe, if_pos rfl, if_neg hbc] at h2 ⊢
          exact h2
        · subst hbc
          simp only [lexLe, if_neg hab, if_pos rfl] at h1 ⊢
          exact h1
        · simp only [lexLe, if_neg hab, if_neg hbc, decide_eq_true_eq] at h1 h2
          have hac : a < c := lt_trans h1 h2
          have hne : ¬ a = c := ne_of_lt hac
          simp only [lexLe, if_neg hne, decide_eq_true_eq]
          exact hac

theorem lexLe_antisymm : ∀ {as bs : List Char},
    lexLe as bs = true → lexLe bs as = true → as = bs := by
  intro as
  induction as with
  | nil =>
    intro bs _ h2
    cases bs with
    | nil => rfl
    | cons b bs => cases h2
  | cons a as ih =>
    intro bs h1 h2
    cases bs with
    | nil => cases h1
    | cons b bs =>
      by_cases hab : a = b
      · subst hab
        simp only [lexLe, if_pos rfl] at h1 h2
        rw [ih h1 h2]
      · have hba : ¬ b = a := fun h => hab h.symm
        simp only [lexLe, if_neg hab, if_neg hba, decide_eq_true_eq] at h1 h2
        exact absurd h2 (lt_asymm h1)

theorem lexLe_refl : ∀ as : List Char, lexLe as as = true := by
  intro as
  induction as with
  | nil => rfl
  | cons a as ih => simp only [lexLe, if_pos rfl]; exact ih

theorem strLe_refl (a : String) : strLe a a = true := lexLe_refl a.toList

theorem strLe_total (a b : String) : strLe a b = true ∨ strLe b a = true :=
  lexLe_total a.toList b.toList

theorem strLe_trans {a b c : String} (h1 : strLe a b = true)
    (h2 : strLe b c = true) : strLe a c = true :=
  lexLe_trans h1 h2

theorem strLe_antisymm {a b : String} (h1 : strLe a b = true)
    (h2 : strLe b a = true) : a = b :=
  String.ext (lexLe_antisymm h1 h2)

theorem sortStrings_sorted (xs : List String) :
    List.Sorted (fun a b => strLe a b = true) (sortStrings xs) := by
  haveI : IsTotal String (fun a b => strLe a b = true) := ⟨strLe_total⟩
  haveI : IsTrans String (fun a b => strLe a b = true) :=
    ⟨fun _ _ _ => strLe_trans⟩
  exact List.sorted_insertionSort _ xs

theorem sortStrings_perm (xs : List String) : (sortStrings xs).Perm xs :=
  List.perm_insertionSort _ xs

theorem sortStrings_head_deterministic {xs ys : List String}
    (h : xs.Perm ys) : (sortStrings xs).head? = (sortStrings ys).head? := by
  haveI : IsAntisymm String (fun a b => strLe a b = true) :=
    ⟨fun _ _ => strLe_antisymm⟩
  have : sortStrings xs = sortStrings ys :=
    List.eq_of_perm_of_sorted
      (((sortStrings_perm xs).trans h).trans (sortStrings_perm ys).symm)
      (sortStrings_sorted xs) (sortStrings_sorted ys)
  rw [this]

theorem sortStrings_head_min {xs : List String} {m : String}
    (h : (sortStrings xs).head? = some m) :
    m ∈ xs ∧ ∀ y ∈ xs, strLe m y = true := by
  cases hs : sortStrings xs with
  | nil => rw [hs] at h; cases h
  | cons a rest =>
    rw [hs] at h
    cases h
    have hperm := sortStrings_perm xs
    rw [hs] at hperm
    constructor
    · exact hperm.mem_iff.mp (List.mem_cons_self _ _)
    · intro y hy
      rcases List.mem_cons.mp (hperm.mem_iff.mpr hy) with rfl | hy'
      · exact strLe_refl y
      · have hsor := sortStrings_sorted xs
        rw [hs] at hsor
        exact List.rel_of_sorted_cons hsor y hy'

/-! Infrastructure for reasoning about traces of the run monad. -/

theorem bindM_eq {α β : Type} (m : M α) (f : α → M β) :
    (m >>= f) = mbind m f := rfl

theorem mbind_of_ok {α β : Type} {m : M α} {a : α}
    (h : m.2 = Except.ok a) (f : α → M β) :
    mbind m f = (m.1 ++ (f a).1, (f a).2) := by
  unfold mbind
  rw [h]

theorem mbind_of_err {α β : Type} {m : M α} {e : PyErr}
    (h : m.2 = Except.error e) (f : α → M β) :
    mbind m f = (m.1, Except.error e) := by
  unfold mbind
  rw [h]

theorem call_fst (eng : Engine) (c : ECall) :
    (call eng c).1 = [Event.ecall c (eng.callResult c)] := by
  unfold call
  cases h : eng.callResult c <;> simp [h]

theorem call_snd_of_ok {eng : Engine} {c : ECall}
    (h : eng.callResult c = Outcome.ok) : (call eng c).2 = Except.ok () := by
  unfold call
  rw [h]

theorem call_snd_of_raise {eng : Engine} {c : ECall} {e : PyErr}
    (h : eng.callResult c = Outcome.raise e) :
    (call eng c).2 = Except.error e := by
  unfold call
  rw [h]

theorem tryAll_of_ok {α : Type} {m : M α} {a : α}
    (hm : m.2 = Except.ok a) (h : PyErr → M α) : tryAll m h = m := by
  unfold tryAll
  rw [hm]

theorem tryAll_of_err {α : Type} {m : M α} {e : PyErr}
    (hm : m.2 = Except.error e) (h : PyErr → M α) :
    tryAll m h = (m.1 ++ (h e).1, (h e).2) := by
  unfold tryAll
  rw [hm]

theorem tryType_of_ok {α : Type} {m : M α} {a : α}
    (hm : m.2 = Except.ok a) (h : M α) : tryType m h = m := by
  unfold tryType
  rw [hm]

theorem tryType_of_type {α : Type} {m : M α}
    (hm : m.2 = Except.error PyErr.typeError) (h : M α) :
    tryType m h = (m.1 ++ h.1, h.2) := by
  unfold tryType
  rw [hm]

theorem tryType_of_other {α : Type} {m : M α} {e : PyErr}
    (hm : m.2 = Except.error e) (hne : e ≠ PyErr.typeError) (h : M α) :
    tryType m h = m := by
  unfold tryType
  rw [hm]
  cases e with
  | typeError => exact absurd rfl hne
  | attributeError => rfl
  | otherError msg => rfl

theorem tryAttr_of_ok {α : Type} {m : M α} {a : α}
    (hm : m.2 = Except.ok a) (h : M α) : tryAttr m h = m := by
  unfold tryAttr
  rw [hm]

theorem tryAttr_of_attr {α : Type} {m : M α}
    (hm : m.2 = Except.error PyErr.attributeError) (h : M α) :
    tryAttr m h = (m.1 ++ h.1, h.2) := by
  unfold tryAttr
  rw [hm]

theorem tryAttr_of_other {α : Type} {m : M α} {e : PyErr}
    (hm : m.2 = Except.error e) (hne : e ≠ PyErr.attributeError) (h : M α) :
    tryAttr m h = m := by
  unfold tryAttr
  rw [hm]
  cases e with
  | typeError => rfl
  | attributeError => exact absurd rfl hne
  | otherError msg => rfl

theorem emitsOnly_mret {P : Event → Prop} {α : Type} (a : α) :
    EmitsOnly P (mret a) := by
  intro e he
  cases he

theorem emitsOnly_pure {P : Event → Prop} {α : Type} (a : α) :
    EmitsOnly P (pure a : M α) := by
  intro e he
  cases he

theorem emitsOnly_emit {P : Event → Prop} {ev : Event} (h : P ev) :
    EmitsOnly P (emit ev) := by
  intro e he
  have hx : (emit ev).1 = [ev] := rfl
  rw [hx, List.mem_singleton] at he
  rw [he]
  exact h

theorem emitsOnly_call {P : Event → Prop} {c : ECall}
    (h : ∀ r, P (Event.ecall c r)) (eng : Engine) :
    EmitsOnly P (call eng c) := by
  intro e he
  rw [call_fst] at he
  rw [List.mem_singleton] at he
  rw [he]
  exact h _

theorem emitsOnly_mbind {P : Event → Prop} {α β : Type} {m : M α}
    {f : α → M β} (h1 : EmitsOnly P m) (h2 : ∀ a, EmitsOnly P (f a)) :
    EmitsOnly P (mbind m f) := by
  intro e he
  rcases m with ⟨t, r⟩
  cases r with
  | ok a =>
    rw [mbind_of_ok rfl] at he
    rcases List.mem_append.mp he with h | h
    · exact h1 e h
    · exact h2 a e h
  | error er =>
    rw [mbind_of_err rfl] at he
    exact h1 e he

theorem emitsOnly_bind {P : Event → Prop} {α β : Type} {m : M α}
    {f : α → M β} (h1 : EmitsOnly P m) (h2 : ∀ a, EmitsOnly P (f a)) :
    EmitsOnly P (m >>= f) :=
  emitsOnly_mbind h1 h2

theorem emitsOnly_tryAll {P : Event → Prop} {α : Type} {m : M α}
    {h : PyErr → M α} (h1 : EmitsOnly P m)
    (h2 : ∀ e, EmitsOnly P (h e)) : EmitsOnly P (tryAll m h) := by
  intro e he
  rcases m with ⟨t, r⟩
  cases r with
  | ok a =>
    rw [tryAll_of_ok rfl] at he
    exact h1 e he
  | error er =>
    rw [tryAll_of_err rfl] at he
    rcases List.mem_append.mp he with hm | hm
    · exact h1 e hm
    · exact h2 er e hm

theorem emitsOnly_tryType {P : Event → Prop} {α : Type} {m h : M α}
    (h1 : EmitsOnly P m) (h2 : EmitsOnly P h) :
    EmitsOnly P (tryType m h) := by
  intro e he
  rcases m with ⟨t, r⟩
  cases r with
  | ok a =>
    rw [tryType_of_ok rfl] at he
    exact h1 e he
  | error er =>
    cases er with
    | typeError =>
      rw [tryType_of_type rfl] at he
      rcases List.mem_append.mp he with hm | hm
      · exact h1 e hm
      · exact h2 e hm
    | attributeError =>
      rw [tryType_of_other rfl (by intro hx; cases hx)] at he
      exact h1 e he
    | otherError msg =>
      rw [tryType_of_other rfl (by intro hx; cases hx)] at he
      exact h1 e he

theorem emitsOnly_tryAttr {P : Event → Prop} {α : Type} {m h : M α}
    (h1 : EmitsOnly P m) (h2 : EmitsOnly P h) :
    EmitsOnly P (tryAttr m h) := by
  intro e he
  rcases m with ⟨t, r⟩
  cases r with
  | ok a =>
    rw [tryAttr_of_ok rfl] at he
    exact h1 e he
  | error er =>
    cases er with
    | typeError =>
      rw [tryAttr_of_other rfl (by intro hx; cases hx)] at he
      exact h1 e he
    | attributeError =>
      rw [tryAttr_of_attr rfl] at he
      rcases List.mem_append.mp he with hm | hm
      · exact h1 e hm
      · exact h2 e hm
    | otherError msg =>
      rw [tryAttr_of_other rfl (by intro hx; cases hx)] at he
      exact h1 e he

theorem emitsOnly_tryAllSwallow {P : Event → Prop} {m : M Unit}
    (h1 : EmitsOnly P m) : EmitsOnly P (tryAllSwallow m) :=
  emitsOnly_tryAll h1 (fun _ => emitsOnly_mret ())

theorem emitsOnly_ite {P : Event → Prop} {α : Type} {c : Prop}
    [Decidable c] {m1 m2 : M α} (h1 : EmitsOnly P m1)
    (h2 : EmitsOnly P m2) : EmitsOnly P (if c then m1 else m2) := by
  by_cases hc : c
  · rw [if_pos hc]; exact h1
  · rw [if_neg hc]; exact h2

/-! Closure of `Aborting` under the program constructions. -/

theorem aborting_mret {α : Type} (a : α) : Aborting (mret a) := by
  intro e he
  cases he

theorem aborting_pure {α : Type} (a : α) : Aborting (pure a : M α) := by
  intro e he
  cases he

theorem aborting_emit (ev : Event) : Aborting (emit ev) := by
  intro e he
  cases he

theorem aborting_call (eng : Engine) (c : ECall) : Aborting (call eng c) := by
  intro e he
  cases hc : eng.callResult c with
  | ok => rw [call_snd_of_ok hc] at he; cases he
  | raise e' =>
    rw [call_snd_of_raise hc] at he
    cases he
    refine ⟨c, ?_⟩
    rw [call_fst, hc]
    rfl

theorem aborting_mbind {α β : Type} {m : M α} {f : α → M β}
    (h1 : Aborting m) (h2 : ∀ a, Aborting (f a)) : Aborting (mbind m f) := by
  intro e he
  rcases m with ⟨t, r⟩
  cases r with
  | ok a =>
    rw [mbind_of_ok rfl] at he ⊢
    obtain ⟨c, hc⟩ := h2 a e he
    refine ⟨c, ?_⟩
    have hne : (f a).1 ≠ [] := by
      intro hnil
      rw [hnil] at hc
      cases hc
    rw [List.getLast?_append_of_ne_nil _ hne]
    exact hc
  | error er =>
    rw [mbind_of_err rfl] at he ⊢
    cases he
    exact h1 e rfl

theorem aborting_bind {α β : Type} {m : M α} {f : α → M β}
    (h1 : Aborting m) (h2 : ∀ a, Aborting (f a)) : Aborting (m >>= f) :=
  aborting_mbind h1 h2

theorem aborting_tryAll {α : Type} {m : M α} {h : PyErr → M α}
    (h2 : ∀ e, Aborting (h e)) : Aborting (tryAll m h) := by
  intro e he
  rcases m with ⟨t, r⟩
  cases r with
  | ok a => rw [tryAll_of_ok rfl] at he; cases he
  | error er =>
    rw [tryAll_of_err rfl] at he ⊢
    obtain ⟨c, hc⟩ := h2 er e he
    refine ⟨c, ?_⟩
    have hne : (h er).1 ≠ [] := by
      intro hnil
      rw [hnil] at hc
      cases hc
    rw [List.getLast?_append_of_ne_nil _ hne]
    exact hc

theorem aborting_tryAllSwallow (m : M Unit) :
    Aborting (tryAllSwallow m) :=
  aborting_tryAll (fun _ => aborting_mret ())

theorem aborting_tryType {α : Type} {m h : M α} (h1 : Aborting m)
    (h2 : Aborting h) : Aborting (tryType m h) := by
  intro e he
  rcases m with ⟨t, r⟩
  cases r with
  | ok a => rw [tryType_of_ok rfl] at he; cases he
  | error er =>
    cases er with
    | typeError =>
      rw [tryType_of_type rfl] at he ⊢
      obtain ⟨c, hc⟩ := h2 e he
      refine ⟨c, ?_⟩
      have hne : h.1 ≠ [] := by
        intro hnil
        rw [hnil] at hc
        cases hc
      rw [List.getLast?_append_of_ne_nil _ hne]
      exact hc
    | attributeError =>
      rw [tryType_of_other rfl (by intro hx; cases hx)] at he ⊢
      cases he
      exact h1 _ rfl
    | otherError msg =>
      rw [tryType_of_other rfl (by intro hx; cases hx)] at he ⊢
      cases he
      exact h1 _ rfl

theorem aborting_tryAttr {α : Type} {m h : M α} (h1 : Aborting m)
    (h2 : Aborting h) : Aborting (tryAttr m h) := by
  intro e he
  rcases m with ⟨t, r⟩
  cases r with
  | ok a => rw [tryAttr_of_ok rfl] at he; cases he
  | error er =>
    cases er with
    | attributeError =>
      rw [tryAttr_of_attr rfl] at he ⊢
      obtain ⟨c, hc⟩ := h2 e he
      refine ⟨c, ?_⟩
      have hne : h.1 ≠ [] := by
        intro hnil
        rw [hnil] at hc
        cases hc
      rw [List.getLast?_append_of_ne_nil _ hne]
      exact hc
    | typeError =>
      rw [tryAttr_of_other rfl (by intro hx; cases hx)] at he ⊢
      cases he
      exact h1 _ rfl
    | otherError msg =>
      rw [tryAttr_of_other rfl (by intro hx; cases hx)] at he ⊢
      cases he
      exact h1 _ rfl

theorem aborting_ite {α : Type} {c : Prop} [Decidable c] {m1 m2 : M α}
    (h1 : Aborting m1) (h2 : Aborting m2) :
    Aborting (if c then m1 else m2) := by
  by_cases hc : c
  · rw [if_pos hc]; exact h1
  · rw [if_neg hc]; exact h2

/-! Per-step event catalogs: every event a step can emit satisfies `P`
provided `P` holds for the constructors appearing in that step. -/

theorem emitsOnly_startProject {P : Event → Prop} (eng : Engine)
    (psz : String)
    (h1 : ∀ r, P (Event.ecall ECall.newDocument r))
    (h2 : ∀ r, P (Event.ecall ECall.addChunk r))
    (h3 : P (Event.setChunkLabel "DISC3D"))
    (h4 : ∀ r, P (Event.ecall (ECall.saveAs psz) r)) :
    EmitsOnly P (MethodB.startProject eng psz) :=
  emitsOnly_bind (emitsOnly_call h1 eng) (fun _ =>
    emitsOnly_bind (emitsOnly_call h2 eng) (fun _ =>
      emitsOnly_bind (emitsOnly_emit h3) (fun _ => emitsOnly_call h4 eng)))

theorem emitsOnly_addPhotosStep {P : Event → Prop} (eng : Engine)
    (imgs : List String)
    (h1 : ∀ r, P (Event.ecall (ECall.addPhotos imgs) r))
    (h2 : ∀ r, P (Event.ecall ECall.save r)) :
    EmitsOnly P (MethodB.addPhotosStep eng imgs) :=
  emitsOnly_bind (emitsOnly_call h1 eng) (fun _ => emitsOnly_call h2 eng)

theorem emitsOnly_calibStep {P : Event → Prop} (eng : Engine) (f_px : Rat)
    (h1 : P (Event.setUserCalib (MethodB.mkCal eng f_px)))
    (h2 : P (Event.setCalibration (MethodB.mkCal eng f_px)))
    (h3 : P (Event.setFixedCalibration false))
    (h4 : ∀ r, P (Event.ecall ECall.save r)) :
    EmitsOnly P (MethodB.calibStep eng f_px) :=
  emitsOnly_bind (emitsOnly_emit h1) (fun _ =>
    emitsOnly_bind (emitsOnly_emit h2) (fun _ =>
      emitsOnly_bind (emitsOnly_emit h3) (fun _ => emitsOnly_call h4 eng)))

theorem emitsOnly_importRefStep {P : Event → Prop} (eng : Engine)
    (campos : String) (hasCrs : Bool)
    (h1 : P Event.setCrs)
    (h2 : ∀ r, P (Event.ecall (ECall.importReference campos hasCrs) r))
    (h3 : ∀ r, P (Event.ecall ECall.save r)) :
    EmitsOnly P (MethodB.importRefStep eng campos hasCrs) := by
  unfold MethodB.importRefStep MethodB.crsStep
  refine emitsOnly_bind ?_ (fun _ =>
    emitsOnly_bind (emitsOnly_call h2 eng) (fun _ => emitsOnly_call h3 eng))
  exact emitsOnly_ite (emitsOnly_emit h1) (emitsOnly_mret ())

theorem emitsOnly_matchAlignStep {P : Event → Prop} (eng : Engine)
    (h1 : ∀ s r, P (Event.ecall (ECall.matchPhotos s MethodB.bMatchParams) r))
    (h2 : ∀ a r, P (Event.ecall (ECall.alignCameras a) r))
    (h3 : ∀ r, P (Event.ecall ECall.save r)) :
    EmitsOnly P (MethodB.matchAlignStep eng) :=
  emitsOnly_bind
    (emitsOnly_tryAll (emitsOnly_call (h1 _) eng)
      (fun _ => emitsOnly_call (h1 _) eng))
    (fun _ => emitsOnly_bind
      (emitsOnly_tryType (emitsOnly_call (h2 _) eng)
        (emitsOnly_call (h2 _) eng))
      (fun _ => emitsOnly_call h3 eng))

theorem emitsOnly_qcStep {P : Event → Prop} (eng : Engine)
    (h1 : ∀ r, P (Event.ecall ECall.chunkCopy r))
    (h2 : ∀ r, P (Event.ecall ECall.chunkDuplicate r))
    (h3 : ∀ r, P (Event.ecall (ECall.qcSetLabel "DISC3D__QC_ALIGNED") r))
    (h4 : ∀ r, P (Event.ecall (ECall.qcSetEnabled false) r))
    (h5 : ∀ r, P (Event.ecall ECall.save r))
    (h6 : P (Event.warn "QC chunk could not be duplicated; continuing.")) :
    EmitsOnly P (MethodB.qcStep eng) := by
  refine emitsOnly_bind
    (emitsOnly_tryAll
      (emitsOnly_mbind (emitsOnly_call h1 eng) (fun _ => emitsOnly_mret _))
      (fun _ => emitsOnly_tryAll
        (emitsOnly_mbind (emitsOnly_call h2 eng)
          (fun _ => emitsOnly_mret _))
        (fun _ => emitsOnly_mret _)))
    (fun qcOk => ?_)
  cases qcOk
  · exact emitsOnly_emit h6
  · exact emitsOnly_bind
      (emitsOnly_tryAllSwallow (emitsOnly_call h3 eng)) (fun _ =>
        emitsOnly_bind (emitsOnly_tryAllSwallow (emitsOnly_call h4 eng))
          (fun _ => emitsOnly_call h5 eng))

theorem emitsOnly_optimizeStep {P : Event → Prop} (eng : Engine)
    (h1 : ∀ s r, P (Event.ecall (ECall.optimizeCameras s FitMask.fOnly) r))
    (h2 : ∀ r, P (Event.ecall ECall.save r)) :
    EmitsOnly P (MethodB.optimizeStep eng) :=
  emitsOnly_bind
    (emitsOnly_tryType (emitsOnly_call (h1 _) eng)
      (emitsOnly_call (h1 _) eng))
    (fun _ => emitsOnly_call h2 eng)

theorem emitsOnly_depthStep {P : Event → Prop} (eng : Engine)
    (h1 : ∀ s r, P (Event.ecall (ECall.buildDepthMaps s) r))
    (h2 : ∀ r, P (Event.ecall ECall.save r)) :
    EmitsOnly P (MethodB.depthStep eng) :=
  emitsOnly_bind
    (emitsOnly_tryType (emitsOnly_call (h1 _) eng)
      (emitsOnly_tryAll (emitsOnly_call (h1 _) eng)
        (fun _ => emitsOnly_call (h1 _) eng)))
    (fun _ => emitsOnly_call h2 eng)

theorem emitsOnly_meshStep {P : Event → Prop} (eng : Engine)
    (h1 : ∀ s r, P (Event.ecall (ECall.buildModel s) r))
    (h2 : ∀ r, P (Event.ecall ECall.save r)) :
    EmitsOnly P (MethodB.meshStep eng) :=
  emitsOnly_bind
    (emitsOnly_tryType (emitsOnly_call (h1 _) eng)
      (emitsOnly_tryAll (emitsOnly_call (h1 _) eng)
        (fun _ => emitsOnly_call (h1 _) eng)))
    (fun _ => emitsOnly_call h2 eng)

theorem emitsOnly_exportStep {P : Event → Prop} (eng : Engine)
    (cams_xml : String)
    (h1 : ∀ s r, P (Event.ecall (ECall.exportCameras s cams_xml) r))
    (h2 : ∀ r, P (Event.ecall ECall.save r)) :
    EmitsOnly P (MethodB.exportStep eng cams_xml) :=
  emitsOnly_bind
    (emitsOnly_tryType (emitsOnly_call (h1 _) eng)
      (emitsOnly_call (h1 _) eng))
    (fun _ => emitsOnly_call h2 eng)

theorem emitsOnly_enable_gpu {P : Event → Prop} (eng : Engine)
    (idx : Option Int)
    (h1 : ∀ i r, P (Event.ecall (ECall.setGpu i) r))
    (h2 : ∀ msg, P (Event.warn msg)) :
    EmitsOnly P (MethodA.enable_gpu_index eng idx) := by
  cases idx with
  | none => exact emitsOnly_mret _
  | some i =>
    exact emitsOnly_tryAll (emitsOnly_call (h1 i) eng)
      (fun e => emitsOnly_emit (h2 _))

theorem emitsOnly_importCamerasStep {P : Event → Prop} (eng : Engine)
    (xml : String)
    (h1 : ∀ r, P (Event.ecall (ECall.importCamerasCrs xml) r))
    (h2 : ∀ r, P (Event.ecall (ECall.importCamerasPlain xml) r)) :
    EmitsOnly P (MethodA.importCamerasStep eng xml) :=
  emitsOnly_tryType
    (emitsOnly_mbind (emitsOnly_call h1 eng) (fun _ => emitsOnly_mret _))
    (emitsOnly_tryAll
      (emitsOnly_mbind (emitsOnly_call h2 eng) (fun _ => emitsOnly_mret _))
      (fun _ => emitsOnly_mret _))

theorem emitsOnly_matchAlignStepA {P : Event → Prop} (eng : Engine)
    (p : MatchParams)
    (h1 : ∀ s r, P (Event.ecall (ECall.matchPhotos s p) r))
    (h2 : ∀ a r, P (Event.ecall (ECall.alignCameras a) r))
    (h3 : ∀ r, P (Event.ecall ECall.save r)) :
    EmitsOnly P (MethodA.matchAlignStepA eng p) :=
  emitsOnly_bind
    (emitsOnly_tryAll (emitsOnly_call (h1 _) eng)
      (fun _ => emitsOnly_call (h1 _) eng))
    (fun _ => emitsOnly_bind
      (emitsOnly_tryType (emitsOnly_call (h2 _) eng)
        (emitsOnly_call (h2 _) eng))
      (fun _ => emitsOnly_call h3 eng))

theorem emitsOnly_optimizeStepA {P : Event → Prop} (eng : Engine)
    (h1 : ∀ r,
      P (Event.ecall (ECall.optimizeCameras OptimizeSig.lockedA
        FitMask.allFalse) r))
    (h2 : ∀ r, P (Event.ecall ECall.save r)) :
    EmitsOnly P (MethodA.optimizeStepA eng) :=
  emitsOnly_bind
    (emitsOnly_tryType (emitsOnly_call h1 eng) (emitsOnly_mret _))
    (fun _ => emitsOnly_call h2 eng)

theorem emitsOnly_depthStepA {P : Event → Prop} (eng : Engine)
    (h1 : ∀ s r, P (Event.ecall (ECall.buildDepthMaps s) r))
    (h2 : ∀ r, P (Event.ecall ECall.save r)) :
    EmitsOnly P (MethodA.depthStepA eng) :=
  emitsOnly_bind
    (emitsOnly_tryAll (emitsOnly_call (h1 _) eng)
      (fun _ => emitsOnly_tryAll (emitsOnly_call (h1 _) eng)
        (fun _ => emitsOnly_call (h1 _) eng)))
    (fun _ => emitsOnly_call h2 eng)

theorem emitsOnly_meshStepA {P : Event → Prop} (eng : Engine)
    (h1 : ∀ s r, P (Event.ecall (ECall.buildModel s) r))
    (h2 : ∀ r, P (Event.ecall ECall.save r)) :
    EmitsOnly P (MethodA.meshStepA eng) :=
  emitsOnly_bind
    (emitsOnly_tryType (emitsOnly_call (h1 _) eng)
      (emitsOnly_tryAll (emitsOnly_call (h1 _) eng)
        (fun _ => emitsOnly_call (h1 _) eng)))
    (fun _ => emitsOnly_call h2 eng)

theorem emitsOnly_thin_project {P : Event → Prop} (eng : Engine)
    (cd cm : Bool)
    (h1 : ∀ r, P (Event.ecall ECall.clearDepthMaps r))
    (h2 : ∀ r, P (Event.ecall ECall.setDepthMapsNone r))
    (h3 : ∀ r, P (Event.ecall ECall.removeMatches r)) :
    EmitsOnly P (MethodA.thin_project eng cd cm) := by
  unfold MethodA.thin_project
  exact emitsOnly_mbind
    (emitsOnly_ite
      (emitsOnly_tryAttr (emitsOnly_call h1 eng)
        (emitsOnly_tryAllSwallow (emitsOnly_call h2 eng)))
      (emitsOnly_mret ()))
    (fun _ => emitsOnly_ite
      (emitsOnly_tryAllSwallow (emitsOnly_call h3 eng))
      (emitsOnly_mret ()))

theorem emitsOnly_lockCalibStep {P : Event → Prop} (eng : Engine)
    (h : ∀ r, P (Event.ecall ECall.lockFixedCalibration r)) :
    EmitsOnly P (MethodA.lockCalibStep eng) := by
  unfold MethodA.lockCalibStep
  exact emitsOnly_ite (emitsOnly_mret ())
    (emitsOnly_tryAllSwallow (emitsOnly_call h eng))

/-- Master event catalog for the whole Method B `process_scan`: every
event of any run satisfies `P` provided `P` holds for every event shape
the pipeline can emit. -/
theorem emitsOnly_processB {P : Event → Prop} (eng : Engine) (d : ScanDir)
    (f_px : Rat) (hasCrs : Bool)
    (hMkdir : P Event.mkdirModels)
    (hNew : ∀ r, P (Event.ecall ECall.newDocument r))
    (hChunk : ∀ r, P (Event.ecall ECall.addChunk r))
    (hLabel : P (Event.setChunkLabel "DISC3D"))
    (hSaveAs : ∀ p r, P (Event.ecall (ECall.saveAs p) r))
    (hAdd : ∀ l r, P (Event.ecall (ECall.addPhotos l) r))
    (hSave : ∀ r, P (Event.ecall ECall.save r))
    (hUC : P (Event.setUserCalib (MethodB.mkCal eng f_px)))
    (hC : P (Event.setCalibration (MethodB.mkCal eng f_px)))
    (hFC : P (Event.setFixedCalibration false))
    (hCrs : P Event.setCrs)
    (hIR : ∀ p b r, P (Event.ecall (ECall.importReference p b) r))
    (hMatch : ∀ s r,
      P (Event.ecall (ECall.matchPhotos s MethodB.bMatchParams) r))
    (hAlign : ∀ a r, P (Event.ecall (ECall.alignCameras a) r))
    (hCopy : ∀ r, P (Event.ecall ECall.chunkCopy r))
    (hDup : ∀ r, P (Event.ecall ECall.chunkDuplicate r))
    (hQL : ∀ r, P (Event.ecall (ECall.qcSetLabel "DISC3D__QC_ALIGNED") r))
    (hQE : ∀ r, P (Event.ecall (ECall.qcSetEnabled false) r))
    (hWarn : P (Event.warn "QC chunk could not be duplicated; continuing."))
    (hOpt : ∀ s r,
      P (Event.ecall (ECall.optimizeCameras s FitMask.fOnly) r))
    (hDepth : ∀ s r, P (Event.ecall (ECall.buildDepthMaps s) r))
    (hMesh : ∀ s r, P (Event.ecall (ECall.buildModel s) r))
    (hExp : ∀ s p r, P (Event.ecall (ECall.exportCameras s p) r)) :
    EmitsOnly P (MethodB.process_scan eng d f_px hasCrs) := by
  unfold MethodB.process_scan
  cases huid : (MethodB.get_uid_and_dataset d).1 with
  | none =>
    simp only [huid]
    exact emitsOnly_mret _
  | some uid =>
    simp only [huid]
    refine emitsOnly_ite (emitsOnly_mret _) (emitsOnly_ite (emitsOnly_mret _)
      (emitsOnly_mbind (emitsOnly_emit hMkdir) (fun _ => ?_)))
    unfold MethodB.enginePhase
    refine emitsOnly_bind
      (emitsOnly_startProject eng _ hNew hChunk hLabel (hSaveAs _))
      (fun _ => ?_)
    refine emitsOnly_bind
      (emitsOnly_addPhotosStep eng _ (hAdd _) hSave) (fun _ => ?_)
    refine emitsOnly_ite (emitsOnly_mret _) ?_
    refine emitsOnly_bind (emitsOnly_calibStep eng f_px hUC hC hFC hSave)
      (fun _ => ?_)
    refine emitsOnly_bind
      (emitsOnly_importRefStep eng _ hasCrs hCrs (hIR _ _) hSave)
      (fun _ => ?_)
    refine emitsOnly_bind (emitsOnly_matchAlignStep eng hMatch hAlign hSave)
      (fun _ => ?_)
    refine emitsOnly_bind
      (emitsOnly_qcStep eng hCopy hDup hQL hQE hSave hWarn) (fun _ => ?_)
    refine emitsOnly_bind (emitsOnly_optimizeStep eng hOpt hSave)
      (fun _ => ?_)
    refine emitsOnly_bind (emitsOnly_depthStep eng hDepth hSave)
      (fun _ => ?_)
    refine emitsOnly_bind (emitsOnly_meshStep eng hMesh hSave) (fun _ => ?_)
    exact emitsOnly_bind
      (emitsOnly_exportStep eng _ (fun s r => hExp s _ r) hSave)
      (fun _ => emitsOnly_mret _)

/-- Master event catalog for the whole Method A `process_scan`. -/
theorem emitsOnly_processA {P : Event → Prop} (eng : Engine) (d : ScanDir)
    (hasCrs : Bool) (gpu : Option Int) (glob : String) (kl tl : Nat)
    (kk kd km : Bool)
    (hMkdir : P Event.mkdirModels)
    (hNew : ∀ r, P (Event.ecall ECall.newDocument r))
    (hChunk : ∀ r, P (Event.ecall ECall.addChunk r))
    (hLabel : P (Event.setChunkLabel "DISC3D"))
    (hSaveAs : ∀ p r, P (Event.ecall (ECall.saveAs p) r))
    (hGpu : ∀ i r, P (Event.ecall (ECall.setGpu i) r))
    (hWarn : ∀ msg, P (Event.warn msg))
    (hAdd : ∀ l r, P (Event.ecall (ECall.addPhotos l) r))
    (hSave : ∀ r, P (Event.ecall ECall.save r))
    (hCrs : P Event.setCrs)
    (hICC : ∀ p r, P (Event.ecall (ECall.importCamerasCrs p) r))
    (hICP : ∀ p r, P (Event.ecall (ECall.importCamerasPlain p) r))
    (hUT : ∀ r, P (Event.ecall ECall.updateTransform r))
    (hFC : ∀ r, P (Event.ecall ECall.lockFixedCalibration r))
    (hMatch : ∀ s r, P (Event.ecall
      (ECall.matchPhotos s (MethodA.aMatchParams kl tl kk)) r))
    (hAlign : ∀ a r, P (Event.ecall (ECall.alignCameras a) r))
    (hOpt : ∀ r, P (Event.ecall
      (ECall.optimizeCameras OptimizeSig.lockedA FitMask.allFalse) r))
    (hDepth : ∀ s r, P (Event.ecall (ECall.buildDepthMaps s) r))
    (hMesh : ∀ s r, P (Event.ecall (ECall.buildModel s) r))
    (hClear : ∀ r, P (Event.ecall ECall.clearDepthMaps r))
    (hDMN : ∀ r, P (Event.ecall ECall.setDepthMapsNone r))
    (hRM : ∀ r, P (Event.ecall ECall.removeMatches r)) :
    EmitsOnly P (MethodA.process_scan eng d hasCrs gpu glob kl tl kk kd km)
    := by
  unfold MethodA.process_scan
  cases huid : (MethodA.get_uid_dataset d).1 with
  | none =>
    simp only [huid]
    exact emitsOnly_mret _
  | some uid =>
    simp only [huid]
    refine emitsOnly_ite (emitsOnly_mret _)
      (emitsOnly_mbind (emitsOnly_emit hMkdir) (fun _ => ?_))
    cases hxml : (sortStrings d.modelsXmlMatches).head? with
    | none =>
      simp only [hxml]
      exact emitsOnly_mret _
    | some xml =>
      simp only [hxml]
      unfold MethodA.enginePhaseA
      refine emitsOnly_bind
        (emitsOnly_startProject eng _ hNew hChunk hLabel (hSaveAs _))
        (fun _ => ?_)
      refine emitsOnly_bind (emitsOnly_enable_gpu eng gpu hGpu hWarn)
        (fun _ => ?_)
      refine emitsOnly_bind
        (emitsOnly_addPhotosStep eng _ (hAdd _) hSave) (fun _ => ?_)
      refine emitsOnly_bind ?_ (fun _ => ?_)
      · exact emitsOnly_ite (emitsOnly_emit hCrs) (emitsOnly_mret ())
      · refine emitsOnly_bind
          (emitsOnly_importCamerasStep eng _ (hICC _) (hICP _))
          (fun early => ?_)
        cases early with
        | some r => exact emitsOnly_mret _
        | none =>
          refine emitsOnly_bind
            (emitsOnly_tryAllSwallow (emitsOnly_call hUT eng))
            (fun _ => ?_)
          refine emitsOnly_bind (emitsOnly_lockCalibStep eng hFC)
            (fun _ => ?_)
          refine emitsOnly_bind
            (emitsOnly_matchAlignStepA eng _ hMatch hAlign hSave)
            (fun _ => ?_)
          refine emitsOnly_bind (emitsOnly_optimizeStepA eng hOpt hSave)
            (fun _ => ?_)
          refine emitsOnly_bind (emitsOnly_depthStepA eng hDepth hSave)
            (fun _ => ?_)
          refine emitsOnly_bind (emitsOnly_meshStepA eng hMesh hSave)
            (fun _ => ?_)
          refine emitsOnly_bind
            (emitsOnly_thin_project eng _ _ hClear hDMN hRM)
            (fun _ => ?_)
          exact emitsOnly_bind (emitsOnly_call hSave eng)
            (fun _ => emitsOnly_mret _)

theorem emitsOnly_append {P : Event → Prop} {xs ys : List Event}
    (hx : ∀ e ∈ xs, P e) (hy : ∀ e ∈ ys, P e) : ∀ e ∈ xs ++ ys, P e := by
  intro e he
  rcases List.mem_append.mp he with h | h
  · exact hx e h
  · exact hy e h

theorem calibStep_mem (eng : Engine) (f_px : Rat) :
    Event.setUserCalib (MethodB.mkCal eng f_px) ∈
        (MethodB.calibStep eng f_px).1 ∧
      Event.setCalibration (MethodB.mkCal eng f_px) ∈
        (MethodB.calibStep eng f_px).1 ∧
      Event.setFixedCalibration false ∈ (MethodB.calibStep eng f_px).1 := by
  have hx : (MethodB.calibStep eng f_px).1 =
      Event.setUserCalib (MethodB.mkCal eng f_px) ::
        Event.setCalibration (MethodB.mkCal eng f_px) ::
          Event.setFixedCalibration false :: (call eng ECall.save).1 := rfl
  rw [hx]
  refine ⟨List.mem_cons_self _ _, ?_, ?_⟩
  · exact List.mem_cons_of_mem _ (List.mem_cons_self _ _)
  · exact List.mem_cons_of_mem _ (List.mem_cons_of_mem _
      (List.mem_cons_self _ _))

/-- Split of a Method B engine phase at the match-and-align boundary: the
trace is a prefix with no matching or alignment call followed by a suffix
with no calibration mutation, and if any matching or alignment call
appears (necessarily in the suffix), the three calibration-seeding events
were already emitted in the prefix. -/
theorem enginePhaseB_split (eng : Engine) (f_px : Rat) (hasCrs : Bool)
    (imgs : List String) (campos psz cams : String) :
    ∃ A B,
      (MethodB.enginePhase eng f_px hasCrs imgs campos psz cams).1 =
          A ++ B ∧
        (∀ e ∈ A, Event.isMatchAlign e = false) ∧
        (∀ e ∈ B, Event.isCalibMut e = false) ∧
        ((∃ e ∈ B, Event.isMatchAlign e = true) →
          Event.setUserCalib (MethodB.mkCal eng f_px) ∈ A ∧
            Event.setCalibration (MethodB.mkCal eng f_px) ∈ A ∧
            Event.setFixedCalibration false ∈ A) := by
  have spNM : ∀ e ∈ (MethodB.startProject eng psz).1,
      Event.isMatchAlign e = false :=
    emitsOnly_startProject eng psz (fun _ => rfl) (fun _ => rfl) rfl
      (fun _ => rfl)
  have apNM : ∀ e ∈ (MethodB.addPhotosStep eng imgs).1,
      Event.isMatchAlign e = false :=
    emitsOnly_addPhotosStep eng imgs (fun _ => rfl) (fun _ => rfl)
  have calNM : ∀ e ∈ (MethodB.calibStep eng f_px).1,
      Event.isMatchAlign e = false :=
    emitsOnly_calibStep eng f_px rfl rfl rfl (fun _ => rfl)
  have irNM : ∀ e ∈ (MethodB.importRefStep eng campos hasCrs).1,
      Event.isMatchAlign e = false :=
    emitsOnly_importRefStep eng campos hasCrs rfl (fun _ => rfl)
      (fun _ => rfl)
  unfold MethodB.enginePhase
  simp only [bindM_eq]
  cases h1 : (MethodB.startProject eng psz).2 with
  | error e1 =>
    rw [mbind_of_err h1]
    refine ⟨(MethodB.startProject eng psz).1, [], (List.append_nil _).symm,
      spNM, fun e he => absurd he (List.not_mem_nil e), ?_⟩
    rintro ⟨e, he, _⟩
    exact absurd he (List.not_mem_nil e)
  | ok u1 =>
    rw [mbind_of_ok h1]
    cases h2 : (MethodB.addPhotosStep eng imgs).2 with
    | error e2 =>
      rw [mbind_of_err h2]
      refine ⟨(MethodB.startProject eng psz).1 ++
        (MethodB.addPhotosStep eng imgs).1, [], by simp,
        emitsOnly_append spNM apNM,
        fun e he => absurd he (List.not_mem_nil e), ?_⟩
      rintro ⟨e, he, _⟩
      exact absurd he (List.not_mem_nil e)
    | ok u2 =>
      rw [mbind_of_ok h2]
      cases hs : eng.sensorsEmpty with
      | true =>
        simp only [hs, if_true]
        refine ⟨(MethodB.startProject eng psz).1 ++
          (MethodB.addPhotosStep eng imgs).1, [], by simp [mret],
          emitsOnly_append spNM apNM,
          fun e he => absurd he (List.not_mem_nil e), ?_⟩
        rintro ⟨e, he, _⟩
        exact absurd he (List.not_mem_nil e)
      | false =>
        simp only [hs, Bool.false_eq_true, if_false]
        cases h3 : (MethodB.calibStep eng f_px).2 with
        | error e3 =>
          rw [mbind_of_err h3]
          refine ⟨(MethodB.startProject eng psz).1 ++
            ((MethodB.addPhotosStep eng imgs).1 ++
              (MethodB.calibStep eng f_px).1), [], by simp,
            emitsOnly_append spNM (emitsOnly_append apNM calNM),
            fun e he => absurd he (List.not_mem_nil e), ?_⟩
          rintro ⟨e, he, _⟩
          exact absurd he (List.not_mem_nil e)
        | ok u3 =>
          rw [mbind_of_ok h3]
          cases h4 : (MethodB.importRefStep eng campos hasCrs).2 with
          | error e4 =>
            rw [mbind_of_err h4]
            refine ⟨(MethodB.startProject eng psz).1 ++
              ((MethodB.addPhotosStep eng imgs).1 ++
                ((MethodB.calibStep eng f_px).1 ++
                  (MethodB.importRefStep eng campos hasCrs).1)), [],
              by simp,
              emitsOnly_append spNM (emitsOnly_append apNM
                (emitsOnly_append calNM irNM)),
              fun e he => absurd he (List.not_mem_nil e), ?_⟩
            rintro ⟨e, he, _⟩
            exact absurd he (List.not_mem_nil e)
          | ok u4 =>
            rw [mbind_of_ok h4]
            refine ⟨(MethodB.startProject eng psz).1 ++
              ((MethodB.addPhotosStep eng imgs).1 ++
                ((MethodB.calibStep eng f_px).1 ++
                  (MethodB.importRefStep eng campos hasCrs).1)),
              (mbind (MethodB.matchAlignStep eng) (fun _ =>
                mbind (MethodB.qcStep eng) (fun _ =>
                  mbind (MethodB.optimizeStep eng) (fun _ =>
                    mbind (MethodB.depthStep eng) (fun _ =>
                      mbind (MethodB.meshStep eng) (fun _ =>
                        mbind (MethodB.exportStep eng cams) (fun _ =>
                          mret ("ok", "Saved " ++ psz ++ "  cams_xml=" ++
                            cams)))))))).1, by simp, ?_, ?_, ?_⟩
            · exact emitsOnly_append spNM (emitsOnly_append apNM
                (emitsOnly_append calNM irNM))
            · refine emitsOnly_mbind
                (emitsOnly_matchAlignStep eng (fun _ _ => rfl)
                  (fun _ _ => rfl) (fun _ => rfl)) (fun _ => ?_)
              refine emitsOnly_mbind
                (emitsOnly_qcStep eng (fun _ => rfl) (fun _ => rfl)
                  (fun _ => rfl) (fun _ => rfl) (fun _ => rfl) rfl)
                (fun _ => ?_)
              refine emitsOnly_mbind
                (emitsOnly_optimizeStep eng (fun _ _ => rfl)
                  (fun _ => rfl)) (fun _ => ?_)
              refine emitsOnly_mbind
                (emitsOnly_depthStep eng (fun _ _ => rfl) (fun _ => rfl))
                (fun _ => ?_)
              refine emitsOnly_mbind
                (emitsOnly_meshStep eng (fun _ _ => rfl) (fun _ => rfl))
                (fun _ => ?_)
              exact emitsOnly_mbind
                (emitsOnly_exportStep eng cams (fun _ _ => rfl)
                  (fun _ => rfl)) (fun _ => emitsOnly_mret _)
            · intro _
              obtain ⟨m1, m2, m3⟩ := calibStep_mem eng f_px
              refine ⟨?_, ?_, ?_⟩ <;>
                [exact List.mem_append.mpr (Or.inr (List.mem_append.mpr
                  (Or.inr (List.mem_append.mpr (Or.inl m1)))));
                exact List.mem_append.mpr (Or.inr (List.mem_append.mpr
                  (Or.inr (List.mem_append.mpr (Or.inl m2)))));
                exact List.mem_append.mpr (Or.inr (List.mem_append.mpr
                  (Or.inr (List.mem_append.mpr (Or.inl m3)))))]

theorem crsStep_snd (hasCrs : Bool) :
    (MethodB.crsStep hasCrs).2 = Except.ok () := by
  cases hasCrs <;> rfl

theorem tryAllSwallow_snd (m : M Unit) :
    (tryAllSwallow m).2 = Except.ok () := by
  rcases m with ⟨t, r⟩
  cases r with
  | ok a => cases a; rfl
  | error e => rfl

theorem gpu_snd (eng : Engine) (idx : Option Int) :
    (MethodA.enable_gpu_index eng idx).2 = Except.ok () := by
  cases idx with
  | none => rfl
  | some i =>
    have hx : MethodA.enable_gpu_index eng (some i) =
        tryAll (call eng (ECall.setGpu i))
          (fun e => emit (Event.warn ("[GPU] warn: " ++
            MethodA.pyErrStr e))) := rfl
    rw [hx]
    cases hc : eng.callResult (ECall.setGpu i) with
    | ok =>
      rw [tryAll_of_ok (call_snd_of_ok hc)]
      exact call_snd_of_ok hc
    | raise e =>
      rw [tryAll_of_err (call_snd_of_raise hc)]
      rfl

theorem lockCalib_snd (eng : Engine) :
    (MethodA.lockCalibStep eng).2 = Except.ok () := by
  unfold MethodA.lockCalibStep
  cases hs : eng.sensorsEmpty with
  | true =>
    simp only [hs, if_true]
    rfl
  | false =>
    simp only [hs, Bool.false_eq_true, if_false]
    exact tryAllSwallow_snd _

/-- Whenever the chunk has sensors, the Method A lock step records the
guarded `fixed_calibration = True` attempt (successful or not). -/
theorem lockCalib_attempt (eng : Engine)
    (hs : eng.sensorsEmpty = false) :
    Event.ecall ECall.lockFixedCalibration
      (eng.callResult ECall.lockFixedCalibration) ∈
      (MethodA.lockCalibStep eng).1 := by
  unfold MethodA.lockCalibStep tryAllSwallow
  simp only [hs, Bool.false_eq_true, if_false]
  cases hr : (call eng ECall.lockFixedCalibration).2 with
  | ok a =>
    rw [tryAll_of_ok hr]
    rw [call_fst]
    exact List.mem_singleton.mpr rfl
  | error er =>
    rw [tryAll_of_err hr]
    refine List.mem_append.mpr (Or.inl ?_)
    rw [call_fst]
    exact List.mem_singleton.mpr rfl

/-- Split of a Method A engine phase at the match-and-align boundary:
prefix with no matching or alignment call, suffix with no calibration
mutation, and whenever matching happens and the chunk has sensors, the
guarded `fixed_calibration = True` lock attempt already lies in the
prefix (the attempt is recorded whether or not it succeeded: the source
swallows its failure). -/
theorem enginePhaseA_split (eng : Engine) (hasCrs : Bool)
    (gpu : Option Int) (imgs : List String) (xml psz : String)
    (kl tl : Nat) (kk kd km : Bool) :
    ∃ A B,
      (MethodA.enginePhaseA eng hasCrs gpu imgs xml psz kl tl kk kd
          km).1 = A ++ B ∧
        (∀ e ∈ A, Event.isMatchAlign e = false) ∧
        (∀ e ∈ B, Event.isCalibMut e = false) ∧
        ((∃ e ∈ B, Event.isMatchAlign e = true) →
          eng.sensorsEmpty = false →
          Event.ecall ECall.lockFixedCalibration
            (eng.callResult ECall.lockFixedCalibration) ∈ A) := by
  have spNM : ∀ e ∈ (MethodB.startProject eng psz).1,
      Event.isMatchAlign e = false :=
    emitsOnly_startProject eng psz (fun _ => rfl) (fun _ => rfl) rfl
      (fun _ => rfl)
  have gpuNM : ∀ e ∈ (MethodA.enable_gpu_index eng gpu).1,
      Event.isMatchAlign e = false :=
    emitsOnly_enable_gpu eng gpu (fun _ _ => rfl) (fun _ => rfl)
  have apNM : ∀ e ∈ (MethodB.addPhotosStep eng imgs).1,
      Event.isMatchAlign e = false :=
    emitsOnly_addPhotosStep eng imgs (fun _ => rfl) (fun _ => rfl)
  have crsNM : ∀ e ∈ (MethodB.crsStep hasCrs).1,
      Event.isMatchAlign e = false := by
    unfold MethodB.crsStep
    exact emitsOnly_ite (emitsOnly_emit rfl) (emitsOnly_mret ())
  have icNM : ∀ e ∈ (MethodA.importCamerasStep eng xml).1,
      Event.isMatchAlign e = false :=
    emitsOnly_importCamerasStep eng xml (fun _ => rfl) (fun _ => rfl)
  have utNM : ∀ e ∈ (tryAllSwallow (call eng ECall.updateTransform)).1,
      Event.isMatchAlign e = false :=
    emitsOnly_tryAllSwallow
      (@emitsOnly_call (fun e => Event.isMatchAlign e = false)
        ECall.updateTransform (fun _ => rfl) eng)
  unfold MethodA.enginePhaseA
  simp only [bindM_eq]
  cases h1 : (MethodB.startProject eng psz).2 with
  | error e1 =>
    rw [mbind_of_err h1]
    refine ⟨(MethodB.startProject eng psz).1, [], (List.append_nil _).symm,
      spNM, fun e he => absurd he (List.not_mem_nil e), ?_⟩
    rintro ⟨e, he, _⟩
    exact absurd he (List.not_mem_nil e)
  | ok u1 =>
    rw [mbind_of_ok h1, mbind_of_ok (gpu_snd eng gpu)]
    cases h2 : (MethodB.addPhotosStep eng imgs).2 with
    | error e2 =>
      rw [mbind_of_err h2]
      refine ⟨(MethodB.startProject eng psz).1 ++
        ((MethodA.enable_gpu_index eng gpu).1 ++
          (MethodB.addPhotosStep eng imgs).1), [], by simp,
        emitsOnly_append spNM (emitsOnly_append gpuNM apNM),
        fun e he => absurd he (List.not_mem_nil e), ?_⟩
      rintro ⟨e, he, _⟩
      exact absurd he (List.not_mem_nil e)
    | ok u2 =>
      rw [mbind_of_ok h2, mbind_of_ok (crsStep_snd hasCrs)]
      cases h3 : (MethodA.importCamerasStep eng xml).2 with
      | error e3 =>
        rw [mbind_of_err h3]
        refine ⟨(MethodB.startProject eng psz).1 ++
          ((MethodA.enable_gpu_index eng gpu).1 ++
            ((MethodB.addPhotosStep eng imgs).1 ++
              ((MethodB.crsStep hasCrs).1 ++
                (MethodA.importCamerasStep eng xml).1))), [], by simp,
          emitsOnly_append spNM (emitsOnly_append gpuNM
            (emitsOnly_append apNM (emitsOnly_append crsNM icNM))),
          fun e he => absurd he (List.not_mem_nil e), ?_⟩
        rintro ⟨e, he, _⟩
        exact absurd he (List.not_mem_nil e)
      | ok early =>
        rw [mbind_of_ok h3]
        cases early with
        | some r =>
          refine ⟨(MethodB.startProject eng psz).1 ++
            ((MethodA.enable_gpu_index eng gpu).1 ++
              ((MethodB.addPhotosStep eng imgs).1 ++
                ((MethodB.crsStep hasCrs).1 ++
                  (MethodA.importCamerasStep eng xml).1))), [],
            by simp [mret],
            emitsOnly_append spNM (emitsOnly_append gpuNM
              (emitsOnly_append apNM (emitsOnly_append crsNM icNM))),
            fun e he => absurd he (List.not_mem_nil e), ?_⟩
          rintro ⟨e, he, _⟩
          exact absurd he (List.not_mem_nil e)
        | none =>
          dsimp only
          rw [mbind_of_ok (tryAllSwallow_snd
            (call eng ECall.updateTransform))]
          rw [mbind_of_ok (lockCalib_snd eng)]
          refine ⟨(MethodB.startProject eng psz).1 ++
            ((MethodA.enable_gpu_index eng gpu).1 ++
              ((MethodB.addPhotosStep eng imgs).1 ++
                ((MethodB.crsStep hasCrs).1 ++
                  ((MethodA.importCamerasStep eng xml).1 ++
                    ((tryAllSwallow (call eng ECall.updateTransform)).1 ++
                      (MethodA.lockCalibStep eng).1))))),
            (mbind (MethodA.matchAlignStepA eng
                (MethodA.aMatchParams kl tl kk)) (fun _ =>
              mbind (MethodA.optimizeStepA eng) (fun _ =>
                mbind (MethodA.depthStepA eng) (fun _ =>
                  mbind (MethodA.meshStepA eng) (fun _ =>
                    mbind (MethodA.thin_project eng (!kd) (!km)) (fun _ =>
                      mbind (call eng ECall.save) (fun _ =>
                        mret ("ok", "Saved " ++ psz ++ "  using XML=" ++
                          xml)))))))).1, by simp, ?_, ?_, ?_⟩
          · exact emitsOnly_append spNM (emitsOnly_append gpuNM
              (emitsOnly_append apNM (emitsOnly_append crsNM
                (emitsOnly_append icNM (emitsOnly_append utNM
                  (emitsOnly_lockCalibStep eng (fun _ => rfl)))))))
          · refine emitsOnly_mbind
              (emitsOnly_matchAlignStepA eng _ (fun _ _ => rfl)
                (fun _ _ => rfl) (fun _ => rfl)) (fun _ => ?_)
            refine emitsOnly_mbind
              (emitsOnly_optimizeStepA eng (fun _ => rfl) (fun _ => rfl))
              (fun _ => ?_)
            refine emitsOnly_mbind
              (emitsOnly_depthStepA eng (fun _ _ => rfl) (fun _ => rfl))
              (fun _ => ?_)
            refine emitsOnly_mbind
              (emitsOnly_meshStepA eng (fun _ _ => rfl) (fun _ => rfl))
              (fun _ => ?_)
            refine emitsOnly_mbind
              (emitsOnly_thin_project eng _ _ (fun _ => rfl)
                (fun _ => rfl) (fun _ => rfl)) (fun _ => ?_)
            exact emitsOnly_mbind
              (@emitsOnly_call (fun e => Event.isCalibMut e = false)
                ECall.save (fun _ => rfl) eng)
              (fun _ => emitsOnly_mret _)
          · intro _ hs
            refine List.mem_append.mpr (Or.inr (List.mem_append.mpr
              (Or.inr (List.mem_append.mpr (Or.inr (List.mem_append.mpr
                (Or.inr (List.mem_append.mpr (Or.inr
                  (List.mem_append.mpr (Or.inr ?_)))))))))))
            exact lockCalib_attempt eng hs

/-! Validation behaviour of the two `process_scan` functions. -/

theorem processB_validation_fail {d : ScanDir} {r : String}
    (h : MethodB.validationError d = some r) (eng : Engine) (f_px : Rat)
    (hasCrs : Bool) :
    MethodB.process_scan eng d f_px hasCrs = ([], Except.ok ("fail", r)) := by
  unfold MethodB.validationError at h
  unfold MethodB.process_scan
  cases huid : (MethodB.get_uid_and_dataset d).1 with
  | none =>
    rw [huid] at h
    cases h
    simp only [huid]
    rfl
  | some uid =>
    rw [huid] at h
    simp only [huid]
    cases hempty : (imgsOf d uid).isEmpty with
    | true =>
      simp only [hempty, if_true] at h ⊢
      cases h
      rfl
    | false =>
      simp only [hempty, Bool.false_eq_true, if_false] at h ⊢
      by_cases hcam : d.camposFiles.length ≠ 1
      · simp only [if_pos hcam] at h ⊢
        cases h
        rfl
      · simp only [if_neg hcam] at h
        cases h

theorem processB_validation_ok {d : ScanDir} {uid : String}
    (huid : (MethodB.get_uid_and_dataset d).1 = some uid)
    (himgs : (imgsOf d uid).isEmpty = false)
    (hcam : d.camposFiles.length = 1) (eng : Engine) (f_px : Rat)
    (hasCrs : Bool) :
    MethodB.process_scan eng d f_px hasCrs =
      mbind (emit Event.mkdirModels) (fun _ =>
        MethodB.enginePhase eng f_px hasCrs (imgsOf d uid)
          (d.camposFiles.headD "")
          ("models/" ++ (MethodB.get_uid_and_dataset d).2 ++ ".psz")
          ("models/" ++ (MethodB.get_uid_and_dataset d).2 ++
            "_Calibrated_Cameras_" ++ uid ++ "_" ++
            String.mk (takeUntilSub "__".toList
              (MethodB.get_uid_and_dataset d).2.toList) ++ ".xml")) := by
  unfold MethodB.process_scan
  simp only [huid, himgs, Bool.false_eq_true, if_false, hcam, ne_eq,
    not_true_eq_false]

theorem validationErrorB_none_iff (d : ScanDir) :
    MethodB.validationError d = none ↔
      ∃ uid, (MethodB.get_uid_and_dataset d).1 = some uid ∧
        (imgsOf d uid).isEmpty = false ∧ d.camposFiles.length = 1 := by
  unfold MethodB.validationError
  cases huid : (MethodB.get_uid_and_dataset d).1 with
  | none =>
    simp only [huid]
    constructor
    · intro h; cases h
    · rintro ⟨uid, huid', _⟩; cases huid'
  | some uid =>
    simp only [huid]
    constructor
    · intro h
      refine ⟨uid, rfl, ?_, ?_⟩
      · cases hempty : (imgsOf d uid).isEmpty
        · rfl
        · rw [hempty] at h; simp at h
      · by_cases hcam : d.camposFiles.length = 1
        · exact hcam
        · cases hempty : (imgsOf d uid).isEmpty
          · rw [hempty] at h
            simp only [Bool.false_eq_true, if_false] at h
            rw [if_pos hcam] at h
            cases h
          · rw [hempty] at h; simp at h
    · rintro ⟨uid', huid', hempty, hcam⟩
      have huv : uid = uid' := Option.some.inj huid'
      subst huv
      simp only [hempty, Bool.false_eq_true, if_false, hcam, ne_eq,
        not_true_eq_false, if_false]

theorem processA_validation_fail {d : ScanDir} {glob r : String}
    (h : MethodA.validationError d glob = some r) (eng : Engine)
    (hasCrs : Bool) (gpu : Option Int) (kl tl : Nat) (kk kd km : Bool) :
    (MethodA.process_scan eng d hasCrs gpu glob kl tl kk kd km).2 =
        Except.ok ("fail", r) ∧
      ∀ e ∈ (MethodA.process_scan eng d hasCrs gpu glob kl tl kk kd km).1,
        Event.isEngineCall e = false := by
  unfold MethodA.validationError at h
  unfold MethodA.process_scan
  cases huid : (MethodA.get_uid_dataset d).1 with
  | none =>
    rw [huid] at h
    cases h
    simp only [huid]
    exact ⟨rfl, by intro e he; cases he⟩
  | some uid =>
    rw [huid] at h
    simp only [huid]
    cases hempty : (imgsOf d uid).isEmpty with
    | true =>
      simp only [hempty, if_true] at h ⊢
      cases h
      exact ⟨rfl, by intro e he; cases he⟩
    | false =>
      simp only [hempty, Bool.false_eq_true, if_false] at h ⊢
      cases hxml : (sortStrings d.modelsXmlMatches).head? with
      | none =>
        rw [hxml] at h
        simp only [Option.isNone_none, if_true] at h
        cases h
        simp only [hxml]
        refine ⟨rfl, ?_⟩
        intro e he
        have htr : (mbind (emit Event.mkdirModels) (fun _ =>
            (mret ("fail", "No calibrated cameras XML found in " ++
              d.name ++ "/models matching " ++ glob) : M (String × String)))).1 =
            [Event.mkdirModels] := rfl
        rw [htr] at he
        rw [List.mem_singleton] at he
        subst he
        rfl
      | some xml =>
        rw [hxml] at h
        simp at h

theorem validationErrorA_none_iff (d : ScanDir) (glob : String) :
    MethodA.validationError d glob = none ↔
      ∃ uid, (MethodA.get_uid_dataset d).1 = some uid ∧
        (imgsOf d uid).isEmpty = false ∧
        (sortStrings d.modelsXmlMatches).head?.isSome = true := by
  unfold MethodA.validationError
  cases huid : (MethodA.get_uid_dataset d).1 with
  | none =>
    simp only [huid]
    constructor
    · intro h; cases h
    · rintro ⟨uid, huid', _⟩; cases huid'
  | some uid =>
    simp only [huid]
    constructor
    · intro h
      refine ⟨uid, rfl, ?_, ?_⟩
      · cases hempty : (imgsOf d uid).isEmpty
        · rfl
        · rw [hempty] at h; simp at h
      · cases hempty : (imgsOf d uid).isEmpty
        · rw [hempty] at h
          simp only [Bool.false_eq_true, if_false] at h
          cases hxml : (sortStrings d.modelsXmlMatches).head? with
          | none => rw [hxml] at h; simp at h
          | some xml => simp only [hxml, Option.isSome_some]
        · rw [hempty] at h; simp at h
    · rintro ⟨uid', huid', hempty, hxml⟩
      have huv : uid = uid' := Option.some.inj huid'
      subst huv
      simp only [hempty, Bool.false_eq_true, if_false]
      cases hx : (sortStrings d.modelsXmlMatches).head? with
      | none => rw [hx] at hxml; cases hxml
      | some xml =>
        simp only [hx, Option.isNone_some, Bool.false_eq_true, if_false]

theorem processA_noxml {d : ScanDir} {uid : String} (eng : Engine)
    (hasCrs : Bool) (gpu : Option Int) (glob : String) (kl tl : Nat)
    (kk kd km : Bool)
    (huid : (MethodA.get_uid_dataset d).1 = some uid)
    (himgs : (imgsOf d uid).isEmpty = false)
    (hxml : d.modelsXmlMatches = []) :
    MethodA.process_scan eng d hasCrs gpu glob kl tl kk kd km =
      ([Event.mkdirModels],
        Except.ok ("fail", "No calibrated cameras XML found in " ++
          d.name ++ "/models matching " ++ glob)) := by
  unfold MethodA.process_scan
  simp only [huid, himgs, hxml, Bool.false_eq_true, if_false, sortStrings,
    List.insertionSort, List.head?_nil]
  rfl

/-- Every uncaught exception of a Method B run happens at the very last
trace event, the raising engine call: the failing step writes nothing
after its failure. -/
theorem aborting_processB (eng : Engine) (d : ScanDir) (f_px : Rat)
    (hasCrs : Bool) : Aborting (MethodB.process_scan eng d f_px hasCrs) := by
  unfold MethodB.process_scan
  cases huid : (MethodB.get_uid_and_dataset d).1 with
  | none =>
    simp only [huid]
    exact aborting_mret _
  | some uid =>
    simp only [huid]
    refine aborting_ite (aborting_mret _) (aborting_ite (aborting_mret _)
      (aborting_mbind (aborting_emit _) (fun _ => ?_)))
    unfold MethodB.enginePhase MethodB.startProject MethodB.addPhotosStep
      MethodB.calibStep MethodB.importRefStep MethodB.crsStep
      MethodB.matchAlignStep MethodB.qcStep MethodB.optimizeStep
      MethodB.depthStep MethodB.meshStep MethodB.exportStep
    refine aborting_bind (aborting_bind (aborting_call eng _) (fun _ =>
      aborting_bind (aborting_call eng _) (fun _ =>
        aborting_bind (aborting_emit _) (fun _ => aborting_call eng _))))
      (fun _ => ?_)
    refine aborting_bind (aborting_bind (aborting_call eng _) (fun _ =>
      aborting_call eng _)) (fun _ => ?_)
    refine aborting_ite (aborting_mret _) ?_
    refine aborting_bind (aborting_bind (aborting_emit _) (fun _ =>
      aborting_bind (aborting_emit _) (fun _ =>
        aborting_bind (aborting_emit _) (fun _ => aborting_call eng _))))
      (fun _ => ?_)
    refine aborting_bind (aborting_bind
      (aborting_ite (aborting_emit _) (aborting_mret _)) (fun _ =>
        aborting_bind (aborting_call eng _) (fun _ => aborting_call eng _)))
      (fun _ => ?_)
    refine aborting_bind (aborting_bind
      (aborting_tryAll (fun _ => aborting_call eng _)) (fun _ =>
        aborting_bind (aborting_tryType (aborting_call eng _)
          (aborting_call eng _)) (fun _ => aborting_call eng _)))
      (fun _ => ?_)
    refine aborting_bind ?_ (fun _ => ?_)
    · refine aborting_bind
        (aborting_tryAll (fun _ => aborting_tryAll (fun _ =>
          aborting_mret _))) (fun qcOk => ?_)
      cases qcOk
      · exact aborting_emit _
      · exact aborting_bind (aborting_tryAllSwallow _) (fun _ =>
          aborting_bind (aborting_tryAllSwallow _)
            (fun _ => aborting_call eng _))
    refine aborting_bind (aborting_bind (aborting_tryType
      (aborting_call eng _) (aborting_call eng _)) (fun _ =>
        aborting_call eng _)) (fun _ => ?_)
    refine aborting_bind (aborting_bind (aborting_tryType
      (aborting_call eng _) (aborting_tryAll (fun _ =>
        aborting_call eng _))) (fun _ => aborting_call eng _))
      (fun _ => ?_)
    refine aborting_bind (aborting_bind (aborting_tryType
      (aborting_call eng _) (aborting_tryAll (fun _ =>
        aborting_call eng _))) (fun _ => aborting_call eng _))
      (fun _ => ?_)
    exact aborting_bind (aborting_bind (aborting_tryType
      (aborting_call eng _) (aborting_call eng _)) (fun _ =>
        aborting_call eng _)) (fun _ => aborting_mret _)

/-- Every uncaught exception of a Method A run happens at the very last
trace event, the raising engine call. -/
theorem aborting_processA (eng : Engine) (d : ScanDir) (hasCrs : Bool)
    (gpu : Option Int) (glob : String) (kl tl : Nat) (kk kd km : Bool) :
    Aborting (MethodA.process_scan eng d hasCrs gpu glob kl tl kk kd km)
    := by
  unfold MethodA.process_scan
  cases huid : (MethodA.get_uid_dataset d).1 with
  | none =>
    simp only [huid]
    exact aborting_mret _
  | some uid =>
    simp only [huid]
    refine aborting_ite (aborting_mret _)
      (aborting_mbind (aborting_emit _) (fun _ => ?_))
    cases hxml : (sortStrings d.modelsXmlMatches).head? with
    | none =>
      simp only [hxml]
      exact aborting_mret _
    | some xml =>
      simp only [hxml]
      unfold MethodA.enginePhaseA MethodB.startProject
        MethodB.addPhotosStep MethodB.crsStep MethodA.enable_gpu_index
        MethodA.importCamerasStep MethodA.lockCalibStep
        MethodA.matchAlignStepA MethodA.optimizeStepA MethodA.depthStepA
        MethodA.meshStepA MethodA.thin_project
      refine aborting_bind (aborting_bind (aborting_call eng _) (fun _ =>
        aborting_bind (aborting_call eng _) (fun _ =>
          aborting_bind (aborting_emit _) (fun _ => aborting_call eng _))))
        (fun _ => ?_)
      refine aborting_bind ?_ (fun _ => ?_)
      · cases gpu with
        | none => exact aborting_mret _
        | some i =>
          exact aborting_tryAll (fun _ => aborting_emit _)
      refine aborting_bind (aborting_bind (aborting_call eng _) (fun _ =>
        aborting_call eng _)) (fun _ => ?_)
      refine aborting_bind
        (aborting_ite (aborting_emit _) (aborting_mret _)) (fun _ => ?_)
      refine aborting_bind (aborting_tryType
        (aborting_mbind (aborting_call eng _) (fun _ => aborting_mret _))
        (aborting_tryAll (fun _ => aborting_mret _))) (fun early => ?_)
      cases early with
      | some r => exact aborting_mret _
      | none =>
        refine aborting_bind (aborting_tryAllSwallow _) (fun _ => ?_)
        refine aborting_bind
          (aborting_ite (aborting_mret _) (aborting_tryAllSwallow _))
          (fun _ => ?_)
        refine aborting_bind (aborting_bind
          (aborting_tryAll (fun _ => aborting_call eng _)) (fun _ =>
            aborting_bind (aborting_tryType (aborting_call eng _)
              (aborting_call eng _)) (fun _ => aborting_call eng _)))
          (fun _ => ?_)
        refine aborting_bind (aborting_bind (aborting_tryType
          (aborting_call eng _) (aborting_mret _)) (fun _ =>
            aborting_call eng _)) (fun _ => ?_)
        refine aborting_bind (aborting_bind
          (aborting_tryAll (fun _ => aborting_tryAll (fun _ =>
            aborting_call eng _))) (fun _ => aborting_call eng _))
          (fun _ => ?_)
        refine aborting_bind (aborting_bind (aborting_tryType
          (aborting_call eng _) (aborting_tryAll (fun _ =>
            aborting_call eng _))) (fun _ => aborting_call eng _))
          (fun _ => ?_)
        refine aborting_bind (aborting_mbind
          (aborting_ite (aborting_tryAttr (aborting_call eng _)
            (aborting_tryAllSwallow _)) (aborting_mret _)) (fun _ =>
              aborting_ite (aborting_tryAllSwallow _) (aborting_mret _)))
          (fun _ => ?_)
        exact aborting_bind (aborting_call eng _)
          (fun _ => aborting_mret _)

theorem mbind_snd_ok {α β : Type} {m : M α} {f : α → M β} {b : β}
    (h : (mbind m f).2 = Except.ok b) :
    ∃ a, m.2 = Except.ok a ∧ (f a).2 = Except.ok b := by
  rcases m with ⟨t, r⟩
  cases r with
  | ok a =>
    rw [mbind_of_ok rfl] at h
    exact ⟨a, rfl, h⟩
  | error er =>
    rw [mbind_of_err rfl] at h
    cases h

theorem mem_mbind_left {α β : Type} {e : Event} {m : M α} (f : α → M β)
    (h : e ∈ m.1) : e ∈ (mbind m f).1 := by
  rcases m with ⟨t, r⟩
  cases r with
  | ok a =>
    rw [mbind_of_ok rfl]
    exact List.mem_append.mpr (Or.inl h)
  | error er =>
    rw [mbind_of_err rfl]
    exact h

theorem mem_mbind_right {α β : Type} {e : Event} {m : M α} {f : α → M β}
    {a : α} (hm : m.2 = Except.ok a) (h : e ∈ (f a).1) :
    e ∈ (mbind m f).1 := by
  rw [mbind_of_ok hm]
  exact List.mem_append.mpr (Or.inr h)

/-- A fragment of the shape `step-body; save` that returns successfully
ends with a successful save. -/
theorem mbind_save_last (eng : Engine) (m : M Unit)
    (h : (mbind m (fun _ => call eng ECall.save)).2 = Except.ok ()) :
    (mbind m (fun _ => call eng ECall.save)).1.getLast? =
      some (Event.ecall ECall.save Outcome.ok) := by
  obtain ⟨a, hm, hcall⟩ := mbind_snd_ok h
  rw [mbind_of_ok hm]
  cases hc : eng.callResult ECall.save with
  | ok =>
    show (m.1 ++ (call eng ECall.save).1).getLast? = _
    rw [call_fst, hc]
    rw [List.getLast?_append_of_ne_nil _ (by intro hx; cases hx)]
    rfl
  | raise e =>
    rw [call_snd_of_raise hc] at hcall
    cases hcall

theorem optimizeStep_last (eng : Engine)
    (h : (MethodB.optimizeStep eng).2 = Except.ok ()) :
    (MethodB.optimizeStep eng).1.getLast? =
      some (Event.ecall ECall.save Outcome.ok) :=
  mbind_save_last eng _ h

theorem exportStep_last (eng : Engine) (cams : String)
    (h : (MethodB.exportStep eng cams).2 = Except.ok ()) :
    (MethodB.exportStep eng cams).1.getLast? =
      some (Event.ecall ECall.save Outcome.ok) :=
  mbind_save_last eng _ h

theorem optimizeStepA_last (eng : Engine)
    (h : (MethodA.optimizeStepA eng).2 = Except.ok ()) :
    (MethodA.optimizeStepA eng).1.getLast? =
      some (Event.ecall ECall.save Outcome.ok) :=
  mbind_save_last eng _ h

/-- A successful match-and-align step contains a successful
`alignCameras` call. -/
theorem matchAlign_ok_alignOk (eng : Engine)
    (h : (MethodB.matchAlignStep eng).2 = Except.ok ()) :
    ∃ e ∈ (MethodB.matchAlignStep eng).1, Event.isAlignOk e = true := by
  unfold MethodB.matchAlignStep at h ⊢
  rw [bindM_eq] at h ⊢
  obtain ⟨u1, h1, h2⟩ := mbind_snd_ok h
  rw [bindM_eq] at h2 ⊢
  obtain ⟨u2, h3, _⟩ := mbind_snd_ok h2
  cases hc1 : eng.callResult (ECall.alignCameras (some false)) with
  | ok =>
    refine ⟨Event.ecall (ECall.alignCameras (some false)) Outcome.ok,
      ?_, rfl⟩
    refine mem_mbind_right h1 (mem_mbind_left _ ?_)
    rw [tryType_of_ok (call_snd_of_ok hc1), call_fst, hc1]
    exact List.mem_singleton.mpr rfl
  | raise e' =>
    cases e' with
    | typeError =>
      cases hc2 : eng.callResult (ECall.alignCameras none) with
      | ok =>
        refine ⟨Event.ecall (ECall.alignCameras none) Outcome.ok, ?_, rfl⟩
        refine mem_mbind_right h1 (mem_mbind_left _ ?_)
        rw [tryType_of_type (call_snd_of_raise hc1)]
        refine List.mem_append.mpr (Or.inr ?_)
        rw [call_fst, hc2]
        exact List.mem_singleton.mpr rfl
      | raise e'' =>
        rw [tryType_of_type (call_snd_of_raise hc1)] at h3
        simp only [call_snd_of_raise hc2] at h3
        cases h3
    | attributeError =>
      rw [tryType_of_other (call_snd_of_raise hc1)
        (by intro hx; cases hx)] at h3
      rw [call_snd_of_raise hc1] at h3
      cases h3
    | otherError msg =>
      rw [tryType_of_other (call_snd_of_raise hc1)
        (by intro hx; cases hx)] at h3
      rw [call_snd_of_raise hc1] at h3
      cases h3

/-- A successful Method A match-and-align step contains a successful
`alignCameras` call. -/
theorem matchAlignA_ok_alignOk (eng : Engine) (p : MatchParams)
    (h : (MethodA.matchAlignStepA eng p).2 = Except.ok ()) :
    ∃ e ∈ (MethodA.matchAlignStepA eng p).1, Event.isAlignOk e = true := by
  unfold MethodA.matchAlignStepA at h ⊢
  rw [bindM_eq] at h ⊢
  obtain ⟨u1, h1, h2⟩ := mbind_snd_ok h
  rw [bindM_eq] at h2 ⊢
  obtain ⟨u2, h3, _⟩ := mbind_snd_ok h2
  cases hc1 : eng.callResult (ECall.alignCameras (some false)) with
  | ok =>
    refine ⟨Event.ecall (ECall.alignCameras (some false)) Outcome.ok,
      ?_, rfl⟩
    refine mem_mbind_right h1 (mem_mbind_left _ ?_)
    rw [tryType_of_ok (call_snd_of_ok hc1), call_fst, hc1]
    exact List.mem_singleton.mpr rfl
  | raise e' =>
    cases e' with
    | typeError =>
      cases hc2 : eng.callResult (ECall.alignCameras none) with
      | ok =>
        refine ⟨Event.ecall (ECall.alignCameras none) Outcome.ok, ?_, rfl⟩
        refine mem_mbind_right h1 (mem_mbind_left _ ?_)
        rw [tryType_of_type (call_snd_of_raise hc1)]
        refine List.mem_append.mpr (Or.inr ?_)
        rw [call_fst, hc2]
        exact List.mem_singleton.mpr rfl
      | raise e'' =>
        rw [tryType_of_type (call_snd_of_raise hc1)] at h3
        simp only [call_snd_of_raise hc2] at h3
        cases h3
    | attributeError =>
      rw [tryType_of_other (call_snd_of_raise hc1)
        (by intro hx; cases hx)] at h3
      rw [call_snd_of_raise hc1] at h3
      cases h3
    | otherError msg =>
      rw [tryType_of_other (call_snd_of_raise hc1)
        (by intro hx; cases hx)] at h3
      rw [call_snd_of_raise hc1] at h3
      cases h3

/-- A successful Method B depth step contains a successful
`buildDepthMaps` call. -/
theorem depthStep_ok_depthOk (eng : Engine)
    (h : (MethodB.depthStep eng).2 = Except.ok ()) :
    ∃ e ∈ (MethodB.depthStep eng).1, Event.isDepthOk e = true := by
  unfold MethodB.depthStep at h ⊢
  rw [bindM_eq] at h ⊢
  obtain ⟨u1, h1, _⟩ := mbind_snd_ok h
  cases hc1 : eng.callResult (ECall.buildDepthMaps DepthSig.downscaleMild)
    with
  | ok =>
    refine ⟨Event.ecall (ECall.buildDepthMaps DepthSig.downscaleMild)
      Outcome.ok, ?_, rfl⟩
    refine mem_mbind_left _ ?_
    rw [tryType_of_ok (call_snd_of_ok hc1), call_fst, hc1]
    exact List.mem_singleton.mpr rfl
  | raise e' =>
    cases e' with
    | typeError =>
      cases hc2 : eng.callResult (ECall.buildDepthMaps DepthSig.qualityMild)
        with
      | ok =>
        refine ⟨Event.ecall (ECall.buildDepthMaps DepthSig.qualityMild)
          Outcome.ok, ?_, rfl⟩
        refine mem_mbind_left _ ?_
        rw [tryType_of_type (call_snd_of_raise hc1),
          tryAll_of_ok (call_snd_of_ok hc2)]
        refine List.mem_append.mpr (Or.inr ?_)
        rw [call_fst, hc2]
        exact List.mem_singleton.mpr rfl
      | raise e2 =>
        cases hc3 : eng.callResult (ECall.buildDepthMaps DepthSig.defaults)
          with
        | ok =>
          refine ⟨Event.ecall (ECall.buildDepthMaps DepthSig.defaults)
            Outcome.ok, ?_, rfl⟩
          refine mem_mbind_left _ ?_
          rw [tryType_of_type (call_snd_of_raise hc1),
            tryAll_of_err (call_snd_of_raise hc2)]
          refine List.mem_append.mpr (Or.inr (List.mem_append.mpr
            (Or.inr ?_)))
          rw [call_fst, hc3]
          exact List.mem_singleton.mpr rfl
        | raise e3 =>
          rw [tryType_of_type (call_snd_of_raise hc1),
            tryAll_of_err (call_snd_of_raise hc2)] at h1
          simp only [call_snd_of_raise hc3] at h1
          cases h1
    | attributeError =>
      rw [tryType_of_other (call_snd_of_raise hc1)
        (by intro hx; cases hx)] at h1
      rw [call_snd_of_raise hc1] at h1
      cases h1
    | otherError msg =>
      rw [tryType_of_other (call_snd_of_raise hc1)
        (by intro hx; cases hx)] at h1
      rw [call_snd_of_raise hc1] at h1
      cases h1

/-- A successful Method A depth step contains a successful
`buildDepthMaps` call. -/
theorem depthStepA_ok_depthOk (eng : Engine)
    (h : (MethodA.depthStepA eng).2 = Except.ok ()) :
    ∃ e ∈ (MethodA.depthStepA eng).1, Event.isDepthOk e = true := by
  unfold MethodA.depthStepA at h ⊢
  rw [bindM_eq] at h ⊢
  obtain ⟨u1, h1, _⟩ := mbind_snd_ok h
  cases hc1 : eng.callResult (ECall.buildDepthMaps DepthSig.qualityMild)
    with
  | ok =>
    refine ⟨Event.ecall (ECall.buildDepthMaps DepthSig.qualityMild)
      Outcome.ok, ?_, rfl⟩
    refine mem_mbind_left _ ?_
    rw [tryAll_of_ok (call_snd_of_ok hc1), call_fst, hc1]
    exact List.mem_singleton.mpr rfl
  | raise e1 =>
    cases hc2 : eng.callResult (ECall.buildDepthMaps DepthSig.downscaleMild)
      with
    | ok =>
      refine ⟨Event.ecall (ECall.buildDepthMaps DepthSig.downscaleMild)
        Outcome.ok, ?_, rfl⟩
      refine mem_mbind_left _ ?_
      rw [tryAll_of_err (call_snd_of_raise hc1),
        tryAll_of_ok (call_snd_of_ok hc2)]
      refine List.mem_append.mpr (Or.inr ?_)
      rw [call_fst, hc2]
      exact List.mem_singleton.mpr rfl
    | raise e2 =>
      cases hc3 : eng.callResult (ECall.buildDepthMaps DepthSig.defaults)
        with
      | ok =>
        refine ⟨Event.ecall (ECall.buildDepthMaps DepthSig.defaults)
          Outcome.ok, ?_, rfl⟩
        refine mem_mbind_left _ ?_
        rw [tryAll_of_err (call_snd_of_raise hc1),
          tryAll_of_err (call_snd_of_raise hc2)]
        refine List.mem_append.mpr (Or.inr (List.mem_append.mpr
          (Or.inr ?_)))
        rw [call_fst, hc3]
        exact List.mem_singleton.mpr rfl
      | raise e3 =>
        rw [tryAll_of_err (call_snd_of_raise hc1),
          tryAll_of_err (call_snd_of_raise hc2)] at h1
        simp only [call_snd_of_raise hc3] at h1
        cases h1

/-- Step ordering and checkpointing of the Method B engine phase: dense
reconstruction (depth or mesh) events only occur after a successful
alignment and after a successful save of the aligned-and-optimized state,
mesh building only occurs after a successful depth build, and a fully
successful phase ends with a successful save. -/
theorem enginePhaseB_C3 (eng : Engine) (f_px : Rat) (hasCrs : Bool)
    (imgs : List String) (campos psz cams : String) :
    ((∃ e ∈ (MethodB.enginePhase eng f_px hasCrs imgs campos psz cams).1,
        (Event.isDepth e || Event.isMesh e) = true) →
      ∃ A B',
        (MethodB.enginePhase eng f_px hasCrs imgs campos psz cams).1 =
            A ++ B' ∧
          (∃ e ∈ A, Event.isAlignOk e = true) ∧
          A.getLast? = some (Event.ecall ECall.save Outcome.ok) ∧
          (∀ e ∈ A, Event.isDepth e = false ∧ Event.isMesh e = false)) ∧
    ((∃ e ∈ (MethodB.enginePhase eng f_px hasCrs imgs campos psz cams).1,
        Event.isMesh e = true) →
      ∃ e ∈ (MethodB.enginePhase eng f_px hasCrs imgs campos psz cams).1,
        Event.isDepthOk e = true) ∧
    (∀ p, (MethodB.enginePhase eng f_px hasCrs imgs campos psz
        cams).2 = Except.ok p → p.1 = "ok" →
      (MethodB.enginePhase eng f_px hasCrs imgs campos psz
        cams).1.getLast? = some (Event.ecall ECall.save Outcome.ok)) := by
  have hlast : ∀ (X Y : List Event) {ev : Event},
      Y.getLast? = some ev → (X ++ Y).getLast? = some ev := by
    intro X Y ev hY
    have hne : Y ≠ [] := by
      intro h
      rw [h] at hY
      cases hY
    rw [List.getLast?_append_of_ne_nil X hne]
    exact hY
  have refuteDM : ∀ {L : List Event},
      (∀ e ∈ L, Event.isDepth e = false ∧ Event.isMesh e = false) →
      (∃ e ∈ L, (Event.isDepth e || Event.isMesh e) = true) → False := by
    rintro L hcat ⟨e, he, hor⟩
    obtain ⟨h1, h2⟩ := hcat e he
    rw [h1, h2] at hor
    cases hor
  have refuteM : ∀ {L : List Event},
      (∀ e ∈ L, Event.isMesh e = false) →
      (∃ e ∈ L, Event.isMesh e = true) → False := by
    rintro L hcat ⟨e, he, hm⟩
    rw [hcat e he] at hm
    cases hm
  have spC : ∀ e ∈ (MethodB.startProject eng psz).1,
      Event.isDepth e = false ∧ Event.isMesh e = false :=
    emitsOnly_startProject eng psz (fun _ => ⟨rfl, rfl⟩)
      (fun _ => ⟨rfl, rfl⟩) ⟨rfl, rfl⟩ (fun _ => ⟨rfl, rfl⟩)
  have apC : ∀ e ∈ (MethodB.addPhotosStep eng imgs).1,
      Event.isDepth e = false ∧ Event.isMesh e = false :=
    emitsOnly_addPhotosStep eng imgs (fun _ => ⟨rfl, rfl⟩)
      (fun _ => ⟨rfl, rfl⟩)
  have calC : ∀ e ∈ (MethodB.calibStep eng f_px).1,
      Event.isDepth e = false ∧ Event.isMesh e = false :=
    emitsOnly_calibStep eng f_px ⟨rfl, rfl⟩ ⟨rfl, rfl⟩ ⟨rfl, rfl⟩
      (fun _ => ⟨rfl, rfl⟩)
  have irC : ∀ e ∈ (MethodB.importRefStep eng campos hasCrs).1,
      Event.isDepth e = false ∧ Event.isMesh e = false :=
    emitsOnly_importRefStep eng campos hasCrs ⟨rfl, rfl⟩
      (fun _ => ⟨rfl, rfl⟩) (fun _ => ⟨rfl, rfl⟩)
  have maC : ∀ e ∈ (MethodB.matchAlignStep eng).1,
      Event.isDepth e = false ∧ Event.isMesh e = false :=
    emitsOnly_matchAlignStep eng (fun _ _ => ⟨rfl, rfl⟩)
      (fun _ _ => ⟨rfl, rfl⟩) (fun _ => ⟨rfl, rfl⟩)
  have qcC : ∀ e ∈ (MethodB.qcStep eng).1,
      Event.isDepth e = false ∧ Event.isMesh e = false :=
    emitsOnly_qcStep eng (fun _ => ⟨rfl, rfl⟩) (fun _ => ⟨rfl, rfl⟩)
      (fun _ => ⟨rfl, rfl⟩) (fun _ => ⟨rfl, rfl⟩) (fun _ => ⟨rfl, rfl⟩)
      ⟨rfl, rfl⟩
  have optC : ∀ e ∈ (MethodB.optimizeStep eng).1,
      Event.isDepth e = false ∧ Event.isMesh e = false :=
    emitsOnly_optimizeStep eng (fun _ _ => ⟨rfl, rfl⟩)
      (fun _ => ⟨rfl, rfl⟩)
  have depC : ∀ e ∈ (MethodB.depthStep eng).1, Event.isMesh e = false :=
    emitsOnly_depthStep eng (fun _ _ => rfl) (fun _ => rfl)
  unfold MethodB.enginePhase
  simp only [bindM_eq]
  cases h1 : (MethodB.startProject eng psz).2 with
  | error e1 =>
    rw [mbind_of_err h1]
    exact ⟨fun hx => absurd hx (fun hx' => refuteDM spC hx'),
      fun hx => absurd hx (fun hx' => refuteM (fun e he =>
        (spC e he).2) hx'),
      fun p hp => by cases hp⟩
  | ok u1 =>
    rw [mbind_of_ok h1]
    cases h2 : (MethodB.addPhotosStep eng imgs).2 with
    | error e2 =>
      rw [mbind_of_err h2]
      refine ⟨fun hx => absurd hx (fun hx' =>
        refuteDM (emitsOnly_append spC apC) hx'),
        fun hx => absurd hx (fun hx' => refuteM (fun e he =>
          (emitsOnly_append spC apC e he).2) hx'),
        fun p hp => by cases hp⟩
    | ok u2 =>
      rw [mbind_of_ok h2]
      cases hs : eng.sensorsEmpty with
      | true =>
        simp only [hs, if_true]
        have mretC : ∀ e ∈ (mret ("fail", "No sensor after adding photos")
            : M (String × String)).1,
            Event.isDepth e = false ∧ Event.isMesh e = false :=
          fun e he => absurd he (List.not_mem_nil e)
        refine ⟨fun hx => absurd hx (fun hx' =>
          refuteDM (emitsOnly_append spC (emitsOnly_append apC mretC))
            hx'),
          fun hx => absurd hx (fun hx' => refuteM (fun e he =>
            (emitsOnly_append spC (emitsOnly_append apC mretC)
              e he).2) hx'),
          fun p hp hok => ?_⟩
        have : p = ("fail", "No sensor after adding photos") := by
          have : (mret ("fail", "No sensor after adding photos") :
            M (String × String)).2 = Except.ok p := hp
          cases this
          rfl
        rw [this] at hok
        exact absurd hok (by decide)
      | false =>
        simp only [hs, Bool.false_eq_true, if_false]
        cases h3 : (MethodB.calibStep eng f_px).2 with
        | error e3 =>
          rw [mbind_of_err h3]
          refine ⟨fun hx => absurd hx (fun hx' =>
            refuteDM (emitsOnly_append spC (emitsOnly_append apC calC))
              hx'),
            fun hx => absurd hx (fun hx' => refuteM (fun e he =>
              (emitsOnly_append spC (emitsOnly_append apC calC)
                e he).2) hx'),
            fun p hp => by cases hp⟩
        | ok u3 =>
          rw [mbind_of_ok h3]
          cases h4 : (MethodB.importRefStep eng campos hasCrs).2 with
          | error e4 =>
            rw [mbind_of_err h4]
            refine ⟨fun hx => absurd hx (fun hx' =>
              refuteDM (emitsOnly_append spC (emitsOnly_append apC
                (emitsOnly_append calC irC))) hx'),
              fun hx => absurd hx (fun hx' => refuteM (fun e he =>
                (emitsOnly_append spC (emitsOnly_append apC
                  (emitsOnly_append calC irC)) e he).2) hx'),
              fun p hp => by cases hp⟩
          | ok u4 =>
            rw [mbind_of_ok h4]
            cases h5 : (MethodB.matchAlignStep eng).2 with
            | error e5 =>
              rw [mbind_of_err h5]
              refine ⟨fun hx => absurd hx (fun hx' =>
                refuteDM (emitsOnly_append spC (emitsOnly_append apC
                  (emitsOnly_append calC (emitsOnly_append irC maC))))
                  hx'),
                fun hx => absurd hx (fun hx' => refuteM (fun e he =>
                  (emitsOnly_append spC (emitsOnly_append apC
                    (emitsOnly_append calC (emitsOnly_append irC maC)))
                    e he).2) hx'),
                fun p hp => by cases hp⟩
            | ok u5 =>
              rw [mbind_of_ok h5]
              cases h6 : (MethodB.qcStep eng).2 with
              | error e6 =>
                rw [mbind_of_err h6]
                refine ⟨fun hx => absurd hx (fun hx' =>
                  refuteDM (emitsOnly_append spC (emitsOnly_append apC
                    (emitsOnly_append calC (emitsOnly_append irC
                      (emitsOnly_append maC qcC))))) hx'),
                  fun hx => absurd hx (fun hx' => refuteM (fun e he =>
                    (emitsOnly_append spC (emitsOnly_append apC
                      (emitsOnly_append calC (emitsOnly_append irC
                        (emitsOnly_append maC qcC)))) e he).2) hx'),
                  fun p hp => by cases hp⟩
              | ok u6 =>
                rw [mbind_of_ok h6]
                cases h7 : (MethodB.optimizeStep eng).2 with
                | error e7 =>
                  rw [mbind_of_err h7]
                  refine ⟨fun hx => absurd hx (fun hx' =>
                    refuteDM (emitsOnly_append spC (emitsOnly_append apC
                      (emitsOnly_append calC (emitsOnly_append irC
                        (emitsOnly_append maC (emitsOnly_append qcC
                          optC)))))) hx'),
                    fun hx => absurd hx (fun hx' => refuteM (fun e he =>
                      (emitsOnly_append spC (emitsOnly_append apC
                        (emitsOnly_append calC (emitsOnly_append irC
                          (emitsOnly_append maC (emitsOnly_append qcC
                            optC))))) e he).2) hx'),
                    fun p hp => by cases hp⟩
                | ok u7 =>
                  cases u5
                  cases u7
                  rw [mbind_of_ok h7]
                  obtain ⟨eal, heal, healok⟩ :=
                    matchAlign_ok_alignOk eng h5
                  have spM : ∀ e ∈ (MethodB.startProject eng psz).1,
                      Event.isMesh e = false :=
                    fun e he => (spC e he).2
                  have apM : ∀ e ∈ (MethodB.addPhotosStep eng imgs).1,
                      Event.isMesh e = false :=
                    fun e he => (apC e he).2
                  have calM : ∀ e ∈ (MethodB.calibStep eng f_px).1,
                      Event.isMesh e = false :=
                    fun e he => (calC e he).2
                  have irM : ∀ e ∈
                      (MethodB.importRefStep eng campos hasCrs).1,
                      Event.isMesh e = false :=
                    fun e he => (irC e he).2
                  have maM : ∀ e ∈ (MethodB.matchAlignStep eng).1,
                      Event.isMesh e = false :=
                    fun e he => (maC e he).2
                  have qcM : ∀ e ∈ (MethodB.qcStep eng).1,
                      Event.isMesh e = false :=
                    fun e he => (qcC e he).2
                  have optM : ∀ e ∈ (MethodB.optimizeStep eng).1,
                      Event.isMesh e = false :=
                    fun e he => (optC e he).2
                  have hAcat : ∀ e ∈ (MethodB.startProject eng psz).1 ++
                      ((MethodB.addPhotosStep eng imgs).1 ++
                        ((MethodB.calibStep eng f_px).1 ++
                          ((MethodB.importRefStep eng campos hasCrs).1 ++
                            ((MethodB.matchAlignStep eng).1 ++
                              ((MethodB.qcStep eng).1 ++
                                (MethodB.optimizeStep eng).1))))),
                      Event.isDepth e = false ∧ Event.isMesh e = false :=
                    emitsOnly_append spC (emitsOnly_append apC
                      (emitsOnly_append calC (emitsOnly_append irC
                        (emitsOnly_append maC (emitsOnly_append qcC
                          optC)))))
                  have hAlast : ((MethodB.startProject eng psz).1 ++
                      ((MethodB.addPhotosStep eng imgs).1 ++
                        ((MethodB.calibStep eng f_px).1 ++
                          ((MethodB.importRefStep eng campos hasCrs).1 ++
                            ((MethodB.matchAlignStep eng).1 ++
                              ((MethodB.qcStep eng).1 ++
                                (MethodB.optimizeStep
                                  eng).1)))))).getLast?
                      = some (Event.ecall ECall.save Outcome.ok) := by
                    refine hlast _ _ (hlast _ _ (hlast _ _ (hlast _ _
                      (hlast _ _ (hlast _ _ ?_)))))
                    exact optimizeStep_last eng h7
                  have hAmem : eal ∈ (MethodB.startProject eng psz).1 ++
                      ((MethodB.addPhotosStep eng imgs).1 ++
                        ((MethodB.calibStep eng f_px).1 ++
                          ((MethodB.importRefStep eng campos hasCrs).1 ++
                            ((MethodB.matchAlignStep eng).1 ++
                              ((MethodB.qcStep eng).1 ++
                                (MethodB.optimizeStep eng).1))))) :=
                    List.mem_append.mpr (Or.inr (List.mem_append.mpr
                      (Or.inr (List.mem_append.mpr (Or.inr
                        (List.mem_append.mpr (Or.inr
                          (List.mem_append.mpr (Or.inl heal)))))))))
                  cases h8 : (MethodB.depthStep eng).2 with
                  | error e8 =>
                    rw [mbind_of_err h8]
                    refine ⟨fun _ => ⟨_, (MethodB.depthStep eng).1,
                      by simp, ⟨eal, hAmem, healok⟩, hAlast, hAcat⟩,
                      fun hx => absurd hx (fun hx' => refuteM
                        (emitsOnly_append spM (emitsOnly_append apM
                          (emitsOnly_append calM (emitsOnly_append irM
                            (emitsOnly_append maM (emitsOnly_append qcM
                              (emitsOnly_append optM depC))))))) hx'),
                      fun p hp => by cases hp⟩
                  | ok u8 =>
                    cases u8
                    rw [mbind_of_ok h8]
                    obtain ⟨edp, hedp, hedpok⟩ :=
                      depthStep_ok_depthOk eng h8
                    cases h9 : (MethodB.meshStep eng).2 with
                    | error e9 =>
                      rw [mbind_of_err h9]
                      refine ⟨fun _ => ⟨_, (MethodB.depthStep eng).1 ++
                        (MethodB.meshStep eng).1,
                        by simp, ⟨eal, hAmem, healok⟩, hAlast, hAcat⟩,
                        fun _ => ⟨edp, ?_, hedpok⟩,
                        fun p hp => by cases hp⟩
                      simp only [List.mem_append]
                      tauto
                    | ok u9 =>
                      cases u9
                      rw [mbind_of_ok h9]
                      cases h10 : (MethodB.exportStep eng cams).2 with
                      | error e10 =>
                        rw [mbind_of_err h10]
                        refine ⟨fun _ => ⟨_, (MethodB.depthStep eng).1 ++
                          ((MethodB.meshStep eng).1 ++
                            (MethodB.exportStep eng cams).1),
                          by simp, ⟨eal, hAmem, healok⟩, hAlast, hAcat⟩,
                          fun _ => ⟨edp, ?_, hedpok⟩,
                          fun p hp => by cases hp⟩
                        simp only [List.mem_append]
                        tauto
                      | ok u10 =>
                        cases u10
                        rw [mbind_of_ok h10]
                        refine ⟨fun _ => ⟨_, (MethodB.depthStep eng).1 ++
                          ((MethodB.meshStep eng).1 ++
                            ((MethodB.exportStep eng cams).1 ++
                              (mret ("ok", "Saved " ++ psz ++
                                "  cams_xml=" ++ cams) :
                                M (String × String)).1)),
                          by simp [mret], ⟨eal, hAmem, healok⟩, hAlast,
                          hAcat⟩,
                          fun _ => ⟨edp, ?_, hedpok⟩,
                          fun p hp hok => ?_⟩
                        · simp only [List.mem_append]
                          tauto
                        · refine hlast _ _ (hlast _ _ (hlast _ _
                            (hlast _ _ (hlast _ _ (hlast _ _ (hlast _ _
                              (hlast _ _ (hlast _ _ ?_))))))))
                          show ((MethodB.exportStep eng cams).1 ++
                            ([] : List Event)).getLast? = _
                          rw [List.append_nil]
                          exact exportStep_last eng cams h10


/-- A Method A `importCameras` step that returns an early result always
returns a `fail` result (the early return exists only for the failure of
both import signatures). -/
theorem importCamerasStep_some {eng : Engine} {xml : String}
    {r : String × String}
    (h : (MethodA.importCamerasStep eng xml).2 = Except.ok (some r)) :
    r.1 = "fail" := by
  unfold MethodA.importCamerasStep at h
  cases hc1 : eng.callResult (ECall.importCamerasCrs xml) with
  | ok =>
    rw [tryType_of_ok (show (mbind (call eng (ECall.importCamerasCrs xml))
        (fun _ => mret (none : Option (String × String)))).2 =
          Except.ok none by
      rw [mbind_of_ok (call_snd_of_ok hc1)]
      rfl)] at h
    rw [mbind_of_ok (call_snd_of_ok hc1)] at h
    simp [mret] at h
  | raise e1 =>
    cases e1 with
    | typeError =>
      have hm : (mbind (call eng (ECall.importCamerasCrs xml))
          (fun _ => mret (none : Option (String × String)))).2 =
          Except.error PyErr.typeError := by
        rw [mbind_of_err (call_snd_of_raise hc1)]
      rw [tryType_of_type hm] at h
      cases hc2 : eng.callResult (ECall.importCamerasPlain xml) with
      | ok =>
        rw [tryAll_of_ok (show
            (mbind (call eng (ECall.importCamerasPlain xml))
              (fun _ => mret (none : Option (String × String)))).2 =
              Except.ok none by
          rw [mbind_of_ok (call_snd_of_ok hc2)]
          rfl)] at h
        rw [mbind_of_ok (call_snd_of_ok hc2)] at h
        simp [mret] at h
      | raise e2 =>
        have hplain : (mbind (call eng (ECall.importCamerasPlain xml))
            (fun _ => mret (none : Option (String × String)))).2 =
            Except.error e2 := by
          rw [mbind_of_err (call_snd_of_raise hc2)]
        rw [tryAll_of_err hplain] at h
        have hr : r = ("fail", "importCameras failed: " ++
            MethodA.pyErrStr e2) := by
          have hx : Except.ok (some ("fail", "importCameras failed: " ++
              MethodA.pyErrStr e2)) = Except.ok (some r) := h
          cases hx
          rfl
        rw [hr]
    | attributeError =>
      have hm : (mbind (call eng (ECall.importCamerasCrs xml))
          (fun _ => mret (none : Option (String × String)))).2 =
          Except.error PyErr.attributeError := by
        rw [mbind_of_err (call_snd_of_raise hc1)]
      rw [tryType_of_other hm (by intro hx; cases hx)] at h
      rw [mbind_of_err (call_snd_of_raise hc1)] at h
      cases h
    | otherError msg =>
      have hm : (mbind (call eng (ECall.importCamerasCrs xml))
          (fun _ => mret (none : Option (String × String)))).2 =
          Except.error (PyErr.otherError msg) := by
        rw [mbind_of_err (call_snd_of_raise hc1)]
      rw [tryType_of_other hm (by intro hx; cases hx)] at h
      rw [mbind_of_err (call_snd_of_raise hc1)] at h
      cases h

/-- Step ordering and checkpointing of the Method A engine phase: dense
reconstruction (depth or mesh) events only occur after a successful
alignment and after a successful save of the locked-and-optimized state,
mesh building only occurs after a successful depth build, and a fully
successful phase ends with a successful save. -/
theorem enginePhaseA_C3 (eng : Engine) (hasCrs : Bool) (gpu : Option Int)
    (imgs : List String) (xml psz : String) (kl tl : Nat)
    (kk kd km : Bool) :
    ((∃ e ∈ (MethodA.enginePhaseA eng hasCrs gpu imgs xml psz kl tl kk kd
          km).1,
        (Event.isDepth e || Event.isMesh e) = true) →
      ∃ A B',
        (MethodA.enginePhaseA eng hasCrs gpu imgs xml psz kl tl kk kd
            km).1 = A ++ B' ∧
          (∃ e ∈ A, Event.isAlignOk e = true) ∧
          A.getLast? = some (Event.ecall ECall.save Outcome.ok) ∧
          (∀ e ∈ A, Event.isDepth e = false ∧ Event.isMesh e = false)) ∧
    ((∃ e ∈ (MethodA.enginePhaseA eng hasCrs gpu imgs xml psz kl tl kk kd
          km).1,
        Event.isMesh e = true) →
      ∃ e ∈ (MethodA.enginePhaseA eng hasCrs gpu imgs xml psz kl tl kk kd
          km).1,
        Event.isDepthOk e = true) ∧
    (∀ p, (MethodA.enginePhaseA eng hasCrs gpu imgs xml psz kl tl kk kd
        km).2 = Except.ok p → p.1 = "ok" →
      (MethodA.enginePhaseA eng hasCrs gpu imgs xml psz kl tl kk kd
        km).1.getLast? = some (Event.ecall ECall.save Outcome.ok)) := by
  have hlast : ∀ (X Y : List Event) {ev : Event},
      Y.getLast? = some ev → (X ++ Y).getLast? = some ev := by
    intro X Y ev hY
    have hne : Y ≠ [] := by
      intro h
      rw [h] at hY
      cases hY
    rw [List.getLast?_append_of_ne_nil X hne]
    exact hY
  have refuteDM : ∀ {L : List Event},
      (∀ e ∈ L, Event.isDepth e = false ∧ Event.isMesh e = false) →
      (∃ e ∈ L, (Event.isDepth e || Event.isMesh e) = true) → False := by
    rintro L hcat ⟨e, he, hor⟩
    obtain ⟨h1, h2⟩ := hcat e he
    rw [h1, h2] at hor
    cases hor
  have refuteM : ∀ {L : List Event},
      (∀ e ∈ L, Event.isMesh e = false) →
      (∃ e ∈ L, Event.isMesh e = true) → False := by
    rintro L hcat ⟨e, he, hm⟩
    rw [hcat e he] at hm
    cases hm
  have spC : ∀ e ∈ (MethodB.startProject eng psz).1,
      Event.isDepth e = false ∧ Event.isMesh e = false :=
    emitsOnly_startProject eng psz (fun _ => ⟨rfl, rfl⟩)
      (fun _ => ⟨rfl, rfl⟩) ⟨rfl, rfl⟩ (fun _ => ⟨rfl, rfl⟩)
  have gpC : ∀ e ∈ (MethodA.enable_gpu_index eng gpu).1,
      Event.isDepth e = false ∧ Event.isMesh e = false :=
    emitsOnly_enable_gpu eng gpu (fun _ _ => ⟨rfl, rfl⟩)
      (fun _ => ⟨rfl, rfl⟩)
  have apC : ∀ e ∈ (MethodB.addPhotosStep eng imgs).1,
      Event.isDepth e = false ∧ Event.isMesh e = false :=
    emitsOnly_addPhotosStep eng imgs (fun _ => ⟨rfl, rfl⟩)
      (fun _ => ⟨rfl, rfl⟩)
  have crC : ∀ e ∈ (MethodB.crsStep hasCrs).1,
      Event.isDepth e = false ∧ Event.isMesh e = false := by
    unfold MethodB.crsStep
    exact emitsOnly_ite (emitsOnly_emit ⟨rfl, rfl⟩) (emitsOnly_mret ())
  have icC : ∀ e ∈ (MethodA.importCamerasStep eng xml).1,
      Event.isDepth e = false ∧ Event.isMesh e = false :=
    emitsOnly_importCamerasStep eng xml (fun _ => ⟨rfl, rfl⟩)
      (fun _ => ⟨rfl, rfl⟩)
  have utC : ∀ e ∈ (tryAllSwallow (call eng ECall.updateTransform)).1,
      Event.isDepth e = false ∧ Event.isMesh e = false :=
    emitsOnly_tryAllSwallow
      (@emitsOnly_call
        (fun e => Event.isDepth e = false ∧ Event.isMesh e = false)
        ECall.updateTransform (fun _ => ⟨rfl, rfl⟩) eng)
  have fxC : ∀ e ∈ (MethodA.lockCalibStep eng).1,
      Event.isDepth e = false ∧ Event.isMesh e = false :=
    emitsOnly_lockCalibStep eng (fun _ => ⟨rfl, rfl⟩)
  have maC : ∀ e ∈ (MethodA.matchAlignStepA eng
      (MethodA.aMatchParams kl tl kk)).1,
      Event.isDepth e = false ∧ Event.isMesh e = false :=
    emitsOnly_matchAlignStepA eng (MethodA.aMatchParams kl tl kk)
      (fun _ _ => ⟨rfl, rfl⟩) (fun _ _ => ⟨rfl, rfl⟩)
      (fun _ => ⟨rfl, rfl⟩)
  have optC : ∀ e ∈ (MethodA.optimizeStepA eng).1,
      Event.isDepth e = false ∧ Event.isMesh e = false :=
    emitsOnly_optimizeStepA eng (fun _ => ⟨rfl, rfl⟩)
      (fun _ => ⟨rfl, rfl⟩)
  have depC : ∀ e ∈ (MethodA.depthStepA eng).1, Event.isMesh e = false :=
    emitsOnly_depthStepA eng (fun _ _ => rfl) (fun _ => rfl)
  unfold MethodA.enginePhaseA
  simp only [bindM_eq]
  cases h1 : (MethodB.startProject eng psz).2 with
  | error e1 =>
    rw [mbind_of_err h1]
    exact ⟨fun hx => absurd hx (fun hx' => refuteDM spC hx'),
      fun hx => absurd hx (fun hx' => refuteM (fun e he =>
        (spC e he).2) hx'),
      fun p hp => by cases hp⟩
  | ok u1 =>
    rw [mbind_of_ok h1, mbind_of_ok (gpu_snd eng gpu)]
    cases h2 : (MethodB.addPhotosStep eng imgs).2 with
    | error e2 =>
      rw [mbind_of_err h2]
      refine ⟨fun hx => absurd hx (fun hx' =>
        refuteDM (emitsOnly_append spC (emitsOnly_append gpC apC)) hx'),
        fun hx => absurd hx (fun hx' => refuteM (fun e he =>
          (emitsOnly_append spC (emitsOnly_append gpC apC) e he).2) hx'),
        fun p hp => by cases hp⟩
    | ok u2 =>
      rw [mbind_of_ok h2, mbind_of_ok (crsStep_snd hasCrs)]
      cases h4 : (MethodA.importCamerasStep eng xml).2 with
      | error e4 =>
        rw [mbind_of_err h4]
        refine ⟨fun hx => absurd hx (fun hx' =>
          refuteDM (emitsOnly_append spC (emitsOnly_append gpC
            (emitsOnly_append apC (emitsOnly_append crC icC)))) hx'),
          fun hx => absurd hx (fun hx' => refuteM (fun e he =>
            (emitsOnly_append spC (emitsOnly_append gpC
              (emitsOnly_append apC (emitsOnly_append crC icC)))
              e he).2) hx'),
          fun p hp => by cases hp⟩
      | ok early =>
        rw [mbind_of_ok h4]
        cases early with
        | some r =>
          dsimp only
          have mretC : ∀ e ∈ (mret r : M (String × String)).1,
              Event.isDepth e = false ∧ Event.isMesh e = false :=
            fun e he => absurd he (List.not_mem_nil e)
          refine ⟨fun hx => absurd hx (fun hx' =>
            refuteDM (emitsOnly_append spC (emitsOnly_append gpC
              (emitsOnly_append apC (emitsOnly_append crC
                (emitsOnly_append icC mretC))))) hx'),
            fun hx => absurd hx (fun hx' => refuteM (fun e he =>
              ((emitsOnly_append spC (emitsOnly_append gpC
                (emitsOnly_append apC (emitsOnly_append crC
                  (emitsOnly_append icC mretC)))) e he).2)) hx'),
            fun p hp hok => ?_⟩
          have hpr : p = r := by
            have hx : (mret r : M (String × String)).2 = Except.ok p := hp
            cases hx
            rfl
          rw [hpr, importCamerasStep_some h4] at hok
          exact absurd hok (by decide)
        | none =>
          dsimp only
          rw [mbind_of_ok (tryAllSwallow_snd
            (call eng ECall.updateTransform))]
          rw [mbind_of_ok (lockCalib_snd eng)]
          cases h5 : (MethodA.matchAlignStepA eng
              (MethodA.aMatchParams kl tl kk)).2 with
          | error e5 =>
            rw [mbind_of_err h5]
            refine ⟨fun hx => absurd hx (fun hx' =>
              refuteDM (emitsOnly_append spC (emitsOnly_append gpC
                (emitsOnly_append apC (emitsOnly_append crC
                  (emitsOnly_append icC (emitsOnly_append utC
                    (emitsOnly_append fxC maC))))))) hx'),
              fun hx => absurd hx (fun hx' => refuteM (fun e he =>
                (emitsOnly_append spC (emitsOnly_append gpC
                  (emitsOnly_append apC (emitsOnly_append crC
                    (emitsOnly_append icC (emitsOnly_append utC
                      (emitsOnly_append fxC maC)))))) e he).2) hx'),
              fun p hp => by cases hp⟩
          | ok u5 =>
            cases u5
            rw [mbind_of_ok h5]
            cases h6 : (MethodA.optimizeStepA eng).2 with
            | error e6 =>
              rw [mbind_of_err h6]
              refine ⟨fun hx => absurd hx (fun hx' =>
                refuteDM (emitsOnly_append spC (emitsOnly_append gpC
                  (emitsOnly_append apC (emitsOnly_append crC
                    (emitsOnly_append icC (emitsOnly_append utC
                      (emitsOnly_append fxC (emitsOnly_append maC
                        optC)))))))) hx'),
                fun hx => absurd hx (fun hx' => refuteM (fun e he =>
                  (emitsOnly_append spC (emitsOnly_append gpC
                    (emitsOnly_append apC (emitsOnly_append crC
                      (emitsOnly_append icC (emitsOnly_append utC
                        (emitsOnly_append fxC (emitsOnly_append maC
                          optC))))))) e he).2) hx'),
                fun p hp => by cases hp⟩
            | ok u6 =>
              cases u6
              rw [mbind_of_ok h6]
              obtain ⟨eal, heal, healok⟩ :=
                matchAlignA_ok_alignOk eng (MethodA.aMatchParams kl tl kk)
                  h5
              have hAcat : ∀ e ∈ (MethodB.startProject eng psz).1 ++
                  ((MethodA.enable_gpu_index eng gpu).1 ++
                    ((MethodB.addPhotosStep eng imgs).1 ++
                      ((MethodB.crsStep hasCrs).1 ++
                        ((MethodA.importCamerasStep eng xml).1 ++
                          ((tryAllSwallow
                              (call eng ECall.updateTransform)).1 ++
                            ((MethodA.lockCalibStep eng).1 ++
                              ((MethodA.matchAlignStepA eng
                                  (MethodA.aMatchParams kl tl kk)).1 ++
                                (MethodA.optimizeStepA eng).1))))))),
                  Event.isDepth e = false ∧ Event.isMesh e = false :=
                emitsOnly_append spC (emitsOnly_append gpC
                  (emitsOnly_append apC (emitsOnly_append crC
                    (emitsOnly_append icC (emitsOnly_append utC
                      (emitsOnly_append fxC (emitsOnly_append maC
                        optC)))))))
              have hAlast : ((MethodB.startProject eng psz).1 ++
                  ((MethodA.enable_gpu_index eng gpu).1 ++
                    ((MethodB.addPhotosStep eng imgs).1 ++
                      ((MethodB.crsStep hasCrs).1 ++
                        ((MethodA.importCamerasStep eng xml).1 ++
                          ((tryAllSwallow
                              (call eng ECall.updateTransform)).1 ++
                            ((MethodA.lockCalibStep eng).1 ++
                              ((MethodA.matchAlignStepA eng
                                  (MethodA.aMatchParams kl tl kk)).1 ++
                                (MethodA.optimizeStepA
                                  eng).1)))))))).getLast?
                  = some (Event.ecall ECall.save Outcome.ok) := by
                refine hlast _ _ (hlast _ _ (hlast _ _ (hlast _ _
                  (hlast _ _ (hlast _ _ (hlast _ _ (hlast _ _ ?_)))))))
                exact optimizeStepA_last eng h6
              have hAmem : eal ∈ (MethodB.startProject eng psz).1 ++
                  ((MethodA.enable_gpu_index eng gpu).1 ++
                    ((MethodB.addPhotosStep eng imgs).1 ++
                      ((MethodB.crsStep hasCrs).1 ++
                        ((MethodA.importCamerasStep eng xml).1 ++
                          ((tryAllSwallow
                              (call eng ECall.updateTransform)).1 ++
                            ((MethodA.lockCalibStep eng).1 ++
                              ((MethodA.matchAlignStepA eng
                                  (MethodA.aMatchParams kl tl kk)).1 ++
                                (MethodA.optimizeStepA eng).1))))))) := by
                simp only [List.mem_append]
                tauto
              cases h7 : (MethodA.depthStepA eng).2 with
              | error e7 =>
                rw [mbind_of_err h7]
                refine ⟨fun _ => ⟨_, (MethodA.depthStepA eng).1,
                  by simp, ⟨eal, hAmem, healok⟩, hAlast, hAcat⟩,
                  fun hx => absurd hx (fun hx' => refuteM
                    (emitsOnly_append (fun e he => (spC e he).2)
                      (emitsOnly_append (fun e he => (gpC e he).2)
                        (emitsOnly_append (fun e he => (apC e he).2)
                          (emitsOnly_append (fun e he => (crC e he).2)
                            (emitsOnly_append (fun e he => (icC e he).2)
                              (emitsOnly_append (fun e he => (utC e he).2)
                                (emitsOnly_append
                                  (fun e he => (fxC e he).2)
                                  (emitsOnly_append
                                    (fun e he => (maC e he).2)
                                    (emitsOnly_append
                                      (fun e he => (optC e he).2)
                                      depC))))))))) hx'),
                  fun p hp => by cases hp⟩
              | ok u7 =>
                cases u7
                rw [mbind_of_ok h7]
                obtain ⟨edp, hedp, hedpok⟩ := depthStepA_ok_depthOk eng h7
                cases h8 : (MethodA.meshStepA eng).2 with
                | error e8 =>
                  rw [mbind_of_err h8]
                  refine ⟨fun _ => ⟨_, (MethodA.depthStepA eng).1 ++
                    (MethodA.meshStepA eng).1,
                    by simp, ⟨eal, hAmem, healok⟩, hAlast, hAcat⟩,
                    fun _ => ⟨edp, ?_, hedpok⟩,
                    fun p hp => by cases hp⟩
                  simp only [List.mem_append]
                  tauto
                | ok u8 =>
                  cases u8
                  rw [mbind_of_ok h8]
                  cases h9 : (MethodA.thin_project eng (!kd) (!km)).2 with
                  | error e9 =>
                    rw [mbind_of_err h9]
                    refine ⟨fun _ => ⟨_, (MethodA.depthStepA eng).1 ++
                      ((MethodA.meshStepA eng).1 ++
                        (MethodA.thin_project eng (!kd) (!km)).1),
                      by simp, ⟨eal, hAmem, healok⟩, hAlast, hAcat⟩,
                      fun _ => ⟨edp, ?_, hedpok⟩,
                      fun p hp => by cases hp⟩
                    simp only [List.mem_append]
                    tauto
                  | ok u9 =>
                    cases u9
                    rw [mbind_of_ok h9]
                    cases h10 : eng.callResult ECall.save with
                    | raise e10 =>
                      rw [mbind_of_err (call_snd_of_raise h10)]
                      refine ⟨fun _ => ⟨_, (MethodA.depthStepA eng).1 ++
                        ((MethodA.meshStepA eng).1 ++
                          ((MethodA.thin_project eng (!kd) (!km)).1 ++
                            (call eng ECall.save).1)),
                        by simp, ⟨eal, hAmem, healok⟩, hAlast, hAcat⟩,
                        fun _ => ⟨edp, ?_, hedpok⟩,
                        fun p hp => by cases hp⟩
                      simp only [List.mem_append]
                      tauto
                    | ok =>
                      rw [mbind_of_ok (call_snd_of_ok h10)]
                      refine ⟨fun _ => ⟨_, (MethodA.depthStepA eng).1 ++
                        ((MethodA.meshStepA eng).1 ++
                          ((MethodA.thin_project eng (!kd) (!km)).1 ++
                            ((call eng ECall.save).1 ++
                              (mret ("ok", "Saved " ++ psz ++
                                "  using XML=" ++ xml) :
                                M (String × String)).1))),
                        by simp [mret], ⟨eal, hAmem, healok⟩, hAlast,
                        hAcat⟩,
                        fun _ => ⟨edp, ?_, hedpok⟩,
                        fun p hp hok => ?_⟩
                      · simp only [List.mem_append]
                        tauto
                      · refine hlast _ _ (hlast _ _ (hlast _ _
                          (hlast _ _ (hlast _ _ (hlast _ _ (hlast _ _
                            (hlast _ _ (hlast _ _ (hlast _ _ (hlast _ _
                              (hlast _ _ ?_)))))))))))
                        show ((call eng ECall.save).1 ++
                          ([] : List Event)).getLast? = _
                        rw [List.append_nil, call_fst, h10]
                        rfl


/-- Process-level lift of `enginePhaseB_C3`: the same ordering and
checkpoint facts for the whole Method B `process_scan`. -/
theorem processB_C3 (eng : Engine) (d : ScanDir) (f_px : Rat)
    (hasCrs : Bool) :
    ((∃ e ∈ (MethodB.process_scan eng d f_px hasCrs).1,
        (Event.isDepth e || Event.isMesh e) = true) →
      ∃ A B',
        (MethodB.process_scan eng d f_px hasCrs).1 = A ++ B' ∧
          (∃ e ∈ A, Event.isAlignOk e = true) ∧
          A.getLast? = some (Event.ecall ECall.save Outcome.ok) ∧
          (∀ e ∈ A, Event.isDepth e = false ∧ Event.isMesh e = false)) ∧
    ((∃ e ∈ (MethodB.process_scan eng d f_px hasCrs).1,
        Event.isMesh e = true) →
      ∃ e ∈ (MethodB.process_scan eng d f_px hasCrs).1,
        Event.isDepthOk e = true) ∧
    (∀ p, (MethodB.process_scan eng d f_px hasCrs).2 = Except.ok p →
      p.1 = "ok" →
      (MethodB.process_scan eng d f_px hasCrs).1.getLast? =
        some (Event.ecall ECall.save Outcome.ok)) := by
  have hlast : ∀ (X Y : List Event) {ev : Event},
      Y.getLast? = some ev → (X ++ Y).getLast? = some ev := by
    intro X Y ev hY
    have hne : Y ≠ [] := by
      intro h
      rw [h] at hY
      cases hY
    rw [List.getLast?_append_of_ne_nil X hne]
    exact hY
  cases hval : MethodB.validationError d with
  | some r =>
    rw [processB_validation_fail hval eng f_px hasCrs]
    refine ⟨?_, ?_, ?_⟩
    · rintro ⟨e, he, _⟩
      exact absurd he (List.not_mem_nil e)
    · rintro ⟨e, he, _⟩
      exact absurd he (List.not_mem_nil e)
    · intro p hp hok
      have hpr : p = ("fail", r) := by
        have hx : (Except.ok ("fail", r) :
            Except PyErr (String × String)) = Except.ok p := hp
        cases hx
        rfl
      rw [hpr] at hok
      have hbad : ("fail" : String) = "ok" := hok
      exact absurd hbad (by decide)
  | none =>
    obtain ⟨uid, huid, himgs, hcam⟩ := (validationErrorB_none_iff d).mp hval
    rw [processB_validation_ok huid himgs hcam eng f_px hasCrs]
    rw [mbind_of_ok (show (emit Event.mkdirModels).2 = Except.ok ()
      from rfl)]
    obtain ⟨hI, hII, hIII⟩ := enginePhaseB_C3 eng f_px hasCrs
      (imgsOf d uid) (d.camposFiles.headD "")
      ("models/" ++ (MethodB.get_uid_and_dataset d).2 ++ ".psz")
      ("models/" ++ (MethodB.get_uid_and_dataset d).2 ++
        "_Calibrated_Cameras_" ++ uid ++ "_" ++
        String.mk (takeUntilSub "__".toList
          (MethodB.get_uid_and_dataset d).2.toList) ++ ".xml")
    refine ⟨?_, ?_, ?_⟩
    · rintro ⟨e, he, hdm⟩
      rcases List.mem_append.mp he with hl | hr
      · have he' : e ∈ [Event.mkdirModels] := hl
        rw [List.mem_singleton] at he'
        subst he'
        cases hdm
      · obtain ⟨A, B', hsplit, hal, hlastA, hcatA⟩ := hI ⟨e, hr, hdm⟩
        refine ⟨Event.mkdirModels :: A, B', ?_, ?_, ?_, ?_⟩
        · show [Event.mkdirModels] ++ _ = _
          rw [hsplit]
          rfl
        · obtain ⟨ea, hea, heaok⟩ := hal
          exact ⟨ea, List.mem_cons_of_mem _ hea, heaok⟩
        · exact hlast [Event.mkdirModels] A hlastA
        · intro e' he'
          rcases List.mem_cons.mp he' with rfl | hmem
          · exact ⟨rfl, rfl⟩
          · exact hcatA e' hmem
    · rintro ⟨e, he, hm⟩
      rcases List.mem_append.mp he with hl | hr
      · have he' : e ∈ [Event.mkdirModels] := hl
        rw [List.mem_singleton] at he'
        subst he'
        cases hm
      · obtain ⟨e2, he2, h2ok⟩ := hII ⟨e, hr, hm⟩
        exact ⟨e2, List.mem_append.mpr (Or.inr he2), h2ok⟩
    · intro p hp hok
      exact hlast _ _ (hIII p hp hok)

/-- Process-level lift of `enginePhaseA_C3`: the same ordering and
checkpoint facts for the whole Method A `process_scan`. -/
theorem processA_C3 (eng : Engine) (d : ScanDir) (hasCrs : Bool)
    (gpu : Option Int) (glob : String) (kl tl : Nat) (kk kd km : Bool) :
    ((∃ e ∈ (MethodA.process_scan eng d hasCrs gpu glob kl tl kk kd
          km).1,
        (Event.isDepth e || Event.isMesh e) = true) →
      ∃ A B',
        (MethodA.process_scan eng d hasCrs gpu glob kl tl kk kd km).1 =
            A ++ B' ∧
          (∃ e ∈ A, Event.isAlignOk e = true) ∧
          A.getLast? = some (Event.ecall ECall.save Outcome.ok) ∧
          (∀ e ∈ A, Event.isDepth e = false ∧ Event.isMesh e = false)) ∧
    ((∃ e ∈ (MethodA.process_scan eng d hasCrs gpu glob kl tl kk kd
          km).1,
        Event.isMesh e = true) →
      ∃ e ∈ (MethodA.process_scan eng d hasCrs gpu glob kl tl kk kd
          km).1,
        Event.isDepthOk e = true) ∧
    (∀ p, (MethodA.process_scan eng d hasCrs gpu glob kl tl kk kd
        km).2 = Except.ok p → p.1 = "ok" →
      (MethodA.process_scan eng d hasCrs gpu glob kl tl kk kd
        km).1.getLast? = some (Event.ecall ECall.save Outcome.ok)) := by
  have hlast : ∀ (X Y : List Event) {ev : Event},
      Y.getLast? = some ev → (X ++ Y).getLast? = some ev := by
    intro X Y ev hY
    have hne : Y ≠ [] := by
      intro h
      rw [h] at hY
      cases hY
    rw [List.getLast?_append_of_ne_nil X hne]
    exact hY
  unfold MethodA.process_scan
  cases huid : (MethodA.get_uid_dataset d).1 with
  | none =>
    simp only [huid]
    refine ⟨?_, ?_, ?_⟩
    · rintro ⟨e, he, _⟩
      exact absurd he (List.not_mem_nil e)
    · rintro ⟨e, he, _⟩
      exact absurd he (List.not_mem_nil e)
    · intro p hp hok
      have hpr : p = ("fail", "No <uid>__edof folder found") := by
        have hx : (mret ("fail", "No <uid>__edof folder found") :
            M (String × String)).2 = Except.ok p := hp
        cases hx
        rfl
      rw [hpr] at hok
      have hbad : ("fail" : String) = "ok" := hok
      exact absurd hbad (by decide)
  | some uid =>
    simp only [huid]
    cases himgs : (imgsOf d uid).isEmpty with
    | true =>
      simp only [himgs, if_true]
      refine ⟨?_, ?_, ?_⟩
      · rintro ⟨e, he, _⟩
        exact absurd he (List.not_mem_nil e)
      · rintro ⟨e, he, _⟩
        exact absurd he (List.not_mem_nil e)
      · intro p hp hok
        have hpr : p = ("fail", "No PNGs in " ++ d.name ++ "/" ++ uid ++
            "__edof") := by
          have hx : (mret ("fail", "No PNGs in " ++ d.name ++ "/" ++
              uid ++ "__edof") : M (String × String)).2 =
              Except.ok p := hp
          cases hx
          rfl
        rw [hpr] at hok
        have hbad : ("fail" : String) = "ok" := hok
        exact absurd hbad (by decide)
    | false =>
      simp only [himgs, Bool.false_eq_true, if_false]
      cases hxml : (sortStrings d.modelsXmlMatches).head? with
      | none =>
        simp only [hxml]
        refine ⟨?_, ?_, ?_⟩
        · rintro ⟨e, he, hdm⟩
          have he' : e ∈ [Event.mkdirModels] := he
          rw [List.mem_singleton] at he'
          subst he'
          cases hdm
        · rintro ⟨e, he, hm⟩
          have he' : e ∈ [Event.mkdirModels] := he
          rw [List.mem_singleton] at he'
          subst he'
          cases hm
        · intro p hp hok
          have hpr : p = ("fail", "No calibrated cameras XML found in " ++
              d.name ++ "/models matching " ++ glob) := by
            have hx : (mret ("fail",
                "No calibrated cameras XML found in " ++ d.name ++
                "/models matching " ++ glob) : M (String × String)).2 =
                Except.ok p := hp
            cases hx
            rfl
          rw [hpr] at hok
          have hbad : ("fail" : String) = "ok" := hok
          exact absurd hbad (by decide)
      | some xml =>
        simp only [hxml]
        rw [mbind_of_ok (show (emit Event.mkdirModels).2 = Except.ok ()
          from rfl)]
        obtain ⟨hI, hII, hIII⟩ := enginePhaseA_C3 eng hasCrs gpu
          (imgsOf d uid) xml
          ("models/" ++ (MethodA.get_uid_dataset d).2 ++ ".psz")
          kl tl kk kd km
        refine ⟨?_, ?_, ?_⟩
        · rintro ⟨e, he, hdm⟩
          rcases List.mem_append.mp he with hl | hr
          · have he' : e ∈ [Event.mkdirModels] := hl
            rw [List.mem_singleton] at he'
            subst he'
            cases hdm
          · obtain ⟨A, B', hsplit, hal, hlastA, hcatA⟩ := hI ⟨e, hr, hdm⟩
            refine ⟨Event.mkdirModels :: A, B', ?_, ?_, ?_, ?_⟩
            · show [Event.mkdirModels] ++ _ = _
              rw [hsplit]
              rfl
            · obtain ⟨ea, hea, heaok⟩ := hal
              exact ⟨ea, List.mem_cons_of_mem _ hea, heaok⟩
            · exact hlast [Event.mkdirModels] A hlastA
            · intro e' he'
              rcases List.mem_cons.mp he' with rfl | hmem
              · exact ⟨rfl, rfl⟩
              · exact hcatA e' hmem
        · rintro ⟨e, he, hm⟩
          rcases List.mem_append.mp he with hl | hr
          · have he' : e ∈ [Event.mkdirModels] := hl
            rw [List.mem_singleton] at he'
            subst he'
            cases hm
          · obtain ⟨e2, he2, h2ok⟩ := hII ⟨e, hr, hm⟩
            exact ⟨e2, List.mem_append.mpr (Or.inr he2), h2ok⟩
        · intro p hp hok
          exact hlast _ _ (hIII p hp hok)

/-- C3: in both methods a pipeline step runs only after every earlier
step succeeded, and each completed step is followed by a persisted save,
so a checkpoint of the last good state always exists.  Concretely: any
dense-reconstruction (depth or mesh) activity is preceded by a successful
alignment and a successful save that closes the depth-free prefix of the
trace; mesh building happens only after a successful depth build; a unit
that reports `ok` has a save as its very last engine action; and an
uncaught step exception is the last trace event, so nothing (in
particular no save that could corrupt an earlier checkpoint) runs after a
failure. -/
theorem claim_C3 (eng : Engine) (d : ScanDir) (f_px : Rat)
    (hasCrs : Bool) (gpu : Option Int) (glob : String) (kl tl : Nat)
    (kk kd km : Bool) :
    (((∃ e ∈ (MethodB.process_scan eng d f_px hasCrs).1,
        (Event.isDepth e || Event.isMesh e) = true) →
      ∃ A B',
        (MethodB.process_scan eng d f_px hasCrs).1 = A ++ B' ∧
          (∃ e ∈ A, Event.isAlignOk e = true) ∧
          A.getLast? = some (Event.ecall ECall.save Outcome.ok) ∧
          (∀ e ∈ A, Event.isDepth e = false ∧ Event.isMesh e = false)) ∧
    ((∃ e ∈ (MethodB.process_scan eng d f_px hasCrs).1,
        Event.isMesh e = true) →
      ∃ e ∈ (MethodB.process_scan eng d f_px hasCrs).1,
        Event.isDepthOk e = true) ∧
    (∀ p, (MethodB.process_scan eng d f_px hasCrs).2 = Except.ok p →
      p.1 = "ok" →
      (MethodB.process_scan eng d f_px hasCrs).1.getLast? =
        some (Event.ecall ECall.save Outcome.ok)) ∧
    Aborting (MethodB.process_scan eng d f_px hasCrs)) ∧
    (((∃ e ∈ (MethodA.process_scan eng d hasCrs gpu glob kl tl kk kd
          km).1,
        (Event.isDepth e || Event.isMesh e) = true) →
      ∃ A B',
        (MethodA.process_scan eng d hasCrs gpu glob kl tl kk kd km).1 =
            A ++ B' ∧
          (∃ e ∈ A, Event.isAlignOk e = true) ∧
          A.getLast? = some (Event.ecall ECall.save Outcome.ok) ∧
          (∀ e ∈ A, Event.isDepth e = false ∧ Event.isMesh e = false)) ∧
    ((∃ e ∈ (MethodA.process_scan eng d hasCrs gpu glob kl tl kk kd
          km).1,
        Event.isMesh e = true) →
      ∃ e ∈ (MethodA.process_scan eng d hasCrs gpu glob kl tl kk kd
          km).1,
        Event.isDepthOk e = true) ∧
    (∀ p, (MethodA.process_scan eng d hasCrs gpu glob kl tl kk kd
        km).2 = Except.ok p → p.1 = "ok" →
      (MethodA.process_scan eng d hasCrs gpu glob kl tl kk kd
        km).1.getLast? = some (Event.ecall ECall.save Outcome.ok)) ∧
    Aborting (MethodA.process_scan eng d hasCrs gpu glob kl tl kk
      kd km)) :=
  ⟨⟨(processB_C3 eng d f_px hasCrs).1,
    (processB_C3 eng d f_px hasCrs).2.1,
    (processB_C3 eng d f_px hasCrs).2.2,
    aborting_processB eng d f_px hasCrs⟩,
    ⟨(processA_C3 eng d hasCrs gpu glob kl tl kk kd km).1,
    (processA_C3 eng d hasCrs gpu glob kl tl kk kd km).2.1,
    (processA_C3 eng d hasCrs gpu glob kl tl kk kd km).2.2,
    aborting_processA eng d hasCrs gpu glob kl tl kk kd km⟩⟩


/-- An event of the attempted fragment of a `tryAll` stays in the trace
whether or not the handler runs. -/
theorem mem_tryAll_left {α : Type} {e : Event} {m : M α}
    (h : PyErr → M α) (hm : e ∈ m.1) : e ∈ (tryAll m h).1 := by
  cases hr : m.2 with
  | ok a =>
    rw [tryAll_of_ok hr]
    exact hm
  | error er =>
    rw [tryAll_of_err hr]
    exact List.mem_append.mpr (Or.inl hm)

theorem mem_tryAllSwallow_left {e : Event} {m : M Unit}
    (hm : e ∈ m.1) : e ∈ (tryAllSwallow m).1 := by
  unfold tryAllSwallow
  exact mem_tryAll_left _ hm

/-- Method B QC step when both duplication attempts raise: the step still
succeeds (the run continues) and the warning is logged. -/
theorem qcStep_dup_fail (eng : Engine) (e1 e2 : PyErr)
    (hc : eng.callResult ECall.chunkCopy = Outcome.raise e1)
    (hd : eng.callResult ECall.chunkDuplicate = Outcome.raise e2) :
    (MethodB.qcStep eng).2 = Except.ok () ∧
      Event.warn "QC chunk could not be duplicated; continuing." ∈
        (MethodB.qcStep eng).1 := by
  unfold MethodB.qcStep
  simp only [bindM_eq]
  have hcopy : (mbind (call eng ECall.chunkCopy)
      (fun _ => mret true)).2 = Except.error e1 := by
    rw [mbind_of_err (call_snd_of_raise hc)]
  have hdup : (mbind (call eng ECall.chunkDuplicate)
      (fun _ => mret true)).2 = Except.error e2 := by
    rw [mbind_of_err (call_snd_of_raise hd)]
  have hX : (tryAll
      (mbind (call eng ECall.chunkCopy) (fun _ => mret true))
      (fun _ =>
        tryAll (mbind (call eng ECall.chunkDuplicate)
            (fun _ => mret true))
          (fun _ => mret false))).2 = Except.ok false := by
    rw [tryAll_of_err hcopy]
    show (tryAll (mbind (call eng ECall.chunkDuplicate)
        (fun _ => mret true)) (fun _ => mret false)).2 = Except.ok false
    rw [tryAll_of_err hdup]
    rfl
  rw [mbind_of_ok hX]
  refine ⟨rfl, ?_⟩
  refine List.mem_append.mpr (Or.inr ?_)
  exact List.mem_singleton.mpr rfl

/-- Method B QC step when a duplication attempt succeeds: the duplicate
is relabeled `DISC3D__QC_ALIGNED` and disabled (both guarded,
best-effort). -/
theorem qcStep_dup_ok (eng : Engine)
    (h : eng.callResult ECall.chunkCopy = Outcome.ok ∨
      eng.callResult ECall.chunkDuplicate = Outcome.ok) :
    (∃ r, Event.ecall (ECall.qcSetLabel "DISC3D__QC_ALIGNED") r ∈
      (MethodB.qcStep eng).1) ∧
    (∃ r, Event.ecall (ECall.qcSetEnabled false) r ∈
      (MethodB.qcStep eng).1) := by
  unfold MethodB.qcStep
  simp only [bindM_eq]
  have hX : (tryAll
      (mbind (call eng ECall.chunkCopy) (fun _ => mret true))
      (fun _ =>
        tryAll (mbind (call eng ECall.chunkDuplicate)
            (fun _ => mret true))
          (fun _ => mret false))).2 = Except.ok true := by
    cases hc : eng.callResult ECall.chunkCopy with
    | ok =>
      have hcopy : (mbind (call eng ECall.chunkCopy)
          (fun _ => mret true)).2 = Except.ok true := by
        rw [mbind_of_ok (call_snd_of_ok hc)]
        rfl
      rw [tryAll_of_ok hcopy]
      exact hcopy
    | raise e1 =>
      have hcopy : (mbind (call eng ECall.chunkCopy)
          (fun _ => mret true)).2 = Except.error e1 := by
        rw [mbind_of_err (call_snd_of_raise hc)]
      rw [tryAll_of_err hcopy]
      cases h with
      | inl hok => rw [hc] at hok; cases hok
      | inr hok =>
        have hdup : (mbind (call eng ECall.chunkDuplicate)
            (fun _ => mret true)).2 = Except.ok true := by
          rw [mbind_of_ok (call_snd_of_ok hok)]
          rfl
        show (tryAll (mbind (call eng ECall.chunkDuplicate)
            (fun _ => mret true)) (fun _ => mret false)).2 =
          Except.ok true
        rw [tryAll_of_ok hdup]
        exact hdup
  rw [mbind_of_ok hX]
  refine ⟨⟨eng.callResult (ECall.qcSetLabel "DISC3D__QC_ALIGNED"), ?_⟩,
    ⟨eng.callResult (ECall.qcSetEnabled false), ?_⟩⟩
  · refine List.mem_append.mpr (Or.inr ?_)
    show _ ∈ (mbind (tryAllSwallow
      (call eng (ECall.qcSetLabel "DISC3D__QC_ALIGNED"))) (fun _ =>
        mbind (tryAllSwallow (call eng (ECall.qcSetEnabled false)))
          (fun _ => call eng ECall.save))).1
    refine mem_mbind_left _ (mem_tryAllSwallow_left ?_)
    rw [call_fst]
    exact List.mem_singleton.mpr rfl
  · refine List.mem_append.mpr (Or.inr ?_)
    show _ ∈ (mbind (tryAllSwallow
      (call eng (ECall.qcSetLabel "DISC3D__QC_ALIGNED"))) (fun _ =>
        mbind (tryAllSwallow (call eng (ECall.qcSetEnabled false)))
          (fun _ => call eng ECall.save))).1
    refine mem_mbind_right (tryAllSwallow_snd _)
      (mem_mbind_left _ (mem_tryAllSwallow_left ?_))
    rw [call_fst]
    exact List.mem_singleton.mpr rfl

/-- Placement of the QC snapshot in the Method B engine phase: the trace
splits into a prefix without duplication, optimization or dense
reconstruction, a QC zone without matching, optimization or dense
reconstruction, and a suffix without duplication or matching; whenever a
duplication attempt occurs, a successful alignment lies in the prefix. -/
theorem enginePhaseB_qcSplit (eng : Engine) (f_px : Rat) (hasCrs : Bool)
    (imgs : List String) (campos psz cams : String) :
    ∃ A1 A2 B',
      (MethodB.enginePhase eng f_px hasCrs imgs campos psz cams).1 =
          A1 ++ (A2 ++ B') ∧
        (∀ e ∈ A1, Event.isQcDup e = false ∧ Event.isOptimize e = false ∧
          Event.isDepth e = false ∧ Event.isMesh e = false) ∧
        (∀ e ∈ A2, Event.isMatchAlign e = false ∧
          Event.isOptimize e = false ∧ Event.isDepth e = false ∧
          Event.isMesh e = false) ∧
        (∀ e ∈ B', Event.isQcDup e = false ∧
          Event.isMatchAlign e = false) ∧
        ((∃ e ∈ A2, Event.isQcDup e = true) →
          ∃ e ∈ A1, Event.isAlignOk e = true) := by
  have spC : ∀ e ∈ (MethodB.startProject eng psz).1,
      Event.isQcDup e = false ∧ Event.isOptimize e = false ∧
        Event.isDepth e = false ∧ Event.isMesh e = false :=
    emitsOnly_startProject eng psz (fun _ => ⟨rfl, rfl, rfl, rfl⟩)
      (fun _ => ⟨rfl, rfl, rfl, rfl⟩) ⟨rfl, rfl, rfl, rfl⟩
      (fun _ => ⟨rfl, rfl, rfl, rfl⟩)
  have apC : ∀ e ∈ (MethodB.addPhotosStep eng imgs).1,
      Event.isQcDup e = false ∧ Event.isOptimize e = false ∧
        Event.isDepth e = false ∧ Event.isMesh e = false :=
    emitsOnly_addPhotosStep eng imgs (fun _ => ⟨rfl, rfl, rfl, rfl⟩)
      (fun _ => ⟨rfl, rfl, rfl, rfl⟩)
  have calC : ∀ e ∈ (MethodB.calibStep eng f_px).1,
      Event.isQcDup e = false ∧ Event.isOptimize e = false ∧
        Event.isDepth e = false ∧ Event.isMesh e = false :=
    emitsOnly_calibStep eng f_px ⟨rfl, rfl, rfl, rfl⟩
      ⟨rfl, rfl, rfl, rfl⟩ ⟨rfl, rfl, rfl, rfl⟩
      (fun _ => ⟨rfl, rfl, rfl, rfl⟩)
  have irC : ∀ e ∈ (MethodB.importRefStep eng campos hasCrs).1,
      Event.isQcDup e = false ∧ Event.isOptimize e = false ∧
        Event.isDepth e = false ∧ Event.isMesh e = false :=
    emitsOnly_importRefStep eng campos hasCrs ⟨rfl, rfl, rfl, rfl⟩
      (fun _ => ⟨rfl, rfl, rfl, rfl⟩) (fun _ => ⟨rfl, rfl, rfl, rfl⟩)
  have maC : ∀ e ∈ (MethodB.matchAlignStep eng).1,
      Event.isQcDup e = false ∧ Event.isOptimize e = false ∧
        Event.isDepth e = false ∧ Event.isMesh e = false :=
    emitsOnly_matchAlignStep eng (fun _ _ => ⟨rfl, rfl, rfl, rfl⟩)
      (fun _ _ => ⟨rfl, rfl, rfl, rfl⟩) (fun _ => ⟨rfl, rfl, rfl, rfl⟩)
  have qcC : ∀ e ∈ (MethodB.qcStep eng).1,
      Event.isMatchAlign e = false ∧ Event.isOptimize e = false ∧
        Event.isDepth e = false ∧ Event.isMesh e = false :=
    emitsOnly_qcStep eng (fun _ => ⟨rfl, rfl, rfl, rfl⟩)
      (fun _ => ⟨rfl, rfl, rfl, rfl⟩) (fun _ => ⟨rfl, rfl, rfl, rfl⟩)
      (fun _ => ⟨rfl, rfl, rfl, rfl⟩) (fun _ => ⟨rfl, rfl, rfl, rfl⟩)
      ⟨rfl, rfl, rfl, rfl⟩
  unfold MethodB.enginePhase
  simp only [bindM_eq]
  cases h1 : (MethodB.startProject eng psz).2 with
  | error e1 =>
    rw [mbind_of_err h1]
    refine ⟨(MethodB.startProject eng psz).1, [], [], by simp, spC,
      fun e he => absurd he (List.not_mem_nil e),
      fun e he => absurd he (List.not_mem_nil e), ?_⟩
    rintro ⟨e, he, _⟩
    exact absurd he (List.not_mem_nil e)
  | ok u1 =>
    rw [mbind_of_ok h1]
    cases h2 : (MethodB.addPhotosStep eng imgs).2 with
    | error e2 =>
      rw [mbind_of_err h2]
      refine ⟨(MethodB.startProject eng psz).1 ++
        (MethodB.addPhotosStep eng imgs).1, [], [], by simp,
        emitsOnly_append spC apC,
        fun e he => absurd he (List.not_mem_nil e),
        fun e he => absurd he (List.not_mem_nil e), ?_⟩
      rintro ⟨e, he, _⟩
      exact absurd he (List.not_mem_nil e)
    | ok u2 =>
      rw [mbind_of_ok h2]
      cases hs : eng.sensorsEmpty with
      | true =>
        simp only [hs, if_true]
        have mretC : ∀ e ∈ (mret ("fail",
            "No sensor after adding photos") : M (String × String)).1,
            Event.isQcDup e = false ∧ Event.isOptimize e = false ∧
              Event.isDepth e = false ∧ Event.isMesh e = false :=
          fun e he => absurd he (List.not_mem_nil e)
        refine ⟨(MethodB.startProject eng psz).1 ++
          ((MethodB.addPhotosStep eng imgs).1 ++
            (mret ("fail", "No sensor after adding photos") :
              M (String × String)).1), [], [], by simp,
          emitsOnly_append spC (emitsOnly_append apC mretC),
          fun e he => absurd he (List.not_mem_nil e),
          fun e he => absurd he (List.not_mem_nil e), ?_⟩
        rintro ⟨e, he, _⟩
        exact absurd he (List.not_mem_nil e)
      | false =>
        simp only [hs, Bool.false_eq_true, if_false]
        cases h3 : (MethodB.calibStep eng f_px).2 with
        | error e3 =>
          rw [mbind_of_err h3]
          refine ⟨(MethodB.startProject eng psz).1 ++
            ((MethodB.addPhotosStep eng imgs).1 ++
              (MethodB.calibStep eng f_px).1), [], [], by simp,
            emitsOnly_append spC (emitsOnly_append apC calC),
            fun e he => absurd he (List.not_mem_nil e),
            fun e he => absurd he (List.not_mem_nil e), ?_⟩
          rintro ⟨e, he, _⟩
          exact absurd he (List.not_mem_nil e)
        | ok u3 =>
          rw [mbind_of_ok h3]
          cases h4 : (MethodB.importRefStep eng campos hasCrs).2 with
          | error e4 =>
            rw [mbind_of_err h4]
            refine ⟨(MethodB.startProject eng psz).1 ++
              ((MethodB.addPhotosStep eng imgs).1 ++
                ((MethodB.calibStep eng f_px).1 ++
                  (MethodB.importRefStep eng campos hasCrs).1)), [], [],
              by simp,
              emitsOnly_append spC (emitsOnly_append apC
                (emitsOnly_append calC irC)),
              fun e he => absurd he (List.not_mem_nil e),
              fun e he => absurd he (List.not_mem_nil e), ?_⟩
            rintro ⟨e, he, _⟩
            exact absurd he (List.not_mem_nil e)
          | ok u4 =>
            rw [mbind_of_ok h4]
            cases h5 : (MethodB.matchAlignStep eng).2 with
            | error e5 =>
              rw [mbind_of_err h5]
              refine ⟨(MethodB.startProject eng psz).1 ++
                ((MethodB.addPhotosStep eng imgs).1 ++
                  ((MethodB.calibStep eng f_px).1 ++
                    ((MethodB.importRefStep eng campos hasCrs).1 ++
                      (MethodB.matchAlignStep eng).1))), [], [], by simp,
                emitsOnly_append spC (emitsOnly_append apC
                  (emitsOnly_append calC (emitsOnly_append irC maC))),
                fun e he => absurd he (List.not_mem_nil e),
                fun e he => absurd he (List.not_mem_nil e), ?_⟩
              rintro ⟨e, he, _⟩
              exact absurd he (List.not_mem_nil e)
            | ok u5 =>
              cases u5
              rw [mbind_of_ok h5]
              obtain ⟨eal, heal, healok⟩ := matchAlign_ok_alignOk eng h5
              have hAmem : eal ∈ (MethodB.startProject eng psz).1 ++
                  ((MethodB.addPhotosStep eng imgs).1 ++
                    ((MethodB.calibStep eng f_px).1 ++
                      ((MethodB.importRefStep eng campos hasCrs).1 ++
                        (MethodB.matchAlignStep eng).1))) := by
                simp only [List.mem_append]
                tauto
              have hA1 : ∀ e ∈ (MethodB.startProject eng psz).1 ++
                  ((MethodB.addPhotosStep eng imgs).1 ++
                    ((MethodB.calibStep eng f_px).1 ++
                      ((MethodB.importRefStep eng campos hasCrs).1 ++
                        (MethodB.matchAlignStep eng).1))),
                  Event.isQcDup e = false ∧ Event.isOptimize e = false ∧
                    Event.isDepth e = false ∧ Event.isMesh e = false :=
                emitsOnly_append spC (emitsOnly_append apC
                  (emitsOnly_append calC (emitsOnly_append irC maC)))
              cases h6 : (MethodB.qcStep eng).2 with
              | error e6 =>
                rw [mbind_of_err h6]
                refine ⟨_, (MethodB.qcStep eng).1, [], by simp, hA1, qcC,
                  fun e he => absurd he (List.not_mem_nil e),
                  fun _ => ⟨eal, hAmem, healok⟩⟩
              | ok u6 =>
                cases u6
                rw [mbind_of_ok h6]
                refine ⟨_, (MethodB.qcStep eng).1,
                  (mbind (MethodB.optimizeStep eng) (fun _ =>
                    mbind (MethodB.depthStep eng) (fun _ =>
                      mbind (MethodB.meshStep eng) (fun _ =>
                        mbind (MethodB.exportStep eng cams) (fun _ =>
                          mret ("ok", "Saved " ++ psz ++ "  cams_xml=" ++
                            cams)))))).1,
                  by simp, hA1, qcC, ?_, fun _ => ⟨eal, hAmem, healok⟩⟩
                refine emitsOnly_mbind
                  (emitsOnly_optimizeStep eng (fun _ _ => ⟨rfl, rfl⟩)
                    (fun _ => ⟨rfl, rfl⟩)) (fun _ => ?_)
                refine emitsOnly_mbind
                  (emitsOnly_depthStep eng (fun _ _ => ⟨rfl, rfl⟩)
                    (fun _ => ⟨rfl, rfl⟩)) (fun _ => ?_)
                refine emitsOnly_mbind
                  (emitsOnly_meshStep eng (fun _ _ => ⟨rfl, rfl⟩)
                    (fun _ => ⟨rfl, rfl⟩)) (fun _ => ?_)
                refine emitsOnly_mbind
                  (emitsOnly_exportStep eng cams (fun _ _ => ⟨rfl, rfl⟩)
                    (fun _ => ⟨rfl, rfl⟩)) (fun _ => ?_)
                exact emitsOnly_mret _

/-- Process-level lift of `enginePhaseB_qcSplit`. -/
theorem processB_qcSplit (eng : Engine) (d : ScanDir) (f_px : Rat)
    (hasCrs : Bool) :
    ∃ A1 A2 B',
      (MethodB.process_scan eng d f_px hasCrs).1 = A1 ++ (A2 ++ B') ∧
        (∀ e ∈ A1, Event.isQcDup e = false ∧ Event.isOptimize e = false ∧
          Event.isDepth e = false ∧ Event.isMesh e = false) ∧
        (∀ e ∈ A2, Event.isMatchAlign e = false ∧
          Event.isOptimize e = false ∧ Event.isDepth e = false ∧
          Event.isMesh e = false) ∧
        (∀ e ∈ B', Event.isQcDup e = false ∧
          Event.isMatchAlign e = false) ∧
        ((∃ e ∈ A2, Event.isQcDup e = true) →
          ∃ e ∈ A1, Event.isAlignOk e = true) := by
  cases hval : MethodB.validationError d with
  | some r =>
    rw [processB_validation_fail hval eng f_px hasCrs]
    refine ⟨[], [], [], rfl, fun e he => absurd he (List.not_mem_nil e),
      fun e he => absurd he (List.not_mem_nil e),
      fun e he => absurd he (List.not_mem_nil e), ?_⟩
    rintro ⟨e, he, _⟩
    exact absurd he (List.not_mem_nil e)
  | none =>
    obtain ⟨uid, huid, himgs, hcam⟩ := (validationErrorB_none_iff d).mp hval
    rw [processB_validation_ok huid himgs hcam eng f_px hasCrs]
    rw [mbind_of_ok (show (emit Event.mkdirModels).2 = Except.ok ()
      from rfl)]
    obtain ⟨A1, A2, B', hsplit, hA1, hA2, hB, himp⟩ :=
      enginePhaseB_qcSplit eng f_px hasCrs (imgsOf d uid)
        (d.camposFiles.headD "")
        ("models/" ++ (MethodB.get_uid_and_dataset d).2 ++ ".psz")
        ("models/" ++ (MethodB.get_uid_and_dataset d).2 ++
          "_Calibrated_Cameras_" ++ uid ++ "_" ++
          String.mk (takeUntilSub "__".toList
            (MethodB.get_uid_and_dataset d).2.toList) ++ ".xml")
    refine ⟨Event.mkdirModels :: A1, A2, B', ?_, ?_, hA2, hB, ?_⟩
    · show [Event.mkdirModels] ++ _ = _
      rw [hsplit]
      rfl
    · intro e he
      rcases List.mem_cons.mp he with rfl | hmem
      · exact ⟨rfl, rfl, rfl, rfl⟩
      · exact hA1 e hmem
    · intro hx
      obtain ⟨ea, hea, heaok⟩ := himp hx
      exact ⟨ea, List.mem_cons_of_mem _ hea, heaok⟩

/-- C8 (amended): only Method B takes a QC snapshot.  In Method B the
duplication attempt sits after a successful alignment and before any
optimization or dense reconstruction; a successful duplicate is relabeled
`DISC3D__QC_ALIGNED` and disabled; a double duplication failure only logs
a warning and the step succeeds.  Method A never attempts a QC
duplication in any run, refuting the claim for `every pipeline run`. -/
theorem claim_C8 (eng : Engine) (d : ScanDir) (f_px : Rat)
    (hasCrs : Bool) (gpu : Option Int) (glob : String) (kl tl : Nat)
    (kk kd km : Bool) :
    (∃ A1 A2 B',
      (MethodB.process_scan eng d f_px hasCrs).1 = A1 ++ (A2 ++ B') ∧
        (∀ e ∈ A1, Event.isQcDup e = false ∧ Event.isOptimize e = false ∧
          Event.isDepth e = false ∧ Event.isMesh e = false) ∧
        (∀ e ∈ A2, Event.isMatchAlign e = false ∧
          Event.isOptimize e = false ∧ Event.isDepth e = false ∧
          Event.isMesh e = false) ∧
        (∀ e ∈ B', Event.isQcDup e = false ∧
          Event.isMatchAlign e = false) ∧
        ((∃ e ∈ A2, Event.isQcDup e = true) →
          ∃ e ∈ A1, Event.isAlignOk e = true)) ∧
    (∀ e1 e2, eng.callResult ECall.chunkCopy = Outcome.raise e1 →
      eng.callResult ECall.chunkDuplicate = Outcome.raise e2 →
      (MethodB.qcStep eng).2 = Except.ok () ∧
        Event.warn "QC chunk could not be duplicated; continuing." ∈
          (MethodB.qcStep eng).1) ∧
    ((eng.callResult ECall.chunkCopy = Outcome.ok ∨
        eng.callResult ECall.chunkDuplicate = Outcome.ok) →
      (∃ r, Event.ecall (ECall.qcSetLabel "DISC3D__QC_ALIGNED") r ∈
        (MethodB.qcStep eng).1) ∧
      (∃ r, Event.ecall (ECall.qcSetEnabled false) r ∈
        (MethodB.qcStep eng).1)) ∧
    (∀ e ∈ (MethodA.process_scan eng d hasCrs gpu glob kl tl kk kd
        km).1, Event.isQcDup e = false) :=
  ⟨processB_qcSplit eng d f_px hasCrs,
   fun e1 e2 hc hd => qcStep_dup_fail eng e1 e2 hc hd,
   fun h => qcStep_dup_ok eng h,
   emitsOnly_processA eng d hasCrs gpu glob kl tl kk kd km rfl
     (fun _ => rfl) (fun _ => rfl) rfl (fun _ _ => rfl) (fun _ _ => rfl)
     (fun _ => rfl) (fun _ _ => rfl) (fun _ => rfl) rfl (fun _ _ => rfl)
     (fun _ _ => rfl) (fun _ => rfl) (fun _ => rfl) (fun _ _ => rfl)
     (fun _ _ => rfl) (fun _ => rfl) (fun _ _ => rfl) (fun _ _ => rfl)
     (fun _ => rfl) (fun _ => rfl) (fun _ => rfl)⟩

/-- C8 counterexample: a complete, successful Method A run whose trace
contains no QC duplication attempt at all, refuting the claimed QC
snapshot for `every pipeline run`. -/
theorem claim_C8_counterexample :
    (∃ msg, (MethodA.process_scan Engine.allOk
        ⟨"X__DISC3D", true, [⟨"u__edof", true, ["p.png"]⟩], [],
          ["cc.xml"], true⟩ true none "*_Calibrated_Cameras_*.xml"
        40000 4000 true true true).2 = Except.ok ("ok", msg)) ∧
    (∀ e ∈ (MethodA.process_scan Engine.allOk
        ⟨"X__DISC3D", true, [⟨"u__edof", true, ["p.png"]⟩], [],
          ["cc.xml"], true⟩ true none "*_Calibrated_Cameras_*.xml"
        40000 4000 true true true).1, Event.isQcDup e = false) :=
  ⟨⟨_, rfl⟩, by decide⟩


/-- C5 (amended): the actual per-call fallback structure.
`matchPhotos` (both methods) retries the `downscale=0` signature after
ANY exception of the primary, operation errors included (deviating from
the claim that operation errors are never retried); `alignCameras`
(both methods, same fragment), `optimizeCameras` and `exportCameras`
(Method B) retry one alternative signature only on a `TypeError`
rejection, surface an operation error of the primary unretried, and
fail the step only when the fallback also raises; Method A's
`optimizeCameras` has no fallback: a `TypeError` skips the call and the
step proceeds straight to the save; Method A's `importCameras` retries
without CRS on `TypeError`, turns exhaustion of that fallback into a
captured fail result instead of an exception, and propagates an
operation error of the primary unretried; `buildDepthMaps` (Method B)
and `buildModel` (both methods) have two tiers: the primary falls back
only on `TypeError`, surfacing operation errors, but the second tier
retries on ANY exception, operation errors included, with full
exhaustion raising; Method A's `buildDepthMaps` retries every tier on
any exception; `addPhotos`, `importReference` and the project saves
have no fallback at all: any exception there fails the step at once
with nothing attempted afterwards. -/
theorem claim_C5 (eng : Engine) (imgs : List String)
    (campos cams xml : String) (hasCrs : Bool) (p : MatchParams) :
    (∀ e, eng.callResult (ECall.matchPhotos MatchSig.accuracyEnum
        MethodB.bMatchParams) = Outcome.raise e →
      ∃ r, Event.ecall (ECall.matchPhotos MatchSig.downscale0
        MethodB.bMatchParams) r ∈ (MethodB.matchAlignStep eng).1) ∧
    (eng.callResult (ECall.alignCameras (some false)) =
        Outcome.raise PyErr.typeError →
      tryType (call eng (ECall.alignCameras (some false)))
          (call eng (ECall.alignCameras none)) =
        ([Event.ecall (ECall.alignCameras (some false))
            (Outcome.raise PyErr.typeError),
          Event.ecall (ECall.alignCameras none)
            (eng.callResult (ECall.alignCameras none))],
          (call eng (ECall.alignCameras none)).2)) ∧
    (∀ msg, eng.callResult (ECall.alignCameras (some false)) =
        Outcome.raise (PyErr.otherError msg) →
      tryType (call eng (ECall.alignCameras (some false)))
          (call eng (ECall.alignCameras none)) =
        ([Event.ecall (ECall.alignCameras (some false))
            (Outcome.raise (PyErr.otherError msg))],
          Except.error (PyErr.otherError msg))) ∧
    (∀ e2, eng.callResult (ECall.alignCameras (some false)) =
        Outcome.raise PyErr.typeError →
      eng.callResult (ECall.alignCameras none) = Outcome.raise e2 →
      (tryType (call eng (ECall.alignCameras (some false)))
        (call eng (ECall.alignCameras none))).2 = Except.error e2) ∧
    (∀ e, eng.callResult (ECall.addPhotos imgs) = Outcome.raise e →
      MethodB.addPhotosStep eng imgs =
        ([Event.ecall (ECall.addPhotos imgs) (Outcome.raise e)],
          Except.error e)) ∧
    (∀ e, eng.callResult (ECall.importReference campos hasCrs) =
        Outcome.raise e →
      (MethodB.importRefStep eng campos hasCrs).2 = Except.error e ∧
        (MethodB.importRefStep eng campos hasCrs).1.getLast? =
          some (Event.ecall (ECall.importReference campos hasCrs)
            (Outcome.raise e))) ∧
    (∀ e, eng.callResult (ECall.buildDepthMaps DepthSig.qualityMild) =
        Outcome.raise e →
      ∃ r, Event.ecall (ECall.buildDepthMaps DepthSig.downscaleMild) r ∈
        (MethodA.depthStepA eng).1) ∧
    (eng.callResult (ECall.optimizeCameras OptimizeSig.fullB
        FitMask.fOnly) = Outcome.raise PyErr.typeError →
      ∃ r, Event.ecall (ECall.optimizeCameras OptimizeSig.reducedB
        FitMask.fOnly) r ∈ (MethodB.optimizeStep eng).1) ∧
    (∀ msg, eng.callResult (ECall.optimizeCameras OptimizeSig.fullB
        FitMask.fOnly) = Outcome.raise (PyErr.otherError msg) →
      (MethodB.optimizeStep eng).2 =
          Except.error (PyErr.otherError msg) ∧
        ∀ r, Event.ecall (ECall.optimizeCameras OptimizeSig.reducedB
          FitMask.fOnly) r ∉ (MethodB.optimizeStep eng).1) ∧
    (∀ e2, eng.callResult (ECall.optimizeCameras OptimizeSig.fullB
        FitMask.fOnly) = Outcome.raise PyErr.typeError →
      eng.callResult (ECall.optimizeCameras OptimizeSig.reducedB
        FitMask.fOnly) = Outcome.raise e2 →
      (MethodB.optimizeStep eng).2 = Except.error e2) ∧
    (eng.callResult (ECall.exportCameras ExportSig.current cams) =
        Outcome.raise PyErr.typeError →
      ∃ r, Event.ecall (ECall.exportCameras ExportSig.legacy cams) r ∈
        (MethodB.exportStep eng cams).1) ∧
    (∀ msg, eng.callResult (ECall.exportCameras ExportSig.current
        cams) = Outcome.raise (PyErr.otherError msg) →
      (MethodB.exportStep eng cams).2 =
          Except.error (PyErr.otherError msg) ∧
        ∀ r, Event.ecall (ECall.exportCameras ExportSig.legacy cams) r ∉
          (MethodB.exportStep eng cams).1) ∧
    (∀ e2, eng.callResult (ECall.exportCameras ExportSig.current
        cams) = Outcome.raise PyErr.typeError →
      eng.callResult (ECall.exportCameras ExportSig.legacy cams) =
        Outcome.raise e2 →
      (MethodB.exportStep eng cams).2 = Except.error e2) ∧
    (eng.callResult (ECall.optimizeCameras OptimizeSig.lockedA
        FitMask.allFalse) = Outcome.raise PyErr.typeError →
      MethodA.optimizeStepA eng =
        ([Event.ecall (ECall.optimizeCameras OptimizeSig.lockedA
            FitMask.allFalse) (Outcome.raise PyErr.typeError)] ++
          (call eng ECall.save).1, (call eng ECall.save).2)) ∧
    (∀ e, eng.callResult (ECall.matchPhotos MatchSig.accuracyEnum p) =
        Outcome.raise e →
      ∃ r, Event.ecall (ECall.matchPhotos MatchSig.downscale0 p) r ∈
        (MethodA.matchAlignStepA eng p).1) ∧
    (eng.callResult (ECall.importCamerasCrs xml) =
        Outcome.raise PyErr.typeError →
      ∃ r, Event.ecall (ECall.importCamerasPlain xml) r ∈
        (MethodA.importCamerasStep eng xml).1) ∧
    (∀ e2, eng.callResult (ECall.importCamerasCrs xml) =
        Outcome.raise PyErr.typeError →
      eng.callResult (ECall.importCamerasPlain xml) = Outcome.raise e2 →
      (MethodA.importCamerasStep eng xml).2 =
        Except.ok (some ("fail", "importCameras failed: " ++
          MethodA.pyErrStr e2))) ∧
    (∀ msg, eng.callResult (ECall.importCamerasCrs xml) =
        Outcome.raise (PyErr.otherError msg) →
      (MethodA.importCamerasStep eng xml).2 =
        Except.error (PyErr.otherError msg)) ∧
    (eng.callResult (ECall.buildDepthMaps DepthSig.downscaleMild) =
        Outcome.raise PyErr.typeError →
      ∃ r, Event.ecall (ECall.buildDepthMaps DepthSig.qualityMild) r ∈
        (MethodB.depthStep eng).1) ∧
    (∀ msg, eng.callResult (ECall.buildDepthMaps
        DepthSig.downscaleMild) = Outcome.raise (PyErr.otherError msg) →
      (MethodB.depthStep eng).2 =
          Except.error (PyErr.otherError msg) ∧
        ∀ r, Event.ecall (ECall.buildDepthMaps DepthSig.qualityMild) r ∉
          (MethodB.depthStep eng).1) ∧
    (∀ e2, eng.callResult (ECall.buildDepthMaps
        DepthSig.downscaleMild) = Outcome.raise PyErr.typeError →
      eng.callResult (ECall.buildDepthMaps DepthSig.qualityMild) =
        Outcome.raise e2 →
      ∃ r, Event.ecall (ECall.buildDepthMaps DepthSig.defaults) r ∈
        (MethodB.depthStep eng).1) ∧
    (∀ e2 e3, eng.callResult (ECall.buildDepthMaps
        DepthSig.downscaleMild) = Outcome.raise PyErr.typeError →
      eng.callResult (ECall.buildDepthMaps DepthSig.qualityMild) =
        Outcome.raise e2 →
      eng.callResult (ECall.buildDepthMaps DepthSig.defaults) =
        Outcome.raise e3 →
      (MethodB.depthStep eng).2 = Except.error e3) ∧
    (eng.callResult (ECall.buildModel ModelSig.current) =
        Outcome.raise PyErr.typeError →
      ∃ r, Event.ecall (ECall.buildModel ModelSig.legacy) r ∈
        (MethodB.meshStep eng).1) ∧
    (∀ msg, eng.callResult (ECall.buildModel ModelSig.current) =
        Outcome.raise (PyErr.otherError msg) →
      (MethodB.meshStep eng).2 =
          Except.error (PyErr.otherError msg) ∧
        ∀ r, Event.ecall (ECall.buildModel ModelSig.legacy) r ∉
          (MethodB.meshStep eng).1) ∧
    (∀ e2, eng.callResult (ECall.buildModel ModelSig.current) =
        Outcome.raise PyErr.typeError →
      eng.callResult (ECall.buildModel ModelSig.legacy) =
        Outcome.raise e2 →
      ∃ r, Event.ecall (ECall.buildModel ModelSig.defaults) r ∈
        (MethodB.meshStep eng).1) ∧
    (∀ e2 e3, eng.callResult (ECall.buildModel ModelSig.current) =
        Outcome.raise PyErr.typeError →
      eng.callResult (ECall.buildModel ModelSig.legacy) =
        Outcome.raise e2 →
      eng.callResult (ECall.buildModel ModelSig.defaults) =
        Outcome.raise e3 →
      (MethodB.meshStep eng).2 = Except.error e3) ∧
    (eng.callResult (ECall.buildModel ModelSig.current) =
        Outcome.raise PyErr.typeError →
      ∃ r, Event.ecall (ECall.buildModel ModelSig.legacy) r ∈
        (MethodA.meshStepA eng).1) ∧
    (∀ msg, eng.callResult (ECall.buildModel ModelSig.current) =
        Outcome.raise (PyErr.otherError msg) →
      (MethodA.meshStepA eng).2 =
          Except.error (PyErr.otherError msg) ∧
        ∀ r, Event.ecall (ECall.buildModel ModelSig.legacy) r ∉
          (MethodA.meshStepA eng).1) ∧
    (∀ e2, eng.callResult (ECall.buildModel ModelSig.current) =
        Outcome.raise PyErr.typeError →
      eng.callResult (ECall.buildModel ModelSig.legacy) =
        Outcome.raise e2 →
      ∃ r, Event.ecall (ECall.buildModel ModelSig.defaults) r ∈
        (MethodA.meshStepA eng).1) ∧
    (∀ e2 e3, eng.callResult (ECall.buildModel ModelSig.current) =
        Outcome.raise PyErr.typeError →
      eng.callResult (ECall.buildModel ModelSig.legacy) =
        Outcome.raise e2 →
      eng.callResult (ECall.buildModel ModelSig.defaults) =
        Outcome.raise e3 →
      (MethodA.meshStepA eng).2 = Except.error e3) ∧
    (∀ e1 e2, eng.callResult (ECall.buildDepthMaps
        DepthSig.qualityMild) = Outcome.raise e1 →
      eng.callResult (ECall.buildDepthMaps DepthSig.downscaleMild) =
        Outcome.raise e2 →
      ∃ r, Event.ecall (ECall.buildDepthMaps DepthSig.defaults) r ∈
        (MethodA.depthStepA eng).1) ∧
    (∀ e1 e2 e3, eng.callResult (ECall.buildDepthMaps
        DepthSig.qualityMild) = Outcome.raise e1 →
      eng.callResult (ECall.buildDepthMaps DepthSig.downscaleMild) =
        Outcome.raise e2 →
      eng.callResult (ECall.buildDepthMaps DepthSig.defaults) =
        Outcome.raise e3 →
      (MethodA.depthStepA eng).2 = Except.error e3) ∧
    (∀ e, eng.callResult (ECall.optimizeCameras OptimizeSig.fullB
        FitMask.fOnly) = Outcome.ok →
      eng.callResult ECall.save = Outcome.raise e →
      (MethodB.optimizeStep eng).2 = Except.error e) := by
  refine ⟨?_, ?_, ?_, ?_, ?_, ?_, ?_, ?_, ?_, ?_, ?_, ?_, ?_, ?_, ?_,
    ?_, ?_, ?_, ?_, ?_, ?_, ?_, ?_, ?_, ?_, ?_, ?_, ?_, ?_, ?_, ?_, ?_,
    ?_⟩
  · intro e ha
    unfold MethodB.matchAlignStep
    simp only [bindM_eq]
    refine ⟨eng.callResult (ECall.matchPhotos MatchSig.downscale0
      MethodB.bMatchParams), mem_mbind_left _ ?_⟩
    rw [tryAll_of_err (call_snd_of_raise ha)]
    refine List.mem_append.mpr (Or.inr ?_)
    show _ ∈ (call eng (ECall.matchPhotos MatchSig.downscale0
      MethodB.bMatchParams)).1
    rw [call_fst]
    exact List.mem_singleton.mpr rfl
  · intro hb
    rw [tryType_of_type (call_snd_of_raise hb), call_fst, call_fst, hb]
    rfl
  · intro msg hc
    rw [tryType_of_other (call_snd_of_raise hc)
      (by intro hx; cases hx)]
    unfold call
    rw [hc]
  · intro e2 hb hd2
    rw [tryType_of_type (call_snd_of_raise hb)]
    exact call_snd_of_raise hd2
  · intro e he
    unfold MethodB.addPhotosStep
    simp only [bindM_eq]
    rw [mbind_of_err (call_snd_of_raise he)]
    rw [call_fst, he]
  · intro e he
    unfold MethodB.importRefStep
    simp only [bindM_eq]
    rw [mbind_of_ok (crsStep_snd hasCrs)]
    rw [mbind_of_err (call_snd_of_raise he)]
    refine ⟨rfl, ?_⟩
    show ((MethodB.crsStep hasCrs).1 ++
      (call eng (ECall.importReference campos hasCrs)).1).getLast? = _
    rw [call_fst, he]
    rw [List.getLast?_append_of_ne_nil _ (by intro hx; cases hx)]
    rfl
  · intro e he
    unfold MethodA.depthStepA
    simp only [bindM_eq]
    refine ⟨eng.callResult (ECall.buildDepthMaps DepthSig.downscaleMild),
      mem_mbind_left _ ?_⟩
    rw [tryAll_of_err (call_snd_of_raise he)]
    refine List.mem_append.mpr (Or.inr ?_)
    show _ ∈ (tryAll (call eng (ECall.buildDepthMaps
      DepthSig.downscaleMild)) (fun _ =>
        call eng (ECall.buildDepthMaps DepthSig.defaults))).1
    refine mem_tryAll_left _ ?_
    rw [call_fst]
    exact List.mem_singleton.mpr rfl
  · intro h
    unfold MethodB.optimizeStep
    simp only [bindM_eq]
    refine ⟨eng.callResult (ECall.optimizeCameras OptimizeSig.reducedB
      FitMask.fOnly), mem_mbind_left _ ?_⟩
    rw [tryType_of_type (call_snd_of_raise h)]
    refine List.mem_append.mpr (Or.inr ?_)
    rw [call_fst]
    exact List.mem_singleton.mpr rfl
  · intro msg h
    unfold MethodB.optimizeStep
    simp only [bindM_eq]
    rw [tryType_of_other (call_snd_of_raise h) (by intro hx; cases hx)]
    rw [mbind_of_err (call_snd_of_raise h)]
    refine ⟨rfl, ?_⟩
    intro r hr
    rw [call_fst, h] at hr
    rw [List.mem_singleton] at hr
    cases hr
  · intro e2 h1 h2
    unfold MethodB.optimizeStep
    simp only [bindM_eq]
    have hfrag : (tryType (call eng (ECall.optimizeCameras
        OptimizeSig.fullB FitMask.fOnly))
        (call eng (ECall.optimizeCameras OptimizeSig.reducedB
          FitMask.fOnly))).2 = Except.error e2 := by
      rw [tryType_of_type (call_snd_of_raise h1)]
      exact call_snd_of_raise h2
    rw [mbind_of_err hfrag]
  · intro h
    unfold MethodB.exportStep
    simp only [bindM_eq]
    refine ⟨eng.callResult (ECall.exportCameras ExportSig.legacy cams),
      mem_mbind_left _ ?_⟩
    rw [tryType_of_type (call_snd_of_raise h)]
    refine List.mem_append.mpr (Or.inr ?_)
    rw [call_fst]
    exact List.mem_singleton.mpr rfl
  · intro msg h
    unfold MethodB.exportStep
    simp only [bindM_eq]
    rw [tryType_of_other (call_snd_of_raise h) (by intro hx; cases hx)]
    rw [mbind_of_err (call_snd_of_raise h)]
    refine ⟨rfl, ?_⟩
    intro r hr
    rw [call_fst, h] at hr
    rw [List.mem_singleton] at hr
    cases hr
  · intro e2 h1 h2
    unfold MethodB.exportStep
    simp only [bindM_eq]
    have hfrag : (tryType (call eng (ECall.exportCameras
        ExportSig.current cams))
        (call eng (ECall.exportCameras ExportSig.legacy cams))).2 =
        Except.error e2 := by
      rw [tryType_of_type (call_snd_of_raise h1)]
      exact call_snd_of_raise h2
    rw [mbind_of_err hfrag]
  · intro h
    unfold MethodA.optimizeStepA
    simp only [bindM_eq]
    have hfrag : (tryType (call eng (ECall.optimizeCameras
        OptimizeSig.lockedA FitMask.allFalse)) (mret () : M Unit)).2 =
        Except.ok () := by
      rw [tryType_of_type (call_snd_of_raise h)]
      rfl
    rw [mbind_of_ok hfrag]
    rw [tryType_of_type (call_snd_of_raise h)]
    rw [call_fst, h]
    simp [mret]
  · intro e ha
    unfold MethodA.matchAlignStepA
    simp only [bindM_eq]
    refine ⟨eng.callResult (ECall.matchPhotos MatchSig.downscale0 p),
      mem_mbind_left _ ?_⟩
    rw [tryAll_of_err (call_snd_of_raise ha)]
    refine List.mem_append.mpr (Or.inr ?_)
    show _ ∈ (call eng (ECall.matchPhotos MatchSig.downscale0 p)).1
    rw [call_fst]
    exact List.mem_singleton.mpr rfl
  · intro h1
    unfold MethodA.importCamerasStep
    have hm : (mbind (call eng (ECall.importCamerasCrs xml))
        (fun _ => mret (none : Option (String × String)))).2 =
        Except.error PyErr.typeError := by
      rw [mbind_of_err (call_snd_of_raise h1)]
    refine ⟨eng.callResult (ECall.importCamerasPlain xml), ?_⟩
    rw [tryType_of_type hm]
    refine List.mem_append.mpr (Or.inr ?_)
    refine mem_tryAll_left _ (mem_mbind_left _ ?_)
    rw [call_fst]
    exact List.mem_singleton.mpr rfl
  · intro e2 h1 h2
    unfold MethodA.importCamerasStep
    have hm : (mbind (call eng (ECall.importCamerasCrs xml))
        (fun _ => mret (none : Option (String × String)))).2 =
        Except.error PyErr.typeError := by
      rw [mbind_of_err (call_snd_of_raise h1)]
    rw [tryType_of_type hm]
    show (tryAll (mbind (call eng (ECall.importCamerasPlain xml))
      (fun _ => mret (none : Option (String × String))))
      (fun e => mret (some ("fail", "importCameras failed: " ++
        MethodA.pyErrStr e)))).2 = _
    have hplain : (mbind (call eng (ECall.importCamerasPlain xml))
        (fun _ => mret (none : Option (String × String)))).2 =
        Except.error e2 := by
      rw [mbind_of_err (call_snd_of_raise h2)]
    rw [tryAll_of_err hplain]
    rfl
  · intro msg h
    unfold MethodA.importCamerasStep
    have hm : (mbind (call eng (ECall.importCamerasCrs xml))
        (fun _ => mret (none : Option (String × String)))).2 =
        Except.error (PyErr.otherError msg) := by
      rw [mbind_of_err (call_snd_of_raise h)]
    rw [tryType_of_other hm (by intro hx; cases hx)]
    exact hm
  · intro h
    unfold MethodB.depthStep
    simp only [bindM_eq]
    refine ⟨eng.callResult (ECall.buildDepthMaps DepthSig.qualityMild),
      mem_mbind_left _ ?_⟩
    rw [tryType_of_type (call_snd_of_raise h)]
    refine List.mem_append.mpr (Or.inr ?_)
    refine mem_tryAll_left _ ?_
    rw [call_fst]
    exact List.mem_singleton.mpr rfl
  · intro msg h
    unfold MethodB.depthStep
    simp only [bindM_eq]
    rw [tryType_of_other (call_snd_of_raise h) (by intro hx; cases hx)]
    rw [mbind_of_err (call_snd_of_raise h)]
    refine ⟨rfl, ?_⟩
    intro r hr
    rw [call_fst, h] at hr
    rw [List.mem_singleton] at hr
    cases hr
  · intro e2 h1 h2
    unfold MethodB.depthStep
    simp only [bindM_eq]
    refine ⟨eng.callResult (ECall.buildDepthMaps DepthSig.defaults),
      mem_mbind_left _ ?_⟩
    rw [tryType_of_type (call_snd_of_raise h1)]
    refine List.mem_append.mpr (Or.inr ?_)
    rw [tryAll_of_err (call_snd_of_raise h2)]
    refine List.mem_append.mpr (Or.inr ?_)
    show _ ∈ (call eng (ECall.buildDepthMaps DepthSig.defaults)).1
    rw [call_fst]
    exact List.mem_singleton.mpr rfl
  · intro e2 e3 h1 h2 h3
    unfold MethodB.depthStep
    simp only [bindM_eq]
    have hfrag : (tryType (call eng (ECall.buildDepthMaps
        DepthSig.downscaleMild))
        (tryAll (call eng (ECall.buildDepthMaps DepthSig.qualityMild))
          (fun _ =>
            call eng (ECall.buildDepthMaps DepthSig.defaults)))).2 =
        Except.error e3 := by
      rw [tryType_of_type (call_snd_of_raise h1)]
      show (tryAll (call eng (ECall.buildDepthMaps
        DepthSig.qualityMild)) (fun _ =>
          call eng (ECall.buildDepthMaps DepthSig.defaults))).2 = _
      rw [tryAll_of_err (call_snd_of_raise h2)]
      exact call_snd_of_raise h3
    rw [mbind_of_err hfrag]
  · intro h
    unfold MethodB.meshStep
    simp only [bindM_eq]
    refine ⟨eng.callResult (ECall.buildModel ModelSig.legacy),
      mem_mbind_left _ ?_⟩
    rw [tryType_of_type (call_snd_of_raise h)]
    refine List.mem_append.mpr (Or.inr ?_)
    refine mem_tryAll_left _ ?_
    rw [call_fst]
    exact List.mem_singleton.mpr rfl
  · intro msg h
    unfold MethodB.meshStep
    simp only [bindM_eq]
    rw [tryType_of_other (call_snd_of_raise h) (by intro hx; cases hx)]
    rw [mbind_of_err (call_snd_of_raise h)]
    refine ⟨rfl, ?_⟩
    intro r hr
    rw [call_fst, h] at hr
    rw [List.mem_singleton] at hr
    cases hr
  · intro e2 h1 h2
    unfold MethodB.meshStep
    simp only [bindM_eq]
    refine ⟨eng.callResult (ECall.buildModel ModelSig.defaults),
      mem_mbind_left _ ?_⟩
    rw [tryType_of_type (call_snd_of_raise h1)]
    refine List.mem_append.mpr (Or.inr ?_)
    rw [tryAll_of_err (call_snd_of_raise h2)]
    refine List.mem_append.mpr (Or.inr ?_)
    show _ ∈ (call eng (ECall.buildModel ModelSig.defaults)).1
    rw [call_fst]
    exact List.mem_singleton.mpr rfl
  · intro e2 e3 h1 h2 h3
    unfold MethodB.meshStep
    simp only [bindM_eq]
    have hfrag : (tryType (call eng (ECall.buildModel ModelSig.current))
        (tryAll (call eng (ECall.buildModel ModelSig.legacy))
          (fun _ => call eng (ECall.buildModel ModelSig.defaults)))).2 =
        Except.error e3 := by
      rw [tryType_of_type (call_snd_of_raise h1)]
      show (tryAll (call eng (ECall.buildModel ModelSig.legacy))
        (fun _ => call eng (ECall.buildModel ModelSig.defaults))).2 = _
      rw [tryAll_of_err (call_snd_of_raise h2)]
      exact call_snd_of_raise h3
    rw [mbind_of_err hfrag]
  · intro h
    unfold MethodA.meshStepA
    simp only [bindM_eq]
    refine ⟨eng.callResult (ECall.buildModel ModelSig.legacy),
      mem_mbind_left _ ?_⟩
    rw [tryType_of_type (call_snd_of_raise h)]
    refine List.mem_append.mpr (Or.inr ?_)
    refine mem_tryAll_left _ ?_
    rw [call_fst]
    exact List.mem_singleton.mpr rfl
  · intro msg h
    unfold MethodA.meshStepA
    simp only [bindM_eq]
    rw [tryType_of_other (call_snd_of_raise h) (by intro hx; cases hx)]
    rw [mbind_of_err (call_snd_of_raise h)]
    refine ⟨rfl, ?_⟩
    intro r hr
    rw [call_fst, h] at hr
    rw [List.mem_singleton] at hr
    cases hr
  · intro e2 h1 h2
    unfold MethodA.meshStepA
    simp only [bindM_eq]
    refine ⟨eng.callResult (ECall.buildModel ModelSig.defaults),
      mem_mbind_left _ ?_⟩
    rw [tryType_of_type (call_snd_of_raise h1)]
    refine List.mem_append.mpr (Or.inr ?_)
    rw [tryAll_of_err (call_snd_of_raise h2)]
    refine List.mem_append.mpr (Or.inr ?_)
    show _ ∈ (call eng (ECall.buildModel ModelSig.defaults)).1
    rw [call_fst]
    exact List.mem_singleton.mpr rfl
  · intro e2 e3 h1 h2 h3
    unfold MethodA.meshStepA
    simp only [bindM_eq]
    have hfrag : (tryType (call eng (ECall.buildModel ModelSig.current))
        (tryAll (call eng (ECall.buildModel ModelSig.legacy))
          (fun _ => call eng (ECall.buildModel ModelSig.defaults)))).2 =
        Except.error e3 := by
      rw [tryType_of_type (call_snd_of_raise h1)]
      show (tryAll (call eng (ECall.buildModel ModelSig.legacy))
        (fun _ => call eng (ECall.buildModel ModelSig.defaults))).2 = _
      rw [tryAll_of_err (call_snd_of_raise h2)]
      exact call_snd_of_raise h3
    rw [mbind_of_err hfrag]
  · intro e1 e2 h1 h2
    unfold MethodA.depthStepA
    simp only [bindM_eq]
    refine ⟨eng.callResult (ECall.buildDepthMaps DepthSig.defaults),
      mem_mbind_left _ ?_⟩
    rw [tryAll_of_err (call_snd_of_raise h1)]
    refine List.mem_append.mpr (Or.inr ?_)
    show _ ∈ (tryAll (call eng (ECall.buildDepthMaps
      DepthSig.downscaleMild)) (fun _ =>
        call eng (ECall.buildDepthMaps DepthSig.defaults))).1
    rw [tryAll_of_err (call_snd_of_raise h2)]
    refine List.mem_append.mpr (Or.inr ?_)
    show _ ∈ (call eng (ECall.buildDepthMaps DepthSig.defaults)).1
    rw [call_fst]
    exact List.mem_singleton.mpr rfl
  · intro e1 e2 e3 h1 h2 h3
    unfold MethodA.depthStepA
    simp only [bindM_eq]
    have hfrag : (tryAll (call eng (ECall.buildDepthMaps
        DepthSig.qualityMild))
        (fun _ => tryAll (call eng (ECall.buildDepthMaps
            DepthSig.downscaleMild))
          (fun _ =>
            call eng (ECall.buildDepthMaps DepthSig.defaults)))).2 =
        Except.error e3 := by
      rw [tryAll_of_err (call_snd_of_raise h1)]
      show (tryAll (call eng (ECall.buildDepthMaps
        DepthSig.downscaleMild)) (fun _ =>
          call eng (ECall.buildDepthMaps DepthSig.defaults))).2 = _
      rw [tryAll_of_err (call_snd_of_raise h2)]
      exact call_snd_of_raise h3
    rw [mbind_of_err hfrag]
  · intro e h1 h2
    unfold MethodB.optimizeStep
    simp only [bindM_eq]
    have hfrag : (tryType (call eng (ECall.optimizeCameras
        OptimizeSig.fullB FitMask.fOnly))
        (call eng (ECall.optimizeCameras OptimizeSig.reducedB
          FitMask.fOnly))).2 = Except.ok () := by
      rw [tryType_of_ok (call_snd_of_ok h1)]
      exact call_snd_of_ok h1
    rw [mbind_of_ok hfrag]
    exact call_snd_of_raise h2

/-- C5 counterexample: an operation error of the primary `matchPhotos`
signature IS automatically retried (and masked: the step succeeds), and a
rejected `addPhotos` signature fails the step with no fallback attempt,
both contradicting the claimed fallback discipline. -/
theorem claim_C5_counterexample :
    (MethodB.matchAlignStep opErrEngine).2 = Except.ok () ∧
    Event.ecall (ECall.matchPhotos MatchSig.downscale0
        MethodB.bMatchParams) Outcome.ok ∈
      (MethodB.matchAlignStep opErrEngine).1 ∧
    MethodB.addPhotosStep rejectAddPhotosEngine ["p.png"] =
      ([Event.ecall (ECall.addPhotos ["p.png"])
          (Outcome.raise PyErr.typeError)],
        Except.error PyErr.typeError) :=
  ⟨rfl, by decide, rfl⟩


/-! Branch equations of the two `main` functions. -/

theorem mainB_root2 (eng : Engine) (w : MethodB.World) (f_px : Rat)
    (hr : w.rootExists = false) :
    MethodB.main eng w f_px = ⟨[], [], ExitStatus.exited 2⟩ := by
  unfold MethodB.main
  simp only [hr, Bool.not_false, if_true]

theorem mainB_list2 (eng : Engine) (w : MethodB.World) (f_px : Rat)
    (hr : w.rootExists = true) (hl : w.listExists = false) :
    MethodB.main eng w f_px =
      ⟨(match w.gpuArg with
      | some i => (tryAllSwallow (call eng (ECall.setGpu i))).1
      | none => ([] : List Event)), [], ExitStatus.exited 2⟩ := by
  unfold MethodB.main
  simp only [hr, hl, Bool.not_true, Bool.not_false, Bool.false_eq_true,
    if_false, if_true]

theorem mainB_dates2 (eng : Engine) (w : MethodB.World) (f_px : Rat)
    (hr : w.rootExists = true) (hl : w.listExists = true)
    (hde : (read_dates w.listLines).isEmpty = true) :
    MethodB.main eng w f_px =
      ⟨(match w.gpuArg with
      | some i => (tryAllSwallow (call eng (ECall.setGpu i))).1
      | none => ([] : List Event)), [], ExitStatus.exited 2⟩ := by
  unfold MethodB.main
  simp only [hr, hl, hde, Bool.not_true, Bool.false_eq_true, if_false,
    if_true]

theorem mainB_scans1 (eng : Engine) (w : MethodB.World) (f_px : Rat)
    (hr : w.rootExists = true) (hl : w.listExists = true)
    (hde : (read_dates w.listLines).isEmpty = false)
    (hsc : (MethodB.find_scans w.rootEntries
      (read_dates w.listLines)).isEmpty = true) :
    MethodB.main eng w f_px =
      ⟨(match w.gpuArg with
      | some i => (tryAllSwallow (call eng (ECall.setGpu i))).1
      | none => ([] : List Event)), [], ExitStatus.exited 1⟩ := by
  unfold MethodB.main
  simp only [hr, hl, hde, hsc, Bool.not_true, Bool.false_eq_true,
    if_false, if_true]

theorem mainB_crash (eng : Engine) (w : MethodB.World) (f_px : Rat)
    (e : PyErr)
    (hr : w.rootExists = true) (hl : w.listExists = true)
    (hde : (read_dates w.listLines).isEmpty = false)
    (hsc : (MethodB.find_scans w.rootEntries
      (read_dates w.listLines)).isEmpty = false)
    (hcr : (runLoop (fun s => MethodB.process_scan eng s f_px
      (MethodB.World.hasCrs w)) (MethodB.find_scans w.rootEntries
      (read_dates w.listLines))).2.2 = some e) :
    MethodB.main eng w f_px =
      ⟨(match w.gpuArg with
      | some i => (tryAllSwallow (call eng (ECall.setGpu i))).1
      | none => ([] : List Event)) ++ (runLoop (fun s => MethodB.process_scan eng s f_px
      (MethodB.World.hasCrs w)) (MethodB.find_scans w.rootEntries
      (read_dates w.listLines))).1,
        (runLoop (fun s => MethodB.process_scan eng s f_px
      (MethodB.World.hasCrs w)) (MethodB.find_scans w.rootEntries
      (read_dates w.listLines))).2.1, ExitStatus.crashed e⟩ := by
  unfold MethodB.main
  simp only [hr, hl, hde, hsc, hcr, Bool.not_true, Bool.false_eq_true,
    if_false, if_true]

theorem mainB_done1 (eng : Engine) (w : MethodB.World) (f_px : Rat)
    (hr : w.rootExists = true) (hl : w.listExists = true)
    (hde : (read_dates w.listLines).isEmpty = false)
    (hsc : (MethodB.find_scans w.rootEntries
      (read_dates w.listLines)).isEmpty = false)
    (hcr : (runLoop (fun s => MethodB.process_scan eng s f_px
      (MethodB.World.hasCrs w)) (MethodB.find_scans w.rootEntries
      (read_dates w.listLines))).2.2 = none)
    (h0 : ((runLoop (fun s => MethodB.process_scan eng s f_px
      (MethodB.World.hasCrs w)) (MethodB.find_scans w.rootEntries
      (read_dates w.listLines))).2.1.filter (fun r => r.1 = "ok")).length = 0) :
    MethodB.main eng w f_px =
      ⟨(match w.gpuArg with
      | some i => (tryAllSwallow (call eng (ECall.setGpu i))).1
      | none => ([] : List Event)) ++ (runLoop (fun s => MethodB.process_scan eng s f_px
      (MethodB.World.hasCrs w)) (MethodB.find_scans w.rootEntries
      (read_dates w.listLines))).1,
        (runLoop (fun s => MethodB.process_scan eng s f_px
      (MethodB.World.hasCrs w)) (MethodB.find_scans w.rootEntries
      (read_dates w.listLines))).2.1, ExitStatus.exited 1⟩ := by
  unfold MethodB.main
  simp only [hr, hl, hde, hsc, hcr, h0, Bool.not_true,
    Bool.false_eq_true, if_false, if_true]

theorem mainB_done0 (eng : Engine) (w : MethodB.World) (f_px : Rat)
    (hr : w.rootExists = true) (hl : w.listExists = true)
    (hde : (read_dates w.listLines).isEmpty = false)
    (hsc : (MethodB.find_scans w.rootEntries
      (read_dates w.listLines)).isEmpty = false)
    (hcr : (runLoop (fun s => MethodB.process_scan eng s f_px
      (MethodB.World.hasCrs w)) (MethodB.find_scans w.rootEntries
      (read_dates w.listLines))).2.2 = none)
    (h0 : ¬ ((runLoop (fun s => MethodB.process_scan eng s f_px
      (MethodB.World.hasCrs w)) (MethodB.find_scans w.rootEntries
      (read_dates w.listLines))).2.1.filter (fun r => r.1 = "ok")).length = 0) :
    MethodB.main eng w f_px =
      ⟨(match w.gpuArg with
      | some i => (tryAllSwallow (call eng (ECall.setGpu i))).1
      | none => ([] : List Event)) ++ (runLoop (fun s => MethodB.process_scan eng s f_px
      (MethodB.World.hasCrs w)) (MethodB.find_scans w.rootEntries
      (read_dates w.listLines))).1,
        (runLoop (fun s => MethodB.process_scan eng s f_px
      (MethodB.World.hasCrs w)) (MethodB.find_scans w.rootEntries
      (read_dates w.listLines))).2.1, ExitStatus.exited 0⟩ := by
  unfold MethodB.main
  simp only [hr, hl, hde, hsc, hcr, Bool.not_true, Bool.false_eq_true,
    if_false, if_true]
  rw [if_neg h0]

theorem mainA_root2 (eng : Engine) (w : MethodA.World)
    (hr : w.rootExists = false) :
    MethodA.main eng w = ⟨[], [], ExitStatus.exited 2⟩ := by
  unfold MethodA.main
  simp only [hr, Bool.not_false, if_true]

theorem mainA_list2 (eng : Engine) (w : MethodA.World)
    (hr : w.rootExists = true) (hl : w.listExists = false) :
    MethodA.main eng w = ⟨[], [], ExitStatus.exited 2⟩ := by
  unfold MethodA.main
  simp only [hr, hl, Bool.not_true, Bool.not_false, Bool.false_eq_true,
    if_false, if_true]

theorem mainA_dates2 (eng : Engine) (w : MethodA.World)
    (hr : w.rootExists = true) (hl : w.listExists = true)
    (hde : (read_dates w.listLines).isEmpty = true) :
    MethodA.main eng w = ⟨[], [], ExitStatus.exited 2⟩ := by
  unfold MethodA.main
  simp only [hr, hl, hde, Bool.not_true, Bool.false_eq_true, if_false,
    if_true]

theorem mainA_scans1 (eng : Engine) (w : MethodA.World)
    (hr : w.rootExists = true) (hl : w.listExists = true)
    (hde : (read_dates w.listLines).isEmpty = false)
    (hsc : (MethodA.find_scans w.rootEntries
      (read_dates w.listLines)).isEmpty = true) :
    MethodA.main eng w = ⟨[], [], ExitStatus.exited 1⟩ := by
  unfold MethodA.main
  simp only [hr, hl, hde, hsc, Bool.not_true, Bool.false_eq_true,
    if_false, if_true]

theorem mainA_crash (eng : Engine) (w : MethodA.World) (e : PyErr)
    (hr : w.rootExists = true) (hl : w.listExists = true)
    (hde : (read_dates w.listLines).isEmpty = false)
    (hsc : (MethodA.find_scans w.rootEntries
      (read_dates w.listLines)).isEmpty = false)
    (hcr : (runLoop (fun s => MethodA.process_scan eng s
      (MethodA.World.hasCrs w) w.gpuArg w.xmlGlob w.keyLimit w.tieLimit
      w.keepKeypoints w.keepDepth w.keepMatches)
      (MethodA.find_scans w.rootEntries (read_dates w.listLines))).2.2 = some e) :
    MethodA.main eng w =
      ⟨(runLoop (fun s => MethodA.process_scan eng s
      (MethodA.World.hasCrs w) w.gpuArg w.xmlGlob w.keyLimit w.tieLimit
      w.keepKeypoints w.keepDepth w.keepMatches)
      (MethodA.find_scans w.rootEntries (read_dates w.listLines))).1, (runLoop (fun s => MethodA.process_scan eng s
      (MethodA.World.hasCrs w) w.gpuArg w.xmlGlob w.keyLimit w.tieLimit
      w.keepKeypoints w.keepDepth w.keepMatches)
      (MethodA.find_scans w.rootEntries (read_dates w.listLines))).2.1, ExitStatus.crashed e⟩ := by
  unfold MethodA.main
  simp only [hr, hl, hde, hsc, hcr, Bool.not_true, Bool.false_eq_true,
    if_false, if_true]

theorem mainA_done1 (eng : Engine) (w : MethodA.World)
    (hr : w.rootExists = true) (hl : w.listExists = true)
    (hde : (read_dates w.listLines).isEmpty = false)
    (hsc : (MethodA.find_scans w.rootEntries
      (read_dates w.listLines)).isEmpty = false)
    (hcr : (runLoop (fun s => MethodA.process_scan eng s
      (MethodA.World.hasCrs w) w.gpuArg w.xmlGlob w.keyLimit w.tieLimit
      w.keepKeypoints w.keepDepth w.keepMatches)
      (MethodA.find_scans w.rootEntries (read_dates w.listLines))).2.2 = none)
    (h0 : ((runLoop (fun s => MethodA.process_scan eng s
      (MethodA.World.hasCrs w) w.gpuArg w.xmlGlob w.keyLimit w.tieLimit
      w.keepKeypoints w.keepDepth w.keepMatches)
      (MethodA.find_scans w.rootEntries (read_dates w.listLines))).2.1.filter (fun r => r.1 = "ok")).length = 0) :
    MethodA.main eng w =
      ⟨(runLoop (fun s => MethodA.process_scan eng s
      (MethodA.World.hasCrs w) w.gpuArg w.xmlGlob w.keyLimit w.tieLimit
      w.keepKeypoints w.keepDepth w.keepMatches)
      (MethodA.find_scans w.rootEntries (read_dates w.listLines))).1, (runLoop (fun s => MethodA.process_scan eng s
      (MethodA.World.hasCrs w) w.gpuArg w.xmlGlob w.keyLimit w.tieLimit
      w.keepKeypoints w.keepDepth w.keepMatches)
      (MethodA.find_scans w.rootEntries (read_dates w.listLines))).2.1, ExitStatus.exited 1⟩ := by
  unfold MethodA.main
  simp only [hr, hl, hde, hsc, hcr, h0, Bool.not_true,
    Bool.false_eq_true, if_false, if_true]

theorem mainA_done0 (eng : Engine) (w : MethodA.World)
    (hr : w.rootExists = true) (hl : w.listExists = true)
    (hde : (read_dates w.listLines).isEmpty = false)
    (hsc : (MethodA.find_scans w.rootEntries
      (read_dates w.listLines)).isEmpty = false)
    (hcr : (runLoop (fun s => MethodA.process_scan eng s
      (MethodA.World.hasCrs w) w.gpuArg w.xmlGlob w.keyLimit w.tieLimit
      w.keepKeypoints w.keepDepth w.keepMatches)
      (MethodA.find_scans w.rootEntries (read_dates w.listLines))).2.2 = none)
    (h0 : ¬ ((runLoop (fun s => MethodA.process_scan eng s
      (MethodA.World.hasCrs w) w.gpuArg w.xmlGlob w.keyLimit w.tieLimit
      w.keepKeypoints w.keepDepth w.keepMatches)
      (MethodA.find_scans w.rootEntries (read_dates w.listLines))).2.1.filter (fun r => r.1 = "ok")).length = 0) :
    MethodA.main eng w =
      ⟨(runLoop (fun s => MethodA.process_scan eng s
      (MethodA.World.hasCrs w) w.gpuArg w.xmlGlob w.keyLimit w.tieLimit
      w.keepKeypoints w.keepDepth w.keepMatches)
      (MethodA.find_scans w.rootEntries (read_dates w.listLines))).1, (runLoop (fun s => MethodA.process_scan eng s
      (MethodA.World.hasCrs w) w.gpuArg w.xmlGlob w.keyLimit w.tieLimit
      w.keepKeypoints w.keepDepth w.keepMatches)
      (MethodA.find_scans w.rootEntries (read_dates w.listLines))).2.1, ExitStatus.exited 0⟩ := by
  unfold MethodA.main
  simp only [hr, hl, hde, hsc, hcr, Bool.not_true, Bool.false_eq_true,
    if_false, if_true]
  rw [if_neg h0]


/-- C1 (amended): only validation failures are isolated.  A unit whose
validation fails yields an ordinary `fail` result with a human-readable
reason and no exception, and the loop proceeds: a completed (exception
free) unit, failed or not, appends its result and the loop continues
with the remaining units; when every unit completes, every unit is
processed.  But an uncaught exception in one unit stops the loop at
once: the remaining units are never processed and the failing unit gets
no result, deviating from the claim. -/
theorem claim_C1 (eng : Engine) (f_px : Rat) (hasCrs : Bool)
    (step : ScanDir → M (String × String)) (ds : List ScanDir)
    (d : ScanDir) (rest : List ScanDir) :
    (∀ r, MethodB.validationError d = some r →
      (MethodB.process_scan eng d f_px hasCrs).2 =
        Except.ok ("fail", r)) ∧
    (∀ glob gpu kl tl kk kd km r,
      MethodA.validationError d glob = some r →
      (MethodA.process_scan eng d hasCrs gpu glob kl tl kk kd km).2 =
        Except.ok ("fail", r)) ∧
    ((∀ x ∈ ds, ∃ r, (step x).2 = Except.ok r) →
      (runLoop step ds).2.1.length = ds.length ∧
        (runLoop step ds).2.2 = none) ∧
    (∀ t r, step d = (t, Except.ok r) →
      runLoop step (d :: rest) =
        (t ++ (runLoop step rest).1, r :: (runLoop step rest).2.1,
          (runLoop step rest).2.2)) ∧
    (∀ t e, step d = (t, Except.error e) →
      runLoop step (d :: rest) = (t, [], some e)) := by
  refine ⟨?_, ?_, ?_, ?_, ?_⟩
  · intro r hval
    rw [processB_validation_fail hval eng f_px hasCrs]
  · intro glob gpu kl tl kk kd km r hval
    exact (processA_validation_fail hval eng hasCrs gpu kl tl kk kd
      km).1
  · intro hall
    induction ds with
    | nil => exact ⟨rfl, rfl⟩
    | cons x xs ih =>
      obtain ⟨r, hr⟩ := hall x (List.mem_cons_self x xs)
      have hrec := ih (fun y hy => hall y (List.mem_cons_of_mem x hy))
      cases hstep : step x with
      | mk t res =>
        rw [hstep] at hr
        cases res with
        | error e => cases hr
        | ok r2 =>
          simp only [runLoop, hstep]
          exact ⟨by simp [hrec.1], hrec.2⟩
  · intro t r hstep
    simp only [runLoop, hstep]
  · intro t e hstep
    simp only [runLoop, hstep]

/-- C1 counterexample: with two valid scan folders and an engine whose
`alignCameras` raises an operation error, the first unit's exception
escapes the loop: the batch terminates by traceback (`crashed`), no
`fail` result is recorded for the failing unit, and the second unit is
never processed, although two scan folders had been found. -/
theorem claim_C1_counterexample :
    (MethodB.main crashAlignEngine
        ⟨true, true, ["20240101T000000"],
          [⟨"20240101T000000__A__DISC3D", true,
              [⟨"u__edof", true, ["p.png"]⟩], ["c__CamPos.txt"], [],
              false⟩,
            ⟨"20240101T000000__B__DISC3D", true,
              [⟨"u__edof", true, ["p.png"]⟩], ["c__CamPos.txt"], [],
              false⟩],
          false, false, "", none⟩ 1).status =
      ExitStatus.crashed (PyErr.otherError "boom") ∧
    (MethodB.main crashAlignEngine
        ⟨true, true, ["20240101T000000"],
          [⟨"20240101T000000__A__DISC3D", true,
              [⟨"u__edof", true, ["p.png"]⟩], ["c__CamPos.txt"], [],
              false⟩,
            ⟨"20240101T000000__B__DISC3D", true,
              [⟨"u__edof", true, ["p.png"]⟩], ["c__CamPos.txt"], [],
              false⟩],
          false, false, "", none⟩ 1).results = [] ∧
    (MethodB.find_scans
        [⟨"20240101T000000__A__DISC3D", true,
            [⟨"u__edof", true, ["p.png"]⟩], ["c__CamPos.txt"], [],
            false⟩,
          ⟨"20240101T000000__B__DISC3D", true,
            [⟨"u__edof", true, ["p.png"]⟩], ["c__CamPos.txt"], [],
            false⟩]
        (read_dates ["20240101T000000"])).length = 2 :=
  ⟨by decide, by decide, by decide⟩

/-- C6 (amended): exit code 2 on a missing root, a missing list file or
an empty timestamp list, with no unit processed.  When no exception
escapes a unit, the exit code is 0 exactly when some unit reported
`ok`, and (configuration being valid) 1 exactly when none did.  An
escaped exception however terminates the run as a crash (traceback, no
`sys.exit` code), even when a unit had already succeeded, deviating
from the claimed `exit 0 iff at least one success`. -/
theorem claim_C6 (eng : Engine) (w : MethodB.World) (w2 : MethodA.World)
    (f_px : Rat) :
    (w.rootExists = false →
      (MethodB.main eng w f_px).status = ExitStatus.exited 2 ∧
        (MethodB.main eng w f_px).results = []) ∧
    (w.listExists = false →
      (MethodB.main eng w f_px).status = ExitStatus.exited 2 ∧
        (MethodB.main eng w f_px).results = []) ∧
    ((read_dates w.listLines).isEmpty = true →
      (MethodB.main eng w f_px).status = ExitStatus.exited 2 ∧
        (MethodB.main eng w f_px).results = []) ∧
    ((∀ e, (MethodB.main eng w f_px).status ≠ ExitStatus.crashed e) →
      ((MethodB.main eng w f_px).status = ExitStatus.exited 0 ↔
        ∃ r ∈ (MethodB.main eng w f_px).results, r.1 = "ok")) ∧
    (w.rootExists = true → w.listExists = true →
      (read_dates w.listLines).isEmpty = false →
      (∀ e, (MethodB.main eng w f_px).status ≠ ExitStatus.crashed e) →
      ((MethodB.main eng w f_px).status = ExitStatus.exited 1 ↔
        ¬ ∃ r ∈ (MethodB.main eng w f_px).results, r.1 = "ok")) ∧
    (w2.rootExists = false →
      (MethodA.main eng w2).status = ExitStatus.exited 2 ∧
        (MethodA.main eng w2).results = []) ∧
    (w2.listExists = false →
      (MethodA.main eng w2).status = ExitStatus.exited 2 ∧
        (MethodA.main eng w2).results = []) ∧
    ((read_dates w2.listLines).isEmpty = true →
      (MethodA.main eng w2).status = ExitStatus.exited 2 ∧
        (MethodA.main eng w2).results = []) ∧
    ((∀ e, (MethodA.main eng w2).status ≠ ExitStatus.crashed e) →
      ((MethodA.main eng w2).status = ExitStatus.exited 0 ↔
        ∃ r ∈ (MethodA.main eng w2).results, r.1 = "ok")) ∧
    (w2.rootExists = true → w2.listExists = true →
      (read_dates w2.listLines).isEmpty = false →
      (∀ e, (MethodA.main eng w2).status ≠ ExitStatus.crashed e) →
      ((MethodA.main eng w2).status = ExitStatus.exited 1 ↔
        ¬ ∃ r ∈ (MethodA.main eng w2).results, r.1 = "ok")) := by
  have hexB : ∀ tr res st, (⟨tr, res, st⟩ : BatchResult).status = st ∧
      (⟨tr, res, st⟩ : BatchResult).results = res :=
    fun _ _ _ => ⟨rfl, rfl⟩
  refine ⟨?_, ?_, ?_, ?_, ?_, ?_, ?_, ?_, ?_, ?_⟩
  · intro hr
    rw [mainB_root2 eng w f_px hr]
    exact ⟨rfl, rfl⟩
  · intro hl
    cases hr : w.rootExists with
    | false =>
      rw [mainB_root2 eng w f_px hr]
      exact ⟨rfl, rfl⟩
    | true =>
      rw [mainB_list2 eng w f_px hr hl]
      exact ⟨rfl, rfl⟩
  · intro hde
    cases hr : w.rootExists with
    | false =>
      rw [mainB_root2 eng w f_px hr]
      exact ⟨rfl, rfl⟩
    | true =>
      cases hl : w.listExists with
      | false =>
        rw [mainB_list2 eng w f_px hr hl]
        exact ⟨rfl, rfl⟩
      | true =>
        rw [mainB_dates2 eng w f_px hr hl hde]
        exact ⟨rfl, rfl⟩
  · intro hnc
    cases hr : w.rootExists with
    | false =>
      rw [mainB_root2 eng w f_px hr]
      constructor
      · intro hx
        exact absurd (show ExitStatus.exited 2 = ExitStatus.exited 0 from hx) (by decide)
      · rintro ⟨r, hr2, _⟩
        exact absurd hr2 (List.not_mem_nil r)
    | true =>
      cases hl : w.listExists with
      | false =>
        rw [mainB_list2 eng w f_px hr hl]
        constructor
        · intro hx
          exact absurd (show ExitStatus.exited 2 = ExitStatus.exited 0 from hx) (by decide)
        · rintro ⟨r, hr2, _⟩
          exact absurd hr2 (List.not_mem_nil r)
      | true =>
        cases hde : (read_dates w.listLines).isEmpty with
        | true =>
          rw [mainB_dates2 eng w f_px hr hl hde]
          constructor
          · intro hx
            exact absurd (show ExitStatus.exited 2 = ExitStatus.exited 0 from hx) (by decide)
          · rintro ⟨r, hr2, _⟩
            exact absurd hr2 (List.not_mem_nil r)
        | false =>
          cases hsc : (MethodB.find_scans w.rootEntries
            (read_dates w.listLines)).isEmpty with
          | true =>
            rw [mainB_scans1 eng w f_px hr hl hde hsc]
            constructor
            · intro hx
              exact absurd (show ExitStatus.exited 1 = ExitStatus.exited 0 from hx) (by decide)
            · rintro ⟨r, hr2, _⟩
              exact absurd hr2 (List.not_mem_nil r)
          | false =>
            cases hcr : (runLoop (fun s => MethodB.process_scan eng s
                f_px (MethodB.World.hasCrs w))
                (MethodB.find_scans w.rootEntries
                  (read_dates w.listLines))).2.2 with
            | some e =>
              exact absurd (by
                rw [mainB_crash eng w f_px e hr hl hde hsc hcr]) (hnc e)
            | none =>
              by_cases h0 : ((runLoop (fun s => MethodB.process_scan
                  eng s f_px (MethodB.World.hasCrs w))
                  (MethodB.find_scans w.rootEntries
                    (read_dates w.listLines))).2.1.filter
                  (fun r => r.1 = "ok")).length = 0
              · rw [mainB_done1 eng w f_px hr hl hde hsc hcr h0]
                constructor
                · intro hx
                  exact absurd (show ExitStatus.exited 1 = ExitStatus.exited 0 from hx) (by decide)
                · rintro ⟨r, hmem, hok⟩
                  have hin : r ∈ (runLoop (fun s =>
                      MethodB.process_scan eng s f_px
                      (MethodB.World.hasCrs w))
                      (MethodB.find_scans w.rootEntries
                        (read_dates w.listLines))).2.1.filter
                      (fun x => x.1 = "ok") :=
                    List.mem_filter.mpr ⟨hmem, decide_eq_true hok⟩
                  exact absurd (List.length_eq_zero.mp h0)
                    (List.ne_nil_of_mem hin)
              · rw [mainB_done0 eng w f_px hr hl hde hsc hcr h0]
                constructor
                · intro _
                  have hne : (runLoop (fun s => MethodB.process_scan
                      eng s f_px (MethodB.World.hasCrs w))
                      (MethodB.find_scans w.rootEntries
                        (read_dates w.listLines))).2.1.filter
                      (fun x => x.1 = "ok") ≠ [] := by
                    intro hnil
                    exact h0 (by rw [hnil]; rfl)
                  obtain ⟨x, hx⟩ := List.exists_mem_of_ne_nil _ hne
                  have hx2 := List.mem_filter.mp hx
                  exact ⟨x, hx2.1, of_decide_eq_true hx2.2⟩
                · intro _
                  rfl
  · intro hr hl hde hnc
    cases hsc : (MethodB.find_scans w.rootEntries
      (read_dates w.listLines)).isEmpty with
    | true =>
      rw [mainB_scans1 eng w f_px hr hl hde hsc]
      constructor
      · intro _
        rintro ⟨r, hr2, _⟩
        exact absurd hr2 (List.not_mem_nil r)
      · intro _
        rfl
    | false =>
      cases hcr : (runLoop (fun s => MethodB.process_scan eng s
          f_px (MethodB.World.hasCrs w))
          (MethodB.find_scans w.rootEntries
            (read_dates w.listLines))).2.2 with
      | some e =>
        exact absurd (by
          rw [mainB_crash eng w f_px e hr hl hde hsc hcr]) (hnc e)
      | none =>
        by_cases h0 : ((runLoop (fun s => MethodB.process_scan
            eng s f_px (MethodB.World.hasCrs w))
            (MethodB.find_scans w.rootEntries
              (read_dates w.listLines))).2.1.filter
            (fun r => r.1 = "ok")).length = 0
        · rw [mainB_done1 eng w f_px hr hl hde hsc hcr h0]
          constructor
          · intro _
            rintro ⟨r, hmem, hok⟩
            have hin : r ∈ (runLoop (fun s =>
                MethodB.process_scan eng s f_px
                (MethodB.World.hasCrs w))
                (MethodB.find_scans w.rootEntries
                  (read_dates w.listLines))).2.1.filter
                (fun x => x.1 = "ok") :=
              List.mem_filter.mpr ⟨hmem, decide_eq_true hok⟩
            exact absurd (List.length_eq_zero.mp h0)
              (List.ne_nil_of_mem hin)
          · intro _
            rfl
        · rw [mainB_done0 eng w f_px hr hl hde hsc hcr h0]
          constructor
          · intro hx
            exact absurd (show ExitStatus.exited 0 = ExitStatus.exited 1 from hx) (by decide)
          · intro hnot
            exfalso
            apply hnot
            have hne : (runLoop (fun s => MethodB.process_scan
                eng s f_px (MethodB.World.hasCrs w))
                (MethodB.find_scans w.rootEntries
                  (read_dates w.listLines))).2.1.filter
                (fun x => x.1 = "ok") ≠ [] := by
              intro hnil
              exact h0 (by rw [hnil]; rfl)
            obtain ⟨x, hx⟩ := List.exists_mem_of_ne_nil _ hne
            have hx2 := List.mem_filter.mp hx
            exact ⟨x, hx2.1, of_decide_eq_true hx2.2⟩
  · intro hr
    rw [mainA_root2 eng w2 hr]
    exact ⟨rfl, rfl⟩
  · intro hl
    cases hr : w2.rootExists with
    | false =>
      rw [mainA_root2 eng w2 hr]
      exact ⟨rfl, rfl⟩
    | true =>
      rw [mainA_list2 eng w2 hr hl]
      exact ⟨rfl, rfl⟩
  · intro hde
    cases hr : w2.rootExists with
    | false =>
      rw [mainA_root2 eng w2 hr]
      exact ⟨rfl, rfl⟩
    | true =>
      cases hl : w2.listExists with
      | false =>
        rw [mainA_list2 eng w2 hr hl]
        exact ⟨rfl, rfl⟩
      | true =>
        rw [mainA_dates2 eng w2 hr hl hde]
        exact ⟨rfl, rfl⟩
  · intro hnc
    cases hr : w2.rootExists with
    | false =>
      rw [mainA_root2 eng w2 hr]
      constructor
      · intro hx
        exact absurd (show ExitStatus.exited 2 = ExitStatus.exited 0 from hx) (by decide)
      · rintro ⟨r, hr2, _⟩
        exact absurd hr2 (List.not_mem_nil r)
    | true =>
      cases hl : w2.listExists with
      | false =>
        rw [mainA_list2 eng w2 hr hl]
        constructor
        · intro hx
          exact absurd (show ExitStatus.exited 2 = ExitStatus.exited 0 from hx) (by decide)
        · rintro ⟨r, hr2, _⟩
          exact absurd hr2 (List.not_mem_nil r)
      | true =>
        cases hde : (read_dates w2.listLines).isEmpty with
        | true =>
          rw [mainA_dates2 eng w2 hr hl hde]
          constructor
          · intro hx
            exact absurd (show ExitStatus.exited 2 = ExitStatus.exited 0 from hx) (by decide)
          · rintro ⟨r, hr2, _⟩
            exact absurd hr2 (List.not_mem_nil r)
        | false =>
          cases hsc : (MethodA.find_scans w2.rootEntries
            (read_dates w2.listLines)).isEmpty with
          | true =>
            rw [mainA_scans1 eng w2 hr hl hde hsc]
            constructor
            · intro hx
              exact absurd (show ExitStatus.exited 1 = ExitStatus.exited 0 from hx) (by decide)
            · rintro ⟨r, hr2, _⟩
              exact absurd hr2 (List.not_mem_nil r)
          | false =>
            cases hcr : (runLoop (fun s => MethodA.process_scan eng s
                (MethodA.World.hasCrs w2) w2.gpuArg w2.xmlGlob
                w2.keyLimit w2.tieLimit w2.keepKeypoints w2.keepDepth
                w2.keepMatches)
                (MethodA.find_scans w2.rootEntries
                  (read_dates w2.listLines))).2.2 with
            | some e =>
              exact absurd (by
                rw [mainA_crash eng w2 e hr hl hde hsc hcr]) (hnc e)
            | none =>
              by_cases h0 : ((runLoop (fun s => MethodA.process_scan
                  eng s (MethodA.World.hasCrs w2) w2.gpuArg w2.xmlGlob
                  w2.keyLimit w2.tieLimit w2.keepKeypoints w2.keepDepth
                  w2.keepMatches)
                  (MethodA.find_scans w2.rootEntries
                    (read_dates w2.listLines))).2.1.filter
                  (fun r => r.1 = "ok")).length = 0
              · rw [mainA_done1 eng w2 hr hl hde hsc hcr h0]
                constructor
                · intro hx
                  exact absurd (show ExitStatus.exited 1 = ExitStatus.exited 0 from hx) (by decide)
                · rintro ⟨r, hmem, hok⟩
                  have hin : r ∈ (runLoop (fun s =>
                      MethodA.process_scan eng s
                      (MethodA.World.hasCrs w2) w2.gpuArg w2.xmlGlob
                      w2.keyLimit w2.tieLimit w2.keepKeypoints
                      w2.keepDepth w2.keepMatches)
                      (MethodA.find_scans w2.rootEntries
                        (read_dates w2.listLines))).2.1.filter
                      (fun x => x.1 = "ok") :=
                    List.mem_filter.mpr ⟨hmem, decide_eq_true hok⟩
                  exact absurd (List.length_eq_zero.mp h0)
                    (List.ne_nil_of_mem hin)
              · rw [mainA_done0 eng w2 hr hl hde hsc hcr h0]
                constructor
                · intro _
                  have hne : (runLoop (fun s => MethodA.process_scan
                      eng s (MethodA.World.hasCrs w2) w2.gpuArg
                      w2.xmlGlob w2.keyLimit w2.tieLimit
                      w2.keepKeypoints w2.keepDepth w2.keepMatches)
                      (MethodA.find_scans w2.rootEntries
                        (read_dates w2.listLines))).2.1.filter
                      (fun x => x.1 = "ok") ≠ [] := by
                    intro hnil
                    exact h0 (by rw [hnil]; rfl)
                  obtain ⟨x, hx⟩ := List.exists_mem_of_ne_nil _ hne
                  have hx2 := List.mem_filter.mp hx
                  exact ⟨x, hx2.1, of_decide_eq_true hx2.2⟩
                · intro _
                  rfl
  · intro hr hl hde hnc
    cases hsc : (MethodA.find_scans w2.rootEntries
      (read_dates w2.listLines)).isEmpty with
    | true =>
      rw [mainA_scans1 eng w2 hr hl hde hsc]
      constructor
      · intro _
        rintro ⟨r, hr2, _⟩
        exact absurd hr2 (List.not_mem_nil r)
      · intro _
        rfl
    | false =>
      cases hcr : (runLoop (fun s => MethodA.process_scan eng s
          (MethodA.World.hasCrs w2) w2.gpuArg w2.xmlGlob w2.keyLimit
          w2.tieLimit w2.keepKeypoints w2.keepDepth w2.keepMatches)
          (MethodA.find_scans w2.rootEntries
            (read_dates w2.listLines))).2.2 with
      | some e =>
        exact absurd (by
          rw [mainA_crash eng w2 e hr hl hde hsc hcr]) (hnc e)
      | none =>
        by_cases h0 : ((runLoop (fun s => MethodA.process_scan
            eng s (MethodA.World.hasCrs w2) w2.gpuArg w2.xmlGlob
            w2.keyLimit w2.tieLimit w2.keepKeypoints w2.keepDepth
            w2.keepMatches)
            (MethodA.find_scans w2.rootEntries
              (read_dates w2.listLines))).2.1.filter
            (fun r => r.1 = "ok")).length = 0
        · rw [mainA_done1 eng w2 hr hl hde hsc hcr h0]
          constructor
          · intro _
            rintro ⟨r, hmem, hok⟩
            have hin : r ∈ (runLoop (fun s =>
                MethodA.process_scan eng s (MethodA.World.hasCrs w2)
                w2.gpuArg w2.xmlGlob w2.keyLimit w2.tieLimit
                w2.keepKeypoints w2.keepDepth w2.keepMatches)
                (MethodA.find_scans w2.rootEntries
                  (read_dates w2.listLines))).2.1.filter
                (fun x => x.1 = "ok") :=
              List.mem_filter.mpr ⟨hmem, decide_eq_true hok⟩
            exact absurd (List.length_eq_zero.mp h0)
              (List.ne_nil_of_mem hin)
          · intro _
            rfl
        · rw [mainA_done0 eng w2 hr hl hde hsc hcr h0]
          constructor
          · intro hx
            exact absurd (show ExitStatus.exited 0 = ExitStatus.exited 1 from hx) (by decide)
          · intro hnot
            exfalso
            apply hnot
            have hne : (runLoop (fun s => MethodA.process_scan
                eng s (MethodA.World.hasCrs w2) w2.gpuArg w2.xmlGlob
                w2.keyLimit w2.tieLimit w2.keepKeypoints w2.keepDepth
                w2.keepMatches)
                (MethodA.find_scans w2.rootEntries
                  (read_dates w2.listLines))).2.1.filter
                (fun x => x.1 = "ok") ≠ [] := by
              intro hnil
              exact h0 (by rw [hnil]; rfl)
            obtain ⟨x, hx⟩ := List.exists_mem_of_ne_nil _ hne
            have hx2 := List.mem_filter.mp hx
            exact ⟨x, hx2.1, of_decide_eq_true hx2.2⟩

/-- C6 counterexample: two valid scan folders, the first fully succeeds,
the second raises in `addPhotos`; the run terminates as a crash, not
with exit code 0, although at least one unit succeeded. -/
theorem claim_C6_counterexample :
    (MethodB.main diskFullEngine
        ⟨true, true, ["20240101T000000"],
          [⟨"20240101T000000__A__DISC3D", true,
              [⟨"u__edof", true, ["p.png"]⟩], ["c__CamPos.txt"], [],
              false⟩,
            ⟨"20240101T000000__B__DISC3D", true,
              [⟨"u__edof", true, ["q.png"]⟩], ["c__CamPos.txt"], [],
              false⟩],
          false, false, "", none⟩ 1).status =
      ExitStatus.crashed (PyErr.otherError "disk full") ∧
    ∃ r ∈ (MethodB.main diskFullEngine
        ⟨true, true, ["20240101T000000"],
          [⟨"20240101T000000__A__DISC3D", true,
              [⟨"u__edof", true, ["p.png"]⟩], ["c__CamPos.txt"], [],
              false⟩,
            ⟨"20240101T000000__B__DISC3D", true,
              [⟨"u__edof", true, ["q.png"]⟩], ["c__CamPos.txt"], [],
              false⟩],
          false, false, "", none⟩ 1).results, r.1 = "ok" :=
  ⟨by decide, by decide⟩

/-- Process-level fit-mask discipline for Method B (see
`enginePhaseB_split`). -/
theorem processB_split (eng : Engine) (d : ScanDir) (f_px : Rat)
    (hasCrs : Bool) :
    ∃ A B,
      (MethodB.process_scan eng d f_px hasCrs).1 = A ++ B ∧
        (∀ e ∈ A, Event.isMatchAlign e = false) ∧
        (∀ e ∈ B, Event.isCalibMut e = false) ∧
        ((∃ e ∈ A ++ B, Event.isMatchAlign e = true) →
          Event.setUserCalib (MethodB.mkCal eng f_px) ∈ A ∧
            Event.setCalibration (MethodB.mkCal eng f_px) ∈ A ∧
            Event.setFixedCalibration false ∈ A) := by
  cases hval : MethodB.validationError d with
  | some r =>
    rw [processB_validation_fail hval eng f_px hasCrs]
    refine ⟨[], [], rfl, fun e he => absurd he (List.not_mem_nil e),
      fun e he => absurd he (List.not_mem_nil e), ?_⟩
    rintro ⟨e, he, _⟩
    exact absurd he (List.not_mem_nil e)
  | none =>
    obtain ⟨uid, huid, himgs, hcam⟩ := (validationErrorB_none_iff d).mp hval
    rw [processB_validation_ok huid himgs hcam eng f_px hasCrs]
    obtain ⟨A', B', hsplit, hA, hB, himp⟩ :=
      enginePhaseB_split eng f_px hasCrs (imgsOf d uid)
        (d.camposFiles.headD "")
        ("models/" ++ (MethodB.get_uid_and_dataset d).2 ++ ".psz")
        ("models/" ++ (MethodB.get_uid_and_dataset d).2 ++
          "_Calibrated_Cameras_" ++ uid ++ "_" ++
          String.mk (takeUntilSub "__".toList
            (MethodB.get_uid_and_dataset d).2.toList) ++ ".xml")
    refine ⟨Event.mkdirModels :: A', B', ?_, ?_, hB, ?_⟩
    · rw [mbind_of_ok (show (emit Event.mkdirModels).2 = Except.ok ()
        from rfl)]
      show Event.mkdirModels ::
        (MethodB.enginePhase eng f_px hasCrs _ _ _ _).1 = _
      rw [hsplit]
      rfl
    · intro e he
      rcases List.mem_cons.mp he with rfl | h
      · rfl
      · exact hA e h
    · rintro ⟨e, he, hm⟩
      rcases List.mem_append.mp he with h | h
      · rcases List.mem_cons.mp h with rfl | h'
        · cases hm
        · rw [hA e h'] at hm
          cases hm
      · obtain ⟨m1, m2, m3⟩ := himp ⟨e, h, hm⟩
        exact ⟨List.mem_cons_of_mem _ m1, List.mem_cons_of_mem _ m2,
          List.mem_cons_of_mem _ m3⟩

/-- Process-level fit-mask discipline for Method A (see
`enginePhaseA_split`). -/
theorem processA_split (eng : Engine) (d : ScanDir) (hasCrs : Bool)
    (gpu : Option Int) (glob : String) (kl tl : Nat) (kk kd km : Bool) :
    ∃ A B,
      (MethodA.process_scan eng d hasCrs gpu glob kl tl kk kd km).1 =
          A ++ B ∧
        (∀ e ∈ A, Event.isMatchAlign e = false) ∧
        (∀ e ∈ B, Event.isCalibMut e = false) ∧
        ((∃ e ∈ A ++ B, Event.isMatchAlign e = true) →
          eng.sensorsEmpty = false →
          Event.ecall ECall.lockFixedCalibration
            (eng.callResult ECall.lockFixedCalibration) ∈ A) := by
  unfold MethodA.process_scan
  cases huid : (MethodA.get_uid_dataset d).1 with
  | none =>
    simp only [huid]
    refine ⟨[], [], rfl, fun e he => absurd he (List.not_mem_nil e),
      fun e he => absurd he (List.not_mem_nil e), ?_⟩
    rintro ⟨e, he, _⟩
    exact absurd he (List.not_mem_nil e)
  | some uid =>
    simp only [huid]
    cases himgs : (imgsOf d uid).isEmpty with
    | true =>
      simp only [himgs, if_true]
      refine ⟨[], [], rfl, fun e he => absurd he (List.not_mem_nil e),
        fun e he => absurd he (List.not_mem_nil e), ?_⟩
      rintro ⟨e, he, _⟩
      exact absurd he (List.not_mem_nil e)
    | false =>
      simp only [himgs, Bool.false_eq_true, if_false]
      cases hxml : (sortStrings d.modelsXmlMatches).head? with
      | none =>
        simp only [hxml]
        refine ⟨[Event.mkdirModels], [], rfl, ?_,
          fun e he => absurd he (List.not_mem_nil e), ?_⟩
        · intro e he
          rw [List.mem_singleton] at he
          rw [he]
          rfl
        · rintro ⟨e, he, hm⟩
          rw [List.append_nil, List.mem_singleton] at he
          rw [he] at hm
          cases hm
      | some xml =>
        simp only [hxml]
        obtain ⟨A', B', hsplit, hA, hB, himp⟩ :=
          enginePhaseA_split eng hasCrs gpu (imgsOf d uid) xml
            ("models/" ++ (MethodA.get_uid_dataset d).2 ++ ".psz")
            kl tl kk kd km
        refine ⟨Event.mkdirModels :: A', B', ?_, ?_, hB, ?_⟩
        · rw [mbind_of_ok (show (emit Event.mkdirModels).2 = Except.ok ()
            from rfl)]
          show Event.mkdirModels ::
            (MethodA.enginePhaseA eng hasCrs gpu _ _ _ _ _ _ _ _).1 = _
          rw [hsplit]
          rfl
        · intro e he
          rcases List.mem_cons.mp he with rfl | h
          · rfl
          · exact hA e h
        · rintro ⟨e, he, hm⟩
          intro hs
          rcases List.mem_append.mp he with h | h
          · rcases List.mem_cons.mp h with rfl | h'
            · cases hm
            · rw [hA e h'] at hm
              cases hm
          · exact List.mem_cons_of_mem _ (himp ⟨e, h, hm⟩ hs)

/-- Every optimize call of Method B carries the fit-focal-length-only
mask. -/
theorem processB_optMask (eng : Engine) (d : ScanDir) (f_px : Rat)
    (hasCrs : Bool) :
    ∀ e ∈ (MethodB.process_scan eng d f_px hasCrs).1,
      Event.optimizeMaskIs FitMask.fOnly e = true :=
  emitsOnly_processB eng d f_px hasCrs rfl (fun _ => rfl) (fun _ => rfl)
    rfl (fun _ _ => rfl) (fun _ _ => rfl) (fun _ => rfl) rfl rfl rfl rfl
    (fun _ _ _ => rfl) (fun _ _ => rfl) (fun _ _ => rfl) (fun _ => rfl)
    (fun _ => rfl) (fun _ => rfl) (fun _ => rfl) rfl
    (fun _ _ => by simp [Event.optimizeMaskIs])
    (fun _ _ => rfl) (fun _ _ => rfl) (fun _ _ _ => rfl)

/-- Every optimize call of Method A carries the all-flags-false mask. -/
theorem processA_optMask (eng : Engine) (d : ScanDir) (hasCrs : Bool)
    (gpu : Option Int) (glob : String) (kl tl : Nat) (kk kd km : Bool) :
    ∀ e ∈ (MethodA.process_scan eng d hasCrs gpu glob kl tl kk kd km).1,
      Event.optimizeMaskIs FitMask.allFalse e = true :=
  emitsOnly_processA eng d hasCrs gpu glob kl tl kk kd km rfl
    (fun _ => rfl) (fun _ => rfl) rfl (fun _ _ => rfl) (fun _ _ => rfl)
    (fun _ => rfl) (fun _ _ => rfl) (fun _ => rfl) rfl (fun _ _ => rfl)
    (fun _ _ => rfl) (fun _ => rfl) (fun _ => rfl) (fun _ _ => rfl)
    (fun _ _ => rfl)
    (fun _ => by simp [Event.optimizeMaskIs]) (fun _ _ => rfl)
    (fun _ _ => rfl) (fun _ => rfl) (fun _ => rfl) (fun _ => rfl)

/-- C2 (amended): fit-mask discipline of the two calibration policies.
Method B seeds `f` from the caller-supplied constant with every other
intrinsic term zero, and every `optimizeCameras` call it ever issues
carries the fit-f-only mask; Method A only ever issues the all-false
mask (no intrinsic fit flag is true at any step).  In both methods the
trace splits into a prefix holding every calibration-state mutation with
no matching or alignment call, followed by a suffix with no calibration
mutation; when matching happens, the seeding events (Method B) are
already in the prefix, and in Method A the guarded
`fixed_calibration = True` lock ATTEMPT is already in the prefix
whenever the chunk has sensors.  The lock itself is not guaranteed: the
source wraps each per-sensor assignment in `try/except Exception: pass`
(and with no sensors never attempts it), so the lock step always
succeeds as a step even when nothing was locked — the claim's `fit mask
fully set before the first matching call` fails for Method A (see the
counterexample). -/
theorem claim_C2 :
    (∀ (eng : Engine) (f_px : Rat),
      (MethodB.mkCal eng f_px).f = f_px ∧
        (MethodB.mkCal eng f_px).cx = 0 ∧
        (MethodB.mkCal eng f_px).cy = 0 ∧
        (MethodB.mkCal eng f_px).k1 = 0 ∧
        (MethodB.mkCal eng f_px).k2 = 0 ∧
        (MethodB.mkCal eng f_px).k3 = 0 ∧
        (MethodB.mkCal eng f_px).k4 = 0 ∧
        (MethodB.mkCal eng f_px).p1 = 0 ∧
        (MethodB.mkCal eng f_px).p2 = 0 ∧
        (MethodB.mkCal eng f_px).b1 = 0 ∧
        (MethodB.mkCal eng f_px).b2 = 0) ∧
    (∀ (eng : Engine) (d : ScanDir) (f_px : Rat) (hasCrs : Bool),
      ∀ e ∈ (MethodB.process_scan eng d f_px hasCrs).1,
        Event.optimizeMaskIs FitMask.fOnly e = true) ∧
    (∀ (eng : Engine) (d : ScanDir) (f_px : Rat) (hasCrs : Bool),
      ∃ A B,
        (MethodB.process_scan eng d f_px hasCrs).1 = A ++ B ∧
          (∀ e ∈ A, Event.isMatchAlign e = false) ∧
          (∀ e ∈ B, Event.isCalibMut e = false) ∧
          ((∃ e ∈ A ++ B, Event.isMatchAlign e = true) →
            Event.setUserCalib (MethodB.mkCal eng f_px) ∈ A ∧
              Event.setCalibration (MethodB.mkCal eng f_px) ∈ A ∧
              Event.setFixedCalibration false ∈ A)) ∧
    (∀ (eng : Engine) (d : ScanDir) (hasCrs : Bool) (gpu : Option Int)
      (glob : String) (kl tl : Nat) (kk kd km : Bool),
      ∀ e ∈ (MethodA.process_scan eng d hasCrs gpu glob kl tl kk kd km).1,
        Event.optimizeMaskIs FitMask.allFalse e = true) ∧
    (∀ (eng : Engine) (d : ScanDir) (hasCrs : Bool) (gpu : Option Int)
      (glob : String) (kl tl : Nat) (kk kd km : Bool),
      ∃ A B,
        (MethodA.process_scan eng d hasCrs gpu glob kl tl kk kd
            km).1 = A ++ B ∧
          (∀ e ∈ A, Event.isMatchAlign e = false) ∧
          (∀ e ∈ B, Event.isCalibMut e = false) ∧
          ((∃ e ∈ A ++ B, Event.isMatchAlign e = true) →
            eng.sensorsEmpty = false →
            Event.ecall ECall.lockFixedCalibration
              (eng.callResult ECall.lockFixedCalibration) ∈ A)) ∧
    (∀ eng : Engine, (MethodA.lockCalibStep eng).2 = Except.ok ()) :=
  ⟨fun _ _ => ⟨rfl, rfl, rfl, rfl, rfl, rfl, rfl, rfl, rfl, rfl, rfl⟩,
    processB_optMask, processB_split, processA_optMask, processA_split,
    lockCalib_snd⟩

/-- Witness for C2 at concrete inputs: the seeded calibration carries the
provided focal length, and the split holds for a concrete happy-path
run. -/
theorem claim_C2_witness :
    (MethodB.mkCal Engine.allOk (10276.64 : Rat)).f = 10276.64 ∧
    (∀ e ∈ (MethodB.process_scan Engine.allOk
        ⟨"X__DISC3D", true, [⟨"u__edof", true, ["p.png"]⟩],
          ["c__CamPos.txt"], [], false⟩ (10276.64 : Rat) true).1,
      Event.optimizeMaskIs FitMask.fOnly e = true) ∧
    (∃ A B,
      (MethodB.process_scan Engine.allOk
        ⟨"X__DISC3D", true, [⟨"u__edof", true, ["p.png"]⟩],
          ["c__CamPos.txt"], [], false⟩ (10276.64 : Rat) true).1 =
          A ++ B ∧
        (∀ e ∈ A, Event.isMatchAlign e = false) ∧
        (∀ e ∈ B, Event.isCalibMut e = false) ∧
        ((∃ e ∈ A ++ B, Event.isMatchAlign e = true) →
          Event.setUserCalib (MethodB.mkCal Engine.allOk
            (10276.64 : Rat)) ∈ A ∧
            Event.setCalibration (MethodB.mkCal Engine.allOk
              (10276.64 : Rat)) ∈ A ∧
            Event.setFixedCalibration false ∈ A)) :=
  ⟨(claim_C2.1 Engine.allOk (10276.64 : Rat)).1,
    claim_C2.2.1 Engine.allOk
      ⟨"X__DISC3D", true, [⟨"u__edof", true, ["p.png"]⟩],
        ["c__CamPos.txt"], [], false⟩ (10276.64 : Rat) true,
    claim_C2.2.2.1 Engine.allOk
      ⟨"X__DISC3D", true, [⟨"u__edof", true, ["p.png"]⟩],
        ["c__CamPos.txt"], [], false⟩ (10276.64 : Rat) true⟩

/-- C2 counterexample: on an engine where the guarded
`fixed_calibration = True` assignment raises (the source swallows it), a
complete Method A run reaches matching and even finishes `ok` although no
calibration lock ever succeeded: the fit mask is NOT fully set before
the first matching call. -/
theorem claim_C2_counterexample :
    (∃ e ∈ (MethodA.process_scan lockFailEngine
        ⟨"X__DISC3D", true, [⟨"u__edof", true, ["p.png"]⟩], [],
          ["cc.xml"], true⟩ true none "*_Calibrated_Cameras_*.xml"
        40000 4000 true true true).1, Event.isMatchAlign e = true) ∧
    (∀ e ∈ (MethodA.process_scan lockFailEngine
        ⟨"X__DISC3D", true, [⟨"u__edof", true, ["p.png"]⟩], [],
          ["cc.xml"], true⟩ true none "*_Calibrated_Cameras_*.xml"
        40000 4000 true true true).1,
      e ≠ Event.ecall ECall.lockFixedCalibration Outcome.ok ∧
        e ≠ Event.setFixedCalibration true) ∧
    (∃ msg, (MethodA.process_scan lockFailEngine
        ⟨"X__DISC3D", true, [⟨"u__edof", true, ["p.png"]⟩], [],
          ["cc.xml"], true⟩ true none "*_Calibrated_Cameras_*.xml"
        40000 4000 true true true).2 = Except.ok ("ok", msg)) :=
  ⟨by decide, by decide, ⟨_, rfl⟩⟩

/-- C4: unit resolution is total in both methods.  A folder resolves
exactly when the uid folder exists, its image set is nonempty and the
reference artifact is present (exactly one CamPos file in Method B, at
least one XML match in Method A — the source selects the first of
several, see C7); otherwise `process_scan` returns a fail result carrying
the descriptive reason computed by validation, and its trace contains no
engine call (Method B rejects with an entirely empty trace). -/
theorem claim_C4 :
    (∀ (eng : Engine) (d : ScanDir) (f_px : Rat) (hasCrs : Bool)
      (r : String), MethodB.validationError d = some r →
      MethodB.process_scan eng d f_px hasCrs =
        ([], Except.ok ("fail", r))) ∧
    (∀ d : ScanDir, MethodB.validationError d = none ↔
      ∃ uid, (MethodB.get_uid_and_dataset d).1 = some uid ∧
        (imgsOf d uid).isEmpty = false ∧ d.camposFiles.length = 1) ∧
    (∀ (eng : Engine) (d : ScanDir) (hasCrs : Bool) (gpu : Option Int)
      (glob : String) (kl tl : Nat) (kk kd km : Bool) (r : String),
      MethodA.validationError d glob = some r →
      (MethodA.process_scan eng d hasCrs gpu glob kl tl kk kd km).2 =
          Except.ok ("fail", r) ∧
        ∀ e ∈ (MethodA.process_scan eng d hasCrs gpu glob kl tl kk kd km).1,
          Event.isEngineCall e = false) ∧
    (∀ (d : ScanDir) (glob : String),
      MethodA.validationError d glob = none ↔
        ∃ uid, (MethodA.get_uid_dataset d).1 = some uid ∧
          (imgsOf d uid).isEmpty = false ∧
          (sortStrings d.modelsXmlMatches).head?.isSome = true) :=
  ⟨fun eng d f_px hasCrs _ h => processB_validation_fail h eng f_px hasCrs,
    validationErrorB_none_iff,
    fun eng d hasCrs gpu glob kl tl kk kd km _ h =>
      processA_validation_fail h eng hasCrs gpu kl tl kk kd km,
    validationErrorA_none_iff⟩

/-- Witness for C4: a valid Method B folder whose CamPos file is missing
is rejected with the CamPos reason and an empty trace, hence no engine
call is attempted; a Method A folder without a uid folder is rejected
with no engine call either. -/
theorem claim_C4_witness :
    MethodB.process_scan Engine.allOk
        ⟨"X__DISC3D", true, [⟨"u__edof", true, ["p.png"]⟩], [], [], false⟩
        10 true =
      ([], Except.ok ("fail", "Missing or multiple CamPos.txt")) ∧
    ((MethodA.process_scan Engine.allOk
        ⟨"Y__DISC3D", true, [], [], ["a.xml"], false⟩
        true none "*.xml" 1 1 false false false).2 =
      Except.ok ("fail", "No <uid>__edof folder found") ∧
      ∀ e ∈ (MethodA.process_scan Engine.allOk
        ⟨"Y__DISC3D", true, [], [], ["a.xml"], false⟩
        true none "*.xml" 1 1 false false false).1,
        Event.isEngineCall e = false) :=
  ⟨claim_C4.1 Engine.allOk
      ⟨"X__DISC3D", true, [⟨"u__edof", true, ["p.png"]⟩], [], [], false⟩
      10 true "Missing or multiple CamPos.txt" (by decide),
    claim_C4.2.2.1 Engine.allOk
      ⟨"Y__DISC3D", true, [], [], ["a.xml"], false⟩
      true none "*.xml" 1 1 false false false
      "No <uid>__edof folder found" (by decide)⟩

/-- C10: filesystem atomicity of validation differs between the methods.
Every Method B validation failure leaves a completely empty trace — no
directory creation, no file write, no engine call — while a Method A unit
rejected for a missing calibrated-cameras XML has already emitted the
`models/` directory creation, because `models.mkdir` runs before the XML
check (Method A failures on the uid folder or the image set still happen
before the mkdir). -/
theorem claim_C10 :
    (∀ (eng : Engine) (d : ScanDir) (f_px : Rat) (hasCrs : Bool)
      (r : String), MethodB.validationError d = some r →
      MethodB.process_scan eng d f_px hasCrs =
        ([], Except.ok ("fail", r))) ∧
    (∀ (eng : Engine) (d : ScanDir) (hasCrs : Bool) (gpu : Option Int)
      (glob : String) (kl tl : Nat) (kk kd km : Bool) (uid : String),
      (MethodA.get_uid_dataset d).1 = some uid →
      (imgsOf d uid).isEmpty = false →
      d.modelsXmlMatches = [] →
      MethodA.process_scan eng d hasCrs gpu glob kl tl kk kd km =
        ([Event.mkdirModels],
          Except.ok ("fail", "No calibrated cameras XML found in " ++
            d.name ++ "/models matching " ++ glob))) ∧
    (∀ (eng : Engine) (d : ScanDir) (hasCrs : Bool) (gpu : Option Int)
      (glob : String) (kl tl : Nat) (kk kd km : Bool),
      (MethodA.get_uid_dataset d).1 = none →
      MethodA.process_scan eng d hasCrs gpu glob kl tl kk kd km =
        ([], Except.ok ("fail", "No <uid>__edof folder found"))) := by
  refine ⟨fun eng d f_px hasCrs _ h =>
    processB_validation_fail h eng f_px hasCrs,
    fun eng d hasCrs gpu glob kl tl kk kd km uid huid himgs hxml =>
      processA_noxml eng hasCrs gpu glob kl tl kk kd km huid himgs hxml,
    ?_⟩
  intro eng d hasCrs gpu glob kl tl kk kd km huid
  unfold MethodA.process_scan
  simp only [huid]
  rfl

/-- Witness for C10: the same missing-CamPos Method B folder is rejected
with an empty trace, while a Method A folder that only lacks the XML is
rejected with the `models/` directory already created. -/
theorem claim_C10_witness :
    MethodB.process_scan Engine.allOk
        ⟨"X__DISC3D", true, [⟨"u__edof", true, ["p.png"]⟩],
          ["a__CamPos.txt", "b__CamPos.txt"], [], false⟩ 10 false =
      ([], Except.ok ("fail", "Missing or multiple CamPos.txt")) ∧
    MethodA.process_scan Engine.allOk
        ⟨"X__DISC3D", true, [⟨"u__edof", true, ["p.png"]⟩], [], [], false⟩
        false none "*.xml" 1 1 false false false =
      ([Event.mkdirModels],
        Except.ok ("fail", "No calibrated cameras XML found in " ++
          "X__DISC3D" ++ "/models matching " ++ "*.xml")) :=
  ⟨claim_C10.1 Engine.allOk
      ⟨"X__DISC3D", true, [⟨"u__edof", true, ["p.png"]⟩],
        ["a__CamPos.txt", "b__CamPos.txt"], [], false⟩ 10 false
      "Missing or multiple CamPos.txt" (by decide),
    claim_C10.2.1 Engine.allOk
      ⟨"X__DISC3D", true, [⟨"u__edof", true, ["p.png"]⟩], [], [], false⟩
      false none "*.xml" 1 1 false false false "u"
      (by decide) (by decide) rfl⟩

/-- C7: in Method A, zero files matching the XML glob fails the unit with
a reason naming the missing calibrated-camera artifact; otherwise the
selected artifact is the head of the sorted match list, which is a
deterministic choice (invariant under the discovery order of the glob)
and is the minimal match in sort order.  The source requires at least one
match; it does not reject multiple matches. -/
theorem claim_C7 :
    (∀ (eng : Engine) (d : ScanDir) (hasCrs : Bool) (gpu : Option Int)
      (xml_glob : String) (kl tl : Nat) (kk kd km : Bool) (uid : String),
      (MethodA.get_uid_dataset d).1 = some uid →
      (imgsOf d uid).isEmpty = false →
      d.modelsXmlMatches = [] →
      MethodA.process_scan eng d hasCrs gpu xml_glob kl tl kk kd km =
        ([Event.mkdirModels],
          Except.ok ("fail", "No calibrated cameras XML found in " ++
            d.name ++ "/models matching " ++ xml_glob))) ∧
    (∀ (eng : Engine) (d : ScanDir) (hasCrs : Bool) (gpu : Option Int)
      (xml_glob : String) (kl tl : Nat) (kk kd km : Bool)
      (uid xml : String),
      (MethodA.get_uid_dataset d).1 = some uid →
      (imgsOf d uid).isEmpty = false →
      (sortStrings d.modelsXmlMatches).head? = some xml →
      MethodA.process_scan eng d hasCrs gpu xml_glob kl tl kk kd km =
        mbind (emit Event.mkdirModels)
          (fun _ => MethodA.enginePhaseA eng hasCrs gpu (imgsOf d uid) xml
            ("models/" ++ (MethodA.get_uid_dataset d).2 ++ ".psz")
            kl tl kk kd km)) ∧
    (∀ xs ys : List String, xs.Perm ys →
      (sortStrings xs).head? = (sortStrings ys).head?) ∧
    (∀ (xs : List String) (m : String),
      (sortStrings xs).head? = some m →
        m ∈ xs ∧ ∀ y ∈ xs, strLe m y = true) := by
  refine ⟨?_, ?_, fun _ _ h => sortStrings_head_deterministic h,
    fun _ _ h => sortStrings_head_min h⟩
  · intro eng d hasCrs gpu xml_glob kl tl kk kd km uid huid himgs hxml
    unfold MethodA.process_scan
    simp only [huid, himgs, hxml, Bool.false_eq_true, if_false, sortStrings,
      List.insertionSort, List.head?_nil]
    rfl
  · intro eng d hasCrs gpu xml_glob kl tl kk kd km uid xml huid himgs hxml
    unfold MethodA.process_scan
    simp only [huid, himgs, hxml, Bool.false_eq_true, if_false]

/-- Witness for C7: a unit with no XML match fails with the artifact
named in the reason; with matches discovered in either order the
selection is the same minimal element. -/
theorem claim_C7_witness :
    MethodA.process_scan Engine.allOk
        ⟨"X__DISC3D", true, [⟨"u__edof", true, ["p.png"]⟩], [], [], false⟩
        false none "*_Calibrated_Cameras_*.xml" 1 1 false false false =
      ([Event.mkdirModels],
        Except.ok ("fail", "No calibrated cameras XML found in " ++
          "X__DISC3D" ++ "/models matching " ++
          "*_Calibrated_Cameras_*.xml")) ∧
    (sortStrings ["b.xml", "a.xml"]).head? =
      (sortStrings ["a.xml", "b.xml"]).head? ∧
    ("a.xml" ∈ ["b.xml", "a.xml"] ∧
      ∀ y ∈ ["b.xml", "a.xml"], strLe "a.xml" y = true) :=
  ⟨claim_C7.1 Engine.allOk
      ⟨"X__DISC3D", true, [⟨"u__edof", true, ["p.png"]⟩], [], [], false⟩
      false none "*_Calibrated_Cameras_*.xml" 1 1 false false false "u"
      (by decide) (by decide) rfl,
    claim_C7.2.2.1 ["b.xml", "a.xml"] ["a.xml", "b.xml"] (by decide),
    claim_C7.2.2.2 ["b.xml", "a.xml"] "a.xml" (by decide)⟩

end Disc3D
